import Mathlib

/-!
# Corblivar thermal analyzer (power blurring)

Shallow embedding of `src/src/ThermalAnalyzer.cpp`.

Conventions of the embedding.

* `double` values are elements of a linear ordered field `α` (exact arithmetic); the
  rasterisation additionally needs a floor function for `static_cast<int>`.  The thermal
  masks use `exp`, `log`, `sqrt` and `pow` and therefore live in `ℝ`.
* `int` loop variables and indices are `Int`; the values that occur are far from the range
  limits of a machine `int`.
* A `std::array` is a function on `Nat` together with its dimension.  Every access checks
  the index against the dimension; an access outside the array is undefined behaviour in
  C++ and makes the embedded function return `none`.
* The `std::vector`s `power_maps` and `thermal_masks` are read as functions of the layer
  index; they are taken to hold at least `layers` entries, which is what `initPowerMaps`
  and `initThermalMasks` called with the same layer count provide.  `initThermalMasks`
  returns the vector it builds as a list.
* Divisions are those of the field.  The divisors of the geometry and of the mask scale are
  non-zero under the assumptions of the theorems (positive outline and dimensions); the
  normalisation in `performPowerBlurring` divides by a run-time value and returns `none`
  for a zero divisor, where the `double` result is no real number.
* The constants of `ThermalAnalyzer.hpp` (not part of the sources at hand) are the fields of
  `Config`.
-/

namespace ThermalAnalyzer

/-- Constants declared in `ThermalAnalyzer.hpp`. -/
structure Config (α : Type) where
  THERMAL_MAP_DIM : Nat
  POWER_MAPS_PADDED_BINS : Nat
  POWER_MAPS_DIM : Nat
  THERMAL_MASK_DIM : Nat
  THERMAL_MASK_CENTER : Nat
  ROOM_TEMPERATURE_K : α
  PADDING_ZONE_BLOCKS_DISTANCE_LIMIT : α

/-- Contents of a square `array<array<double,N>,N>`; only entries below `N` are storage. -/
abbrev Grid (α : Type) := Nat → Nat → α

/-- The effect of `m.fill(v)` on every row of a grid. -/
def Grid.fill {α : Type} (v : α) : Grid α := fun _ _ => v

/-- Read `a[i]` of an array of length `dim`. -/
def Arr.get? {α : Type} (dim : Nat) (a : Nat → α) (i : Int) : Option α :=
  if 0 ≤ i ∧ i < dim then some (a i.toNat) else none

/-- Read `g[x][y]` of a `dim × dim` grid. -/
def Grid.get? {α : Type} (dim : Nat) (g : Grid α) (x y : Int) : Option α :=
  if 0 ≤ x ∧ x < dim ∧ 0 ≤ y ∧ y < dim then some (g x.toNat y.toNat) else none

/-- The statement `g[x][y] += v` on a `dim × dim` grid. -/
def Grid.add? {α : Type} [Add α] (dim : Nat) (g : Grid α) (x y : Int) (v : α) :
    Option (Grid α) :=
  if 0 ≤ x ∧ x < dim ∧ 0 ≤ y ∧ y < dim then
    some (fun a b => if a = x.toNat ∧ b = y.toNat then g a b + v else g a b)
  else none

/-- The loop `for (i = lo; i < hi; i++) body` with loop state `s`. -/
def forRange {σ : Type} (lo hi : Int) (body : Int → σ → Option σ) (s : σ) : Option σ :=
  (List.range (hi - lo).toNat).foldlM (fun s (k : Nat) => body (lo + (k : Int)) s) s

section Blurring

variable {α : Type} [LinearOrderedField α]

/-- Horizontal convolution, lines 58-106: accumulates into `thermal_map_tmp`. -/
def horizontalPass (cfg : Config α) (power_maps : Nat → Grid α)
    (thermal_masks : Nat → Nat → α) (layers : Int) (thermal_map_tmp : Grid α) :
    Option (Grid α) :=
  forRange 0 layers (fun layer tmp =>
    forRange 0 cfg.POWER_MAPS_DIM (fun y tmp =>
      forRange cfg.POWER_MAPS_PADDED_BINS
          (cfg.THERMAL_MAP_DIM + cfg.POWER_MAPS_PADDED_BINS) (fun x tmp =>
        forRange 0 cfg.THERMAL_MASK_DIM (fun mask_i tmp => do
          let i := x + (mask_i - cfg.THERMAL_MASK_CENTER)
          let p ← Grid.get? cfg.POWER_MAPS_DIM (power_maps layer.toNat) i y
          let m ← Arr.get? cfg.THERMAL_MASK_DIM (thermal_masks layer.toNat) mask_i
          Grid.add? cfg.POWER_MAPS_DIM tmp x y (p * m)) tmp) tmp) tmp) thermal_map_tmp

/-- Vertical convolution, lines 109-144: accumulates into `thermal_map`. -/
def verticalPass (cfg : Config α) (thermal_map_tmp : Grid α)
    (thermal_masks : Nat → Nat → α) (layers : Int) (thermal_map : Grid α) :
    Option (Grid α) :=
  forRange 0 layers (fun layer tm =>
    forRange cfg.POWER_MAPS_PADDED_BINS
        (cfg.THERMAL_MAP_DIM + cfg.POWER_MAPS_PADDED_BINS) (fun x tm =>
      let map_x := x - cfg.POWER_MAPS_PADDED_BINS
      forRange cfg.POWER_MAPS_PADDED_BINS
          (cfg.THERMAL_MAP_DIM + cfg.POWER_MAPS_PADDED_BINS) (fun y tm =>
        let map_y := y - cfg.POWER_MAPS_PADDED_BINS
        forRange 0 cfg.THERMAL_MASK_DIM (fun mask_i tm => do
          let i := y + (mask_i - cfg.THERMAL_MASK_CENTER)
          let t ← Grid.get? cfg.POWER_MAPS_DIM thermal_map_tmp x i
          let m ← Arr.get? cfg.THERMAL_MASK_DIM (thermal_masks layer.toNat) mask_i
          Grid.add? cfg.THERMAL_MAP_DIM tm map_x map_y (t * m)) tm) tm) tm) thermal_map

/-- Maximum scan, lines 146-152. -/
def maxScan (cfg : Config α) (thermal_map : Grid α) : Option α :=
  forRange 0 cfg.THERMAL_MAP_DIM (fun x max_temp =>
    forRange 0 cfg.THERMAL_MAP_DIM (fun y max_temp => do
      let t ← Grid.get? cfg.THERMAL_MAP_DIM thermal_map x y
      some (max max_temp t)) max_temp) 0

/-- What a call of `performPowerBlurring` leaves behind: the member `thermal_map`, the
reference argument `max_cost_temp`, and the returned value.  The returned value is `none`
when the division `max_temp /= max_cost_temp` has a zero divisor, where the `double`
result is an infinity or a NaN and no real number. -/
structure BlurResult (α : Type) where
  thermal_map : Grid α
  max_cost_temp : α
  ret : Option α

/-- The routine `ThermalAnalyzer::performPowerBlurring`, lines 28-169. -/
def performPowerBlurring (cfg : Config α) (power_maps : Nat → Grid α)
    (thermal_masks : Nat → Nat → α) (layers : Int) (max_cost_temp : α)
    (set_max_cost normalize : Bool) : Option (BlurResult α) := do
  let thermal_map_tmp : Grid α := Grid.fill 0
  let thermal_map : Grid α := Grid.fill cfg.ROOM_TEMPERATURE_K
  let thermal_map_tmp ← horizontalPass cfg power_maps thermal_masks layers thermal_map_tmp
  let thermal_map ← verticalPass cfg thermal_map_tmp thermal_masks layers thermal_map
  let max_temp ← maxScan cfg thermal_map
  let max_cost_temp := if set_max_cost then max_temp else max_cost_temp
  let ret := if normalize then
      (if max_cost_temp = 0 then none else some (max_temp / max_cost_temp))
    else some max_temp
  some { thermal_map := thermal_map, max_cost_temp := max_cost_temp, ret := ret }

/-- Value of the horizontal 1D convolution at the padded bin `(a, b)`, all layers. -/
def hconv (cfg : Config α) (power_maps : Nat → Grid α) (thermal_masks : Nat → Nat → α)
    (layers : Nat) (a b : Nat) : α :=
  ∑ l in Finset.range layers, ∑ m in Finset.range cfg.THERMAL_MASK_DIM,
    power_maps l (a + m - cfg.THERMAL_MASK_CENTER) b * thermal_masks l m

/-- Value the vertical 1D convolution adds at the visible bin `(a, b)`, all layers. -/
def vconv (cfg : Config α) (thermal_map_tmp : Grid α) (thermal_masks : Nat → Nat → α)
    (layers : Nat) (a b : Nat) : α :=
  ∑ l in Finset.range layers, ∑ m in Finset.range cfg.THERMAL_MASK_DIM,
    thermal_map_tmp (cfg.POWER_MAPS_PADDED_BINS + a)
      (cfg.POWER_MAPS_PADDED_BINS + b + m - cfg.THERMAL_MASK_CENTER) * thermal_masks l m

/-- Contents of `thermal_map_tmp` after the horizontal pass. -/
def tmpMapOf (cfg : Config α) (power_maps : Nat → Grid α) (thermal_masks : Nat → Nat → α)
    (layers : Nat) : Grid α := fun a b =>
  if cfg.POWER_MAPS_PADDED_BINS ≤ a ∧
      a < cfg.THERMAL_MAP_DIM + cfg.POWER_MAPS_PADDED_BINS ∧ b < cfg.POWER_MAPS_DIM
  then hconv cfg power_maps thermal_masks layers a b else 0

/-- Contents of `thermal_map` after the vertical pass. -/
def thermalMapOf (cfg : Config α) (power_maps : Nat → Grid α)
    (thermal_masks : Nat → Nat → α) (layers : Nat) : Grid α := fun a b =>
  cfg.ROOM_TEMPERATURE_K +
    if a < cfg.THERMAL_MAP_DIM ∧ b < cfg.THERMAL_MAP_DIM
    then vconv cfg (tmpMapOf cfg power_maps thermal_masks layers) thermal_masks layers a b
    else 0

end Blurring

section Examples

/-- Smallest grid: one visible bin, one padding bin per side, three-entry masks. -/
def cfgSmall : Config ℚ :=
  { THERMAL_MAP_DIM := 1, POWER_MAPS_PADDED_BINS := 1, POWER_MAPS_DIM := 3,
    THERMAL_MASK_DIM := 3, THERMAL_MASK_CENTER := 1, ROOM_TEMPERATURE_K := 293,
    PADDING_ZONE_BLOCKS_DISTANCE_LIMIT := 1 / 100 }

/-- Two layers; layer 0 dissipates 1 in the visible bin, layer 1 nothing. -/
def powerTwoLayers : Nat → Grid ℚ := fun l x y => if l = 0 ∧ x = 1 ∧ y = 1 then 1 else 0

/-- Symmetric positive masks: `[1, 2, 1]` for layer 0 and `[1, 1, 1]` for the others. -/
def masksTwoLayers : Nat → Nat → ℚ := fun l m => if l = 0 ∧ m = 1 then 2 else 1

/-- One layer whose visible bin holds the power `-293/4`: with the mask `[1, 2, 1]` the only
visible entry of the thermal map is `293 - 4 · 293/4 = 0`. -/
def powerZeroMaximum : Nat → Grid ℚ :=
  fun l x y => if l = 0 ∧ x = 1 ∧ y = 1 then -293 / 4 else 0

end Examples

section SpecForms

variable {α : Type} [LinearOrderedField α]

/-- The value the specification gives for the thermal map at the padded position `(x, y)`:
room temperature plus, for every layer, the 2D convolution of that layer's power map with
the product of that layer's mask with itself. -/
def layerwiseConvolution (cfg : Config α) (power_maps : Nat → Grid α)
    (thermal_masks : Nat → Nat → α) (layers : Nat) (x y : Nat) : α :=
  cfg.ROOM_TEMPERATURE_K +
    ∑ l in Finset.range layers, ∑ m in Finset.range cfg.THERMAL_MASK_DIM,
      ∑ n in Finset.range cfg.THERMAL_MASK_DIM,
        power_maps l (x + m - cfg.THERMAL_MASK_CENTER) (y + n - cfg.THERMAL_MASK_CENTER)
          * thermal_masks l m * thermal_masks l n

end SpecForms

section Masks

/-- The statement `a[i] = v` on an array of length `dim`. -/
def Arr.set? {α : Type} (dim : Nat) (a : Nat → α) (i : Int) (v : α) : Option (Nat → α) :=
  if 0 ≤ i ∧ i < dim then some (fun k => if k = i.toNat then v else a k) else none

/-- The configuration input `MaskParameters`. -/
structure MaskParameters where
  impulse_factor : ℝ
  impulse_factor_scaling_exponent : ℝ
  mask_boundary_value : ℝ

/-- Modelled from the spec: `Math::gauss1D` of `Math.hpp`, which is not among the sources;
the specification gives `gauss1D(x, amplitude, spread) = amplitude · exp(-x²/(2·spread²))`. -/
noncomputable def Math.gauss1D (value factor spread : ℝ) : ℝ :=
  factor * Real.exp (-(value ^ 2) / (2 * spread ^ 2))

/-- The scale factor of `initThermalMasks`, lines 393-396. -/
noncomputable def maskScale (cfg : Config ℝ) (parameters : MaskParameters) : ℝ :=
  let SPREAD : ℝ := 1
  let scale := Real.sqrt (SPREAD *
    Real.log (parameters.impulse_factor / parameters.mask_boundary_value)) / Real.sqrt 2
  scale / (cfg.THERMAL_MASK_CENTER : ℝ)

/-- The routine `ThermalAnalyzer::initThermalMasks`, lines 368-441, without its logging.
The result is the vector `thermal_masks`; `mask0` is the indeterminate initial content of
the local array `mask`. -/
noncomputable def initThermalMasks (cfg : Config ℝ) (layers : Int)
    (parameters : MaskParameters) (mask0 : Nat → ℝ) : Option (List (Nat → ℝ)) :=
  let SPREAD : ℝ := 1
  let scale := maskScale cfg parameters
  (forRange 1 (layers + 1) (fun i (st : (Nat → ℝ) × List (Nat → ℝ)) =>
    let layer_impulse_factor :=
      parameters.impulse_factor / ((i : ℝ) ^ parameters.impulse_factor_scaling_exponent)
    (forRange (-(cfg.THERMAL_MASK_CENTER : Int)) ((cfg.THERMAL_MASK_CENTER : Int) + 1)
      (fun x_y (s : (Nat → ℝ) × Int) =>
        (Arr.set? cfg.THERMAL_MASK_DIM s.1 s.2
          (Math.gauss1D ((x_y : ℝ) * scale) (Real.sqrt layer_impulse_factor) SPREAD)).map
          (fun mask => (mask, s.2 + 1)))
      (st.1, 0)).map (fun s => (s.1, st.2 ++ [s.1])))
    (mask0, [])).map Prod.snd

/-- The mask `initThermalMasks` pushes for the layer distance `i`, as a closed form. -/
noncomputable def maskOf (cfg : Config ℝ) (parameters : MaskParameters) (mask0 : Nat → ℝ)
    (i : Nat) : Nat → ℝ := fun ii =>
  if ii < 2 * cfg.THERMAL_MASK_CENTER + 1 then
    Math.gauss1D ((((ii : Int) - (cfg.THERMAL_MASK_CENTER : Int) : Int) : ℝ)
        * maskScale cfg parameters)
      (Real.sqrt (parameters.impulse_factor /
        ((i : ℝ) ^ parameters.impulse_factor_scaling_exponent))) 1
  else mask0 ii

/-- The routine `ThermalAnalyzer::initThermalMasks`, lines 368-441, without its logging, with
the helper `Math::gauss1D` of `Math.hpp`, which is not among the sources, taken as the
parameter `gauss1D`.  At `Math.gauss1D` it is `initThermalMasks`. -/
noncomputable def initThermalMasksWith (gauss1D : ℝ → ℝ → ℝ → ℝ) (cfg : Config ℝ)
    (layers : Int) (parameters : MaskParameters) (mask0 : Nat → ℝ) :
    Option (List (Nat → ℝ)) :=
  let SPREAD : ℝ := 1
  let scale := maskScale cfg parameters
  (forRange 1 (layers + 1) (fun i (st : (Nat → ℝ) × List (Nat → ℝ)) =>
    let layer_impulse_factor :=
      parameters.impulse_factor / ((i : ℝ) ^ parameters.impulse_factor_scaling_exponent)
    (forRange (-(cfg.THERMAL_MASK_CENTER : Int)) ((cfg.THERMAL_MASK_CENTER : Int) + 1)
      (fun x_y (s : (Nat → ℝ) × Int) =>
        (Arr.set? cfg.THERMAL_MASK_DIM s.1 s.2
          (gauss1D ((x_y : ℝ) * scale) (Real.sqrt layer_impulse_factor) SPREAD)).map
          (fun mask => (mask, s.2 + 1)))
      (st.1, 0)).map (fun s => (s.1, st.2 ++ [s.1])))
    (mask0, [])).map Prod.snd

end Masks

section MaskExamples

/-- Three-entry masks over the reals: `THERMAL_MASK_DIM = 3`, `THERMAL_MASK_CENTER = 1`. -/
noncomputable def cfgSmallReal : Config ℝ :=
  { THERMAL_MAP_DIM := 1, POWER_MAPS_PADDED_BINS := 1, POWER_MAPS_DIM := 3,
    THERMAL_MASK_DIM := 3, THERMAL_MASK_CENTER := 1, ROOM_TEMPERATURE_K := 293,
    PADDING_ZONE_BLOCKS_DISTANCE_LIMIT := 1 / 100 }

/-- Mask parameters with impulse factor 4, scaling exponent 1 and boundary value 1. -/
noncomputable def paramsFourOne : MaskParameters :=
  { impulse_factor := 4, impulse_factor_scaling_exponent := 1, mask_boundary_value := 1 }

end MaskExamples

section PowerMaps

variable {α : Type} [LinearOrderedField α] [FloorRing α]

/-- A point of `Rect.hpp`. -/
structure Point (α : Type) where
  x : α
  y : α

/-- The members of the external rectangle type that the analyzer touches: the lower-left and
upper-right corners and the stored area. -/
structure Rect (α : Type) where
  ll : Point α
  ur : Point α
  area : α

/-- The members of the external block type that the analyzer reads. -/
structure Block (α : Type) where
  bb : Rect α
  power_density : α
  layer : Int

/-- Modelled from the spec: `Rect::determineIntersection` of `Rect.hpp`, which is not among
the sources; the specification gives "an intersection operation between two rectangles
(returns the overlapping rectangle and its area, zero if disjoint)". -/
def Rect.determineIntersection (a b : Rect α) : Rect α :=
  let ll : Point α := { x := max a.ll.x b.ll.x, y := max a.ll.y b.ll.y }
  let ur : Point α := { x := min a.ur.x b.ur.x, y := min a.ur.y b.ur.y }
  { ll := ll, ur := ur,
    area := if ll.x ≤ ur.x ∧ ll.y ≤ ur.y then (ur.x - ll.x) * (ur.y - ll.y) else 0 }

/-- The conversion `static_cast<int>(v)`: truncation toward zero. -/
def truncToInt (v : α) : Int := if 0 ≤ v then ⌊v⌋ else ⌈v⌉

/-- The members of `ThermalAnalyzer` that `initPowerMaps` sets and `generatePowerMaps`
uses.  The two coordinate tables are arrays of length `POWER_MAPS_DIM + 1`. -/
structure PowerMaps (α : Type) where
  power_maps : Nat → Grid α
  power_maps_dim_x : α
  power_maps_dim_y : α
  blocks_offset_x : α
  blocks_offset_y : α
  padding_right_boundary_blocks_distance : α
  padding_upper_boundary_blocks_distance : α
  power_maps_bin_area : α
  power_maps_bins_ll_x : Nat → α
  power_maps_bins_ll_y : Nat → α

/-- The routine `ThermalAnalyzer::initPowerMaps`, lines 312-360; `self` holds the members
before the call. -/
def initPowerMaps (cfg : Config α) (self : PowerMaps α) (_layers : Int)
    (outline_x outline_y : α) : Option (PowerMaps α) := do
  let power_maps : Nat → Grid α := fun _ => Grid.fill 0
  let power_maps_dim_x := outline_x / (cfg.THERMAL_MAP_DIM : α)
  let power_maps_dim_y := outline_y / (cfg.THERMAL_MAP_DIM : α)
  let blocks_offset_x := power_maps_dim_x * (cfg.POWER_MAPS_PADDED_BINS : α)
  let blocks_offset_y := power_maps_dim_y * (cfg.POWER_MAPS_PADDED_BINS : α)
  let padding_right := cfg.PADDING_ZONE_BLOCKS_DISTANCE_LIMIT * outline_x
  let padding_upper := cfg.PADDING_ZONE_BLOCKS_DISTANCE_LIMIT * outline_y
  let power_maps_bin_area := power_maps_dim_x * power_maps_dim_y
  let bins_ll_x ← forRange 0 ((cfg.POWER_MAPS_DIM : Int) + 1) (fun b t =>
    Arr.set? (cfg.POWER_MAPS_DIM + 1) t b ((b : α) * power_maps_dim_x))
    self.power_maps_bins_ll_x
  let bins_ll_y ← forRange 0 ((cfg.POWER_MAPS_DIM : Int) + 1) (fun b t =>
    Arr.set? (cfg.POWER_MAPS_DIM + 1) t b ((b : α) * power_maps_dim_y))
    self.power_maps_bins_ll_y
  some { power_maps := power_maps,
         power_maps_dim_x := power_maps_dim_x,
         power_maps_dim_y := power_maps_dim_y,
         blocks_offset_x := blocks_offset_x,
         blocks_offset_y := blocks_offset_y,
         padding_right_boundary_blocks_distance := padding_right,
         padding_upper_boundary_blocks_distance := padding_upper,
         power_maps_bin_area := power_maps_bin_area,
         power_maps_bins_ll_x := bins_ll_x,
         power_maps_bins_ll_y := bins_ll_y }

/-- The offset bounding box of a block, lines 199-240. -/
def blockOffset (self : PowerMaps α) (block : Block α) (outline_x outline_y : α)
    (extend_boundary_blocks_into_padding_zone : Bool) : Rect α :=
  let block_offset := block.bb
  let block_offset :=
    if extend_boundary_blocks_into_padding_zone = true ∧ block.bb.ll.x = 0 then block_offset
    else { block_offset with
      ll := { block_offset.ll with x := block_offset.ll.x + self.blocks_offset_x } }
  let block_offset :=
    if extend_boundary_blocks_into_padding_zone = true ∧ block.bb.ll.y = 0 then block_offset
    else { block_offset with
      ll := { block_offset.ll with y := block_offset.ll.y + self.blocks_offset_y } }
  let block_offset :=
    if extend_boundary_blocks_into_padding_zone = true ∧
        |outline_x - block.bb.ur.x| < self.padding_right_boundary_blocks_distance then
      { block_offset with
        ur := { block_offset.ur with x := outline_x + 2 * self.blocks_offset_x } }
    else { block_offset with
      ur := { block_offset.ur with x := block_offset.ur.x + self.blocks_offset_x } }
  let block_offset :=
    if extend_boundary_blocks_into_padding_zone = true ∧
        |outline_y - block.bb.ur.y| < self.padding_upper_boundary_blocks_distance then
      { block_offset with
        ur := { block_offset.ur with y := outline_y + 2 * self.blocks_offset_y } }
    else { block_offset with
      ur := { block_offset.ur with y := block_offset.ur.y + self.blocks_offset_y } }
  block_offset

/-- The body of the two bin loops, lines 255-301, for the bin `(x, y)`: the statement
`power_maps[i][x][y] += ...` on the map `grid` of the current layer. -/
def binStep (cfg : Config α) (self : PowerMaps α) (block : Block α) (block_offset : Rect α)
    (power_density_scaling_padding_zone : α) (x_lower x_upper y_lower y_upper : Int)
    (x y : Int) (grid : Grid α) : Option (Grid α) := do
  let bin_ll_x ← Arr.get? (cfg.POWER_MAPS_DIM + 1) self.power_maps_bins_ll_x x
  let bin_ll_y ← Arr.get? (cfg.POWER_MAPS_DIM + 1) self.power_maps_bins_ll_y y
  let bin_ur_x ← Arr.get? (cfg.POWER_MAPS_DIM + 1) self.power_maps_bins_ll_x (x + 1)
  let bin_ur_y ← Arr.get? (cfg.POWER_MAPS_DIM + 1) self.power_maps_bins_ll_y (y + 1)
  let bin : Rect α :=
    { ll := { x := bin_ll_x, y := bin_ll_y }, ur := { x := bin_ur_x, y := bin_ur_y },
      area := 0 }
  let padding_zone : Bool := decide (
    x < (cfg.POWER_MAPS_PADDED_BINS : Int)
    ∨ x ≥ (cfg.POWER_MAPS_DIM : Int) - (cfg.POWER_MAPS_PADDED_BINS : Int)
    ∨ y < (cfg.POWER_MAPS_PADDED_BINS : Int)
    ∨ y ≥ (cfg.POWER_MAPS_DIM : Int) - (cfg.POWER_MAPS_PADDED_BINS : Int))
  if x_lower < x ∧ x < x_upper - 1 ∧ y_lower < y ∧ y < y_upper - 1 then
    if padding_zone then
      Grid.add? cfg.POWER_MAPS_DIM grid x y
        (block.power_density * power_density_scaling_padding_zone)
    else
      Grid.add? cfg.POWER_MAPS_DIM grid x y block.power_density
  else
    let intersect := Rect.determineIntersection bin block_offset
    if padding_zone then
      Grid.add? cfg.POWER_MAPS_DIM grid x y
        (block.power_density * power_density_scaling_padding_zone *
          (intersect.area / self.power_maps_bin_area))
    else
      Grid.add? cfg.POWER_MAPS_DIM grid x y
        (block.power_density * (intersect.area / self.power_maps_bin_area))

/-- The body of the loop over the blocks, lines 192-304, for the layer `i`. -/
def blockStep (cfg : Config α) (self : PowerMaps α) (i : Int) (outline_x outline_y : α)
    (power_density_scaling_padding_zone : α)
    (extend_boundary_blocks_into_padding_zone : Bool) (grid : Grid α) (block : Block α) :
    Option (Grid α) :=
  if block.layer ≠ i then some grid
  else
    let block_offset := blockOffset self block outline_x outline_y
      extend_boundary_blocks_into_padding_zone
    let x_lower := truncToInt (block_offset.ll.x / self.power_maps_dim_x)
    let y_lower := truncToInt (block_offset.ll.y / self.power_maps_dim_y)
    let x_upper := truncToInt (block_offset.ur.x / self.power_maps_dim_x) + 1
    let y_upper := truncToInt (block_offset.ur.y / self.power_maps_dim_y) + 1
    forRange x_lower x_upper (fun x grid =>
      forRange y_lower y_upper (fun y grid =>
        binStep cfg self block block_offset power_density_scaling_padding_zone
          x_lower x_upper y_lower y_upper x y grid) grid) grid

/-- The routine `ThermalAnalyzer::generatePowerMaps`, lines 171-310; the result is the
member `power_maps`, the only member the routine changes. -/
def generatePowerMaps (cfg : Config α) (self : PowerMaps α) (layers : Int)
    (blocks : List (Block α)) (outline_x outline_y : α)
    (power_density_scaling_padding_zone : α)
    (extend_boundary_blocks_into_padding_zone : Bool) : Option (Nat → Grid α) :=
  forRange 0 layers (fun i power_maps => do
    let grid ← blocks.foldlM (blockStep cfg self i outline_x outline_y
      power_density_scaling_padding_zone extend_boundary_blocks_into_padding_zone)
      (Grid.fill 0)
    some (fun l => if l = i.toNat then grid else power_maps l)) self.power_maps

end PowerMaps

section PowerMapExamples

/-- The scenario of the specification: `ThermalMapDim = 4`, `PaddedBins = 1`,
`PowerMapDim = 6`; the boundary-extension fraction is set to one hundredth. -/
def cfgScenario : Config ℚ :=
  { THERMAL_MAP_DIM := 4, POWER_MAPS_PADDED_BINS := 1, POWER_MAPS_DIM := 6,
    THERMAL_MASK_DIM := 3, THERMAL_MASK_CENTER := 1, ROOM_TEMPERATURE_K := 293,
    PADDING_ZONE_BLOCKS_DISTANCE_LIMIT := 1 / 100 }

/-- Members before `initPowerMaps`: everything zero. -/
def membersZero : PowerMaps ℚ :=
  { power_maps := fun _ => Grid.fill 0, power_maps_dim_x := 0, power_maps_dim_y := 0,
    blocks_offset_x := 0, blocks_offset_y := 0,
    padding_right_boundary_blocks_distance := 0,
    padding_upper_boundary_blocks_distance := 0, power_maps_bin_area := 0,
    power_maps_bins_ll_x := fun _ => 0, power_maps_bins_ll_y := fun _ => 0 }

/-- A block on layer 0 with the bounding box `[llx, urx] × [lly, ury]`. -/
def blockAt (llx lly urx ury density : ℚ) : Block ℚ :=
  { bb := { ll := { x := llx, y := lly }, ur := { x := urx, y := ury },
            area := (urx - llx) * (ury - lly) },
    power_density := density, layer := 0 }

/-- The power maps that `initPowerMaps` and `generatePowerMaps` build on the smallest grid
for one layer and the outline 1 × 1 from one block that covers the outline with the given
power density, without boundary extension. -/
def powerMapsOfBlock (density : ℚ) : Option (Nat → Grid ℚ) :=
  (initPowerMaps cfgSmall membersZero 1 1 1).bind (fun self =>
    generatePowerMaps cfgSmall self 1 [blockAt 0 0 1 1 density] 1 1 1 false)

end PowerMapExamples

section PowerMapForms

variable {α : Type} [LinearOrderedField α] [FloorRing α]

/-- The members after `initPowerMaps`, as a closed form. -/
def geometryOf (cfg : Config α) (self : PowerMaps α) (outline_x outline_y : α) :
    PowerMaps α :=
  { power_maps := fun _ => Grid.fill 0,
    power_maps_dim_x := outline_x / (cfg.THERMAL_MAP_DIM : α),
    power_maps_dim_y := outline_y / (cfg.THERMAL_MAP_DIM : α),
    blocks_offset_x := outline_x / (cfg.THERMAL_MAP_DIM : α) * (cfg.POWER_MAPS_PADDED_BINS : α),
    blocks_offset_y := outline_y / (cfg.THERMAL_MAP_DIM : α) * (cfg.POWER_MAPS_PADDED_BINS : α),
    padding_right_boundary_blocks_distance := cfg.PADDING_ZONE_BLOCKS_DISTANCE_LIMIT * outline_x,
    padding_upper_boundary_blocks_distance := cfg.PADDING_ZONE_BLOCKS_DISTANCE_LIMIT * outline_y,
    power_maps_bin_area :=
      outline_x / (cfg.THERMAL_MAP_DIM : α) * (outline_y / (cfg.THERMAL_MAP_DIM : α)),
    power_maps_bins_ll_x := fun b =>
      if b < cfg.POWER_MAPS_DIM + 1 then (b : α) * (outline_x / (cfg.THERMAL_MAP_DIM : α))
      else self.power_maps_bins_ll_x b,
    power_maps_bins_ll_y := fun b =>
      if b < cfg.POWER_MAPS_DIM + 1 then (b : α) * (outline_y / (cfg.THERMAL_MAP_DIM : α))
      else self.power_maps_bins_ll_y b }

/-- The value the bin loops add to the bin `(x, y)` of the current layer's map. -/
def binValue (cfg : Config α) (self : PowerMaps α) (block : Block α) (block_offset : Rect α)
    (power_density_scaling_padding_zone : α) (x_lower x_upper y_lower y_upper : Int)
    (x y : Nat) : α :=
  let bin : Rect α :=
    { ll := { x := self.power_maps_bins_ll_x x, y := self.power_maps_bins_ll_y y },
      ur := { x := self.power_maps_bins_ll_x (x + 1), y := self.power_maps_bins_ll_y (y + 1) },
      area := 0 }
  let padding_zone : Bool := decide (
    (x : Int) < (cfg.POWER_MAPS_PADDED_BINS : Int)
    ∨ (x : Int) ≥ (cfg.POWER_MAPS_DIM : Int) - (cfg.POWER_MAPS_PADDED_BINS : Int)
    ∨ (y : Int) < (cfg.POWER_MAPS_PADDED_BINS : Int)
    ∨ (y : Int) ≥ (cfg.POWER_MAPS_DIM : Int) - (cfg.POWER_MAPS_PADDED_BINS : Int))
  if x_lower < x ∧ (x : Int) < x_upper - 1 ∧ y_lower < y ∧ (y : Int) < y_upper - 1 then
    if padding_zone then block.power_density * power_density_scaling_padding_zone
    else block.power_density
  else
    let intersect := Rect.determineIntersection bin block_offset
    if padding_zone then
      block.power_density * power_density_scaling_padding_zone *
        (intersect.area / self.power_maps_bin_area)
    else block.power_density * (intersect.area / self.power_maps_bin_area)

/-- The lower bin index of a block along x, line 245. -/
def xLower (self : PowerMaps α) (block : Block α) (outline_x outline_y : α) (ext : Bool) : Int :=
  truncToInt ((blockOffset self block outline_x outline_y ext).ll.x / self.power_maps_dim_x)

/-- The lower bin index of a block along y, line 246. -/
def yLower (self : PowerMaps α) (block : Block α) (outline_x outline_y : α) (ext : Bool) : Int :=
  truncToInt ((blockOffset self block outline_x outline_y ext).ll.y / self.power_maps_dim_y)

/-- The exclusive upper bin index of a block along x, line 248. -/
def xUpper (self : PowerMaps α) (block : Block α) (outline_x outline_y : α) (ext : Bool) : Int :=
  truncToInt ((blockOffset self block outline_x outline_y ext).ur.x / self.power_maps_dim_x) + 1

/-- The exclusive upper bin index of a block along y, line 249. -/
def yUpper (self : PowerMaps α) (block : Block α) (outline_x outline_y : α) (ext : Bool) : Int :=
  truncToInt ((blockOffset self block outline_x outline_y ext).ur.y / self.power_maps_dim_y) + 1

/-- What one block adds to the map of layer `i`: the bin values over the covered index
ranges when the block is assigned to the layer, and nothing otherwise. -/
def blockDelta (cfg : Config α) (self : PowerMaps α) (i : Int) (outline_x outline_y : α)
    (power_density_scaling_padding_zone : α) (ext : Bool) (block : Block α) : Grid α :=
  fun a b =>
    if block.layer = i ∧
        (xLower self block outline_x outline_y ext ≤ a ∧
          (a : Int) < xUpper self block outline_x outline_y ext) ∧
        (yLower self block outline_x outline_y ext ≤ b ∧
          (b : Int) < yUpper self block outline_x outline_y ext) then
      binValue cfg self block (blockOffset self block outline_x outline_y ext)
        power_density_scaling_padding_zone
        (xLower self block outline_x outline_y ext) (xUpper self block outline_x outline_y ext)
        (yLower self block outline_x outline_y ext) (yUpper self block outline_x outline_y ext)
        a b
    else 0

/-- The bins a block assigned to layer `i` visits are bins of the power map. -/
def BlockInBounds (cfg : Config α) (self : PowerMaps α) (i : Int) (outline_x outline_y : α)
    (ext : Bool) (block : Block α) : Prop :=
  block.layer = i →
    0 ≤ xLower self block outline_x outline_y ext ∧
    xUpper self block outline_x outline_y ext ≤ cfg.POWER_MAPS_DIM ∧
    0 ≤ yLower self block outline_x outline_y ext ∧
    yUpper self block outline_x outline_y ext ≤ cfg.POWER_MAPS_DIM

end PowerMapForms

section MoreExamples

/-- Two blocks of densities 5 and 3 on layer 0 with the same footprint
`[2.5, 5] × [2.5, 5]`. -/
def blocksOverlapping : List (Block ℚ) :=
  [blockAt (5 / 2) (5 / 2) 5 5 5, blockAt (5 / 2) (5 / 2) 5 5 3]

end MoreExamples

section IndexForms

/-- The power-map index `i = x + (mask_i - THERMAL_MASK_CENTER)` of the two convolution
loops, lines 91 and 128. -/
def shiftedIndex {α : Type} (cfg : Config α) (x mask_i : Int) : Int :=
  x + (mask_i - (cfg.THERMAL_MASK_CENTER : Int))

/-- A configuration without padding: `PowerMapDim = ThermalMapDim = 1`, three-entry masks. -/
def cfgNoPadding : Config ℚ :=
  { THERMAL_MAP_DIM := 1, POWER_MAPS_PADDED_BINS := 0, POWER_MAPS_DIM := 1,
    THERMAL_MASK_DIM := 3, THERMAL_MASK_CENTER := 1, ROOM_TEMPERATURE_K := 293,
    PADDING_ZONE_BLOCKS_DISTANCE_LIMIT := 1 / 100 }

end IndexForms

section LayerForms

variable {α : Type} [LinearOrderedField α] [FloorRing α]

/-- The map of layer `i` as the loop over the blocks builds it from the zero map, lines
185-304. -/
def layerGrid (cfg : Config α) (self : PowerMaps α) (i : Int) (blocks : List (Block α))
    (outline_x outline_y scale : α) (ext : Bool) : Option (Grid α) :=
  blocks.foldlM (blockStep cfg self i outline_x outline_y scale ext) (Grid.fill 0)

end LayerForms

section LayerExamples

/-- A block on the given layer with the bounding box `[llx, urx] × [lly, ury]`. -/
def blockOnLayer (layer : Int) (llx lly urx ury density : ℚ) : Block ℚ :=
  { bb := { ll := { x := llx, y := lly }, ur := { x := urx, y := ury },
            area := (urx - llx) * (ury - lly) },
    power_density := density, layer := layer }

end LayerExamples

section LayerExamples2

/-- One block of density 5 on layer 0 over the core bin `(2, 2)`. -/
def blocksLayerZero : List (Block ℚ) := [blockOnLayer 0 (5 / 2) (5 / 2) 5 5 5]

end LayerExamples2

/-! ## Lemmas and theorems -/



section Loops

variable {σ : Type}

theorem forRange_invariant (lo hi : Int) (body : Int → σ → Option σ) (I : Nat → σ → Prop)
    (s0 : σ) (h0 : I 0 s0)
    (hstep : ∀ k : Nat, k < (hi - lo).toNat → ∀ s, I k s →
      ∃ s', body (lo + (k : Int)) s = some s' ∧ I (k + 1) s') :
    ∃ s', forRange lo hi body s0 = some s' ∧ I (hi - lo).toNat s' := by
  unfold forRange
  generalize (hi - lo).toNat = n at hstep
  induction n with
  | zero => exact ⟨s0, by simp, h0⟩
  | succ n ih =>
    obtain ⟨s1, h1, hI1⟩ := ih (fun k hk s hs => hstep k (Nat.lt_succ_of_lt hk) s hs)
    obtain ⟨s2, h2, hI2⟩ := hstep n (Nat.lt_succ_self n) s1 hI1
    refine ⟨s2, ?_, hI2⟩
    rw [List.range_succ, List.foldlM_append, h1]
    simpa using h2

variable {α : Type} [LinearOrderedField α]

theorem forRange_shift (lo hi : Int) (body : Int → Grid α → Option (Grid α))
    (d : Nat → Grid α)
    (h : ∀ k : Nat, k < (hi - lo).toNat → ∀ g,
      body (lo + (k : Int)) g = some (fun a b => g a b + d k a b)) (g : Grid α) :
    forRange lo hi body g =
      some (fun a b => g a b + ∑ k in Finset.range (hi - lo).toNat, d k a b) := by
  obtain ⟨s', hs', hI⟩ := forRange_invariant lo hi body
    (fun n (s : Grid α) => s = fun a b => g a b + ∑ k in Finset.range n, d k a b) g
    (by funext a b; simp) (fun k hk s hs => ⟨_, h k hk s, by
      subst hs; funext a b; rw [Finset.sum_range_succ]; ring⟩)
  rw [hs', hI]

theorem forRange_shift_count (lo hi : Int) (n : Nat) (hn : (hi - lo).toNat = n)
    (body : Int → Grid α → Option (Grid α)) (d : Nat → Grid α)
    (h : ∀ k : Nat, k < n → ∀ g,
      body (lo + (k : Int)) g = some (fun a b => g a b + d k a b)) (g : Grid α) :
    forRange lo hi body g = some (fun a b => g a b + ∑ k in Finset.range n, d k a b) := by
  subst hn
  exact forRange_shift lo hi body d h g

theorem grid_add?_shift (dim : Nat) (g : Grid α) (x y : Nat) (v : α)
    (hx : x < dim) (hy : y < dim) :
    Grid.add? dim g (x : Int) (y : Int) v =
      some (fun a b => g a b + if a = x ∧ b = y then v else 0) := by
  unfold Grid.add?
  rw [if_pos ⟨Int.natCast_nonneg _, by exact_mod_cast hx, Int.natCast_nonneg _,
    by exact_mod_cast hy⟩]
  congr 1
  funext a b
  simp only [Int.toNat_ofNat]
  split_ifs <;> simp

omit [LinearOrderedField α] in
theorem grid_get?_natCast (dim : Nat) (g : Grid α) (x y : Nat) (hx : x < dim) (hy : y < dim) :
    Grid.get? dim g (x : Int) (y : Int) = some (g x y) := by
  unfold Grid.get?
  rw [if_pos ⟨Int.natCast_nonneg _, by exact_mod_cast hx, Int.natCast_nonneg _,
    by exact_mod_cast hy⟩]
  simp

omit [LinearOrderedField α] in
theorem arr_get?_natCast (dim : Nat) (a : Nat → α) (i : Nat) (hi : i < dim) :
    Arr.get? dim a (i : Int) = some (a i) := by
  unfold Arr.get?
  rw [if_pos ⟨Int.natCast_nonneg _, by exact_mod_cast hi⟩]
  simp

end Loops

section BlurringFacts

variable {α : Type} [LinearOrderedField α]

theorem sum_ite_pair (n1 n2 o1 o2 p q : Nat) (F : Nat → Nat → α) :
    (∑ i in Finset.range n1, ∑ j in Finset.range n2,
      if p = o1 + i ∧ q = o2 + j then F i j else 0) =
      if (o1 ≤ p ∧ p < o1 + n1) ∧ (o2 ≤ q ∧ q < o2 + n2) then F (p - o1) (q - o2) else 0 := by
  by_cases h : (o1 ≤ p ∧ p < o1 + n1) ∧ (o2 ≤ q ∧ q < o2 + n2)
  · rw [if_pos h, Finset.sum_eq_single (p - o1), Finset.sum_eq_single (q - o2)]
    · rw [if_pos ⟨by omega, by omega⟩]
    · intro j _ hj
      rw [if_neg (fun hc => hj (by omega))]
    · intro hq
      exact absurd (Finset.mem_range.mpr (by omega)) hq
    · intro i _ hi
      exact Finset.sum_eq_zero (fun j _ => if_neg (fun hc => hi (by omega)))
    · intro hp
      exact absurd (Finset.mem_range.mpr (by omega)) hp
  · rw [if_neg h]
    refine Finset.sum_eq_zero (fun i hi => Finset.sum_eq_zero (fun j hj => if_neg ?_))
    intro hc
    have hi' := Finset.mem_range.mp hi
    have hj' := Finset.mem_range.mp hj
    exact h ⟨⟨by omega, by omega⟩, by omega, by omega⟩

theorem sum_ite_const (n : Nat) (c : Prop) [Decidable c] (f : Nat → α) :
    (∑ k in Finset.range n, if c then f k else 0) =
      if c then ∑ k in Finset.range n, f k else 0 := by
  split_ifs <;> simp

theorem horizontalPass_eq (cfg : Config α) (power_maps : Nat → Grid α)
    (thermal_masks : Nat → Nat → α) (layers : Int) (g : Grid α)
    (hD : cfg.POWER_MAPS_DIM = cfg.THERMAL_MAP_DIM + 2 * cfg.POWER_MAPS_PADDED_BINS)
    (hM : cfg.THERMAL_MASK_DIM = 2 * cfg.THERMAL_MASK_CENTER + 1)
    (hC : cfg.THERMAL_MASK_CENTER ≤ cfg.POWER_MAPS_PADDED_BINS) :
    horizontalPass cfg power_maps thermal_masks layers g =
      some (fun a b => g a b +
        if cfg.POWER_MAPS_PADDED_BINS ≤ a ∧
            a < cfg.THERMAL_MAP_DIM + cfg.POWER_MAPS_PADDED_BINS ∧ b < cfg.POWER_MAPS_DIM
        then hconv cfg power_maps thermal_masks layers.toNat a b else 0) := by
  unfold horizontalPass
  rw [forRange_shift 0 layers _ (fun kl a b =>
    ∑ ky in Finset.range cfg.POWER_MAPS_DIM, ∑ kx in Finset.range cfg.THERMAL_MAP_DIM,
      ∑ km in Finset.range cfg.THERMAL_MASK_DIM,
        if a = cfg.POWER_MAPS_PADDED_BINS + kx ∧ b = ky then
          power_maps kl (cfg.POWER_MAPS_PADDED_BINS + kx + km - cfg.THERMAL_MASK_CENTER) ky
            * thermal_masks kl km else 0)]
  · congr 1
    funext a b
    congr 1
    have hl : (layers - 0).toNat = layers.toNat := by simp
    rw [hl]
    unfold hconv
    rw [← sum_ite_const]
    refine Finset.sum_congr rfl (fun kl _ => ?_)
    have hrw : ∀ ky kx : Nat, (∑ km in Finset.range cfg.THERMAL_MASK_DIM,
        if a = cfg.POWER_MAPS_PADDED_BINS + kx ∧ b = ky then
          power_maps kl (cfg.POWER_MAPS_PADDED_BINS + kx + km - cfg.THERMAL_MASK_CENTER) ky
            * thermal_masks kl km else 0) =
        if b = 0 + ky ∧ a = cfg.POWER_MAPS_PADDED_BINS + kx then
          (fun i j => ∑ km in Finset.range cfg.THERMAL_MASK_DIM,
            power_maps kl (cfg.POWER_MAPS_PADDED_BINS + j + km - cfg.THERMAL_MASK_CENTER) i
              * thermal_masks kl km) ky kx else 0 := by
      intro ky kx
      rw [sum_ite_const]
      simp only [zero_add, and_comm]
    simp only [hrw]
    rw [sum_ite_pair]
    by_cases hc : cfg.POWER_MAPS_PADDED_BINS ≤ a ∧
        a < cfg.THERMAL_MAP_DIM + cfg.POWER_MAPS_PADDED_BINS ∧ b < cfg.POWER_MAPS_DIM
    · rw [if_pos hc, if_pos (by omega)]
      refine Finset.sum_congr rfl (fun km _ => ?_)
      have e1 : cfg.POWER_MAPS_PADDED_BINS + (a - cfg.POWER_MAPS_PADDED_BINS) = a := by omega
      simp only [e1, Nat.sub_zero]
    · rw [if_neg hc, if_neg (by omega)]
  · intro kl _ g
    rw [forRange_shift_count 0 cfg.POWER_MAPS_DIM cfg.POWER_MAPS_DIM (by simp) _ (fun ky a b =>
      ∑ kx in Finset.range cfg.THERMAL_MAP_DIM, ∑ km in Finset.range cfg.THERMAL_MASK_DIM,
        if a = cfg.POWER_MAPS_PADDED_BINS + kx ∧ b = ky then
          power_maps kl (cfg.POWER_MAPS_PADDED_BINS + kx + km - cfg.THERMAL_MASK_CENTER) ky
            * thermal_masks kl km else 0)]
    intro ky hky g
    rw [forRange_shift_count cfg.POWER_MAPS_PADDED_BINS
      (cfg.THERMAL_MAP_DIM + cfg.POWER_MAPS_PADDED_BINS) cfg.THERMAL_MAP_DIM (by simp) _
      (fun kx a b => ∑ km in Finset.range cfg.THERMAL_MASK_DIM,
        if a = cfg.POWER_MAPS_PADDED_BINS + kx ∧ b = ky then
          power_maps kl (cfg.POWER_MAPS_PADDED_BINS + kx + km - cfg.THERMAL_MASK_CENTER) ky
            * thermal_masks kl km else 0)]
    intro kx hkx g
    rw [forRange_shift_count 0 cfg.THERMAL_MASK_DIM cfg.THERMAL_MASK_DIM (by simp) _
      (fun km a b =>
        if a = cfg.POWER_MAPS_PADDED_BINS + kx ∧ b = ky then
          power_maps kl (cfg.POWER_MAPS_PADDED_BINS + kx + km - cfg.THERMAL_MASK_CENTER) ky
            * thermal_masks kl km else 0)]
    intro km hkm g
    have hi : ((cfg.POWER_MAPS_PADDED_BINS : Int) + (kx : Int)
        + (0 + (km : Int) - (cfg.THERMAL_MASK_CENTER : Int)))
        = ((cfg.POWER_MAPS_PADDED_BINS + kx + km - cfg.THERMAL_MASK_CENTER : Nat) : Int) := by
      omega
    have hx : ((cfg.POWER_MAPS_PADDED_BINS : Int) + (kx : Int))
        = ((cfg.POWER_MAPS_PADDED_BINS + kx : Nat) : Int) := by omega
    simp only [hi]
    simp only [zero_add, hx]
    rw [grid_get?_natCast _ _ _ _ (by omega) hky, arr_get?_natCast _ _ _ hkm]
    simp only [Option.bind_eq_bind, Option.some_bind, Int.toNat_ofNat]
    rw [grid_add?_shift _ _ _ _ _ (by omega) hky]

theorem verticalPass_eq (cfg : Config α) (thermal_map_tmp : Grid α)
    (thermal_masks : Nat → Nat → α) (layers : Int) (g : Grid α)
    (hD : cfg.POWER_MAPS_DIM = cfg.THERMAL_MAP_DIM + 2 * cfg.POWER_MAPS_PADDED_BINS)
    (hM : cfg.THERMAL_MASK_DIM = 2 * cfg.THERMAL_MASK_CENTER + 1)
    (hC : cfg.THERMAL_MASK_CENTER ≤ cfg.POWER_MAPS_PADDED_BINS) :
    verticalPass cfg thermal_map_tmp thermal_masks layers g =
      some (fun a b => g a b +
        if a < cfg.THERMAL_MAP_DIM ∧ b < cfg.THERMAL_MAP_DIM
        then vconv cfg thermal_map_tmp thermal_masks layers.toNat a b else 0) := by
  unfold verticalPass
  rw [forRange_shift 0 layers _ (fun kl a b =>
    ∑ kx in Finset.range cfg.THERMAL_MAP_DIM, ∑ ky in Finset.range cfg.THERMAL_MAP_DIM,
      if a = 0 + kx ∧ b = 0 + ky then
        (fun i j => ∑ km in Finset.range cfg.THERMAL_MASK_DIM,
          thermal_map_tmp (cfg.POWER_MAPS_PADDED_BINS + i)
            (cfg.POWER_MAPS_PADDED_BINS + j + km - cfg.THERMAL_MASK_CENTER)
              * thermal_masks kl km) kx ky else 0)]
  · congr 1
    funext a b
    congr 1
    have hl : (layers - 0).toNat = layers.toNat := by simp
    rw [hl]
    unfold vconv
    rw [← sum_ite_const]
    refine Finset.sum_congr rfl (fun kl _ => ?_)
    rw [sum_ite_pair]
    by_cases hc : a < cfg.THERMAL_MAP_DIM ∧ b < cfg.THERMAL_MAP_DIM
    · rw [if_pos hc, if_pos (by omega)]
      simp only [Nat.sub_zero]
    · rw [if_neg hc, if_neg (by omega)]
  · intro kl _ g
    rw [forRange_shift_count cfg.POWER_MAPS_PADDED_BINS
      (cfg.THERMAL_MAP_DIM + cfg.POWER_MAPS_PADDED_BINS) cfg.THERMAL_MAP_DIM (by simp) _
      (fun kx a b => ∑ ky in Finset.range cfg.THERMAL_MAP_DIM,
        if a = 0 + kx ∧ b = 0 + ky then
          (fun i j => ∑ km in Finset.range cfg.THERMAL_MASK_DIM,
            thermal_map_tmp (cfg.POWER_MAPS_PADDED_BINS + i)
              (cfg.POWER_MAPS_PADDED_BINS + j + km - cfg.THERMAL_MASK_CENTER)
                * thermal_masks kl km) kx ky else 0)]
    intro kx hkx g
    rw [forRange_shift_count cfg.POWER_MAPS_PADDED_BINS
      (cfg.THERMAL_MAP_DIM + cfg.POWER_MAPS_PADDED_BINS) cfg.THERMAL_MAP_DIM (by simp) _
      (fun ky a b =>
        if a = 0 + kx ∧ b = 0 + ky then
          (fun i j => ∑ km in Finset.range cfg.THERMAL_MASK_DIM,
            thermal_map_tmp (cfg.POWER_MAPS_PADDED_BINS + i)
              (cfg.POWER_MAPS_PADDED_BINS + j + km - cfg.THERMAL_MASK_CENTER)
                * thermal_masks kl km) kx ky else 0)]
    intro ky hky g
    simp only [zero_add, ← sum_ite_const]
    rw [forRange_shift_count 0 cfg.THERMAL_MASK_DIM cfg.THERMAL_MASK_DIM (by simp) _
      (fun km a b =>
        if a = kx ∧ b = ky then
          thermal_map_tmp (cfg.POWER_MAPS_PADDED_BINS + kx)
            (cfg.POWER_MAPS_PADDED_BINS + ky + km - cfg.THERMAL_MASK_CENTER)
              * thermal_masks kl km else 0)]
    intro km hkm g
    have hi : ((cfg.POWER_MAPS_PADDED_BINS : Int) + (ky : Int)
        + (0 + (km : Int) - (cfg.THERMAL_MASK_CENTER : Int)))
        = ((cfg.POWER_MAPS_PADDED_BINS + ky + km - cfg.THERMAL_MASK_CENTER : Nat) : Int) := by
      omega
    have hx : ((cfg.POWER_MAPS_PADDED_BINS : Int) + (kx : Int))
        = ((cfg.POWER_MAPS_PADDED_BINS + kx : Nat) : Int) := by omega
    have hmx : ((cfg.POWER_MAPS_PADDED_BINS : Int) + (kx : Int)
        - (cfg.POWER_MAPS_PADDED_BINS : Int)) = (kx : Int) := by omega
    have hmy : ((cfg.POWER_MAPS_PADDED_BINS : Int) + (ky : Int)
        - (cfg.POWER_MAPS_PADDED_BINS : Int)) = (ky : Int) := by omega
    simp only [hi, hmx, hmy]
    simp only [zero_add, hx]
    rw [grid_get?_natCast _ _ _ _ (by omega) (by omega), arr_get?_natCast _ _ _ hkm]
    simp only [Option.bind_eq_bind, Option.some_bind, Int.toNat_ofNat]
    rw [grid_add?_shift _ _ _ _ _ hkx hky]

theorem maxScan_spec (cfg : Config α) (tm : Grid α) :
    ∃ r, maxScan cfg tm = some r ∧ 0 ≤ r ∧
      (∀ x y, x < cfg.THERMAL_MAP_DIM → y < cfg.THERMAL_MAP_DIM → tm x y ≤ r) ∧
      (r = 0 ∨ ∃ x y, x < cfg.THERMAL_MAP_DIM ∧ y < cfg.THERMAL_MAP_DIM ∧ r = tm x y) := by
  unfold maxScan
  obtain ⟨r, hr, h0, hle, hex⟩ := forRange_invariant 0 cfg.THERMAL_MAP_DIM
    (fun x max_temp =>
      forRange 0 cfg.THERMAL_MAP_DIM (fun y max_temp => do
        let t ← Grid.get? cfg.THERMAL_MAP_DIM tm x y
        some (max max_temp t)) max_temp)
    (fun kx r => 0 ≤ r ∧ (∀ x y, x < kx → y < cfg.THERMAL_MAP_DIM → tm x y ≤ r) ∧
      (r = 0 ∨ ∃ x y, x < kx ∧ y < cfg.THERMAL_MAP_DIM ∧ r = tm x y)) (0 : α)
    ⟨le_refl _, fun x y hx _ => absurd hx (Nat.not_lt_zero x), Or.inl rfl⟩
    (fun kx hkx s hs => by
      obtain ⟨hs0, hsle, hsex⟩ := hs
      have hkx' : kx < cfg.THERMAL_MAP_DIM := by simpa using hkx
      obtain ⟨r, hr, h0, hle1, hle2, hex⟩ := forRange_invariant 0 cfg.THERMAL_MAP_DIM
        (fun y max_temp => do
          let t ← Grid.get? cfg.THERMAL_MAP_DIM tm (0 + (kx : Int)) y
          some (max max_temp t))
        (fun ky r => 0 ≤ r ∧ (∀ x y, x < kx → y < cfg.THERMAL_MAP_DIM → tm x y ≤ r) ∧
          (∀ y, y < ky → tm kx y ≤ r) ∧
          (r = 0 ∨ ∃ x y, x < kx + 1 ∧ y < cfg.THERMAL_MAP_DIM ∧ r = tm x y)) s
        ⟨hs0, hsle, fun y hy => absurd hy (Nat.not_lt_zero y), by
          rcases hsex with h | ⟨x, y, hx, hy, h⟩
          · exact Or.inl h
          · exact Or.inr ⟨x, y, by omega, hy, h⟩⟩
        (fun ky hky s hs => by
          obtain ⟨hs0, hsle1, hsle2, hsex⟩ := hs
          have hky' : ky < cfg.THERMAL_MAP_DIM := by simpa using hky
          refine ⟨max s (tm kx ky), ?_, le_max_of_le_left hs0,
            fun x y hx hy => le_max_of_le_left (hsle1 x y hx hy), ?_, ?_⟩
          · simp only [zero_add]
            rw [grid_get?_natCast _ _ _ _ hkx' hky']
            rfl
          · intro y hy
            rcases Nat.lt_succ_iff_lt_or_eq.mp hy with h | h
            · exact le_max_of_le_left (hsle2 y h)
            · subst h
              exact le_max_right _ _
          · rcases max_choice s (tm kx ky) with h | h
            · rw [h]
              exact hsex
            · exact Or.inr ⟨kx, ky, by omega, hky', h⟩)
      refine ⟨r, hr, h0, ?_, ?_⟩
      · intro x y hx hy
        rcases Nat.lt_succ_iff_lt_or_eq.mp hx with h | h
        · exact hle1 x y h hy
        · subst h
          exact hle2 y (by simpa using hy)
      · exact hex)
  refine ⟨r, hr, h0, ?_, ?_⟩
  · intro x y hx hy
    exact hle x y (by simpa using hx) hy
  · rcases hex with h | ⟨x, y, hx, hy, h⟩
    · exact Or.inl h
    · exact Or.inr ⟨x, y, by simpa using hx, hy, h⟩

theorem performPowerBlurring_eq (cfg : Config α) (power_maps : Nat → Grid α)
    (thermal_masks : Nat → Nat → α) (layers : Int) (max_cost_temp : α)
    (set_max_cost normalize : Bool)
    (hD : cfg.POWER_MAPS_DIM = cfg.THERMAL_MAP_DIM + 2 * cfg.POWER_MAPS_PADDED_BINS)
    (hM : cfg.THERMAL_MASK_DIM = 2 * cfg.THERMAL_MASK_CENTER + 1)
    (hC : cfg.THERMAL_MASK_CENTER ≤ cfg.POWER_MAPS_PADDED_BINS) :
    ∃ max_temp,
      maxScan cfg (thermalMapOf cfg power_maps thermal_masks layers.toNat) = some max_temp ∧
      performPowerBlurring cfg power_maps thermal_masks layers max_cost_temp set_max_cost
          normalize =
        some { thermal_map := thermalMapOf cfg power_maps thermal_masks layers.toNat
               max_cost_temp := if set_max_cost then max_temp else max_cost_temp
               ret := if normalize then
                   (if (if set_max_cost then max_temp else max_cost_temp) = 0 then none
                    else some (max_temp / (if set_max_cost then max_temp else max_cost_temp)))
                 else some max_temp } := by
  obtain ⟨r, hr, -⟩ := maxScan_spec cfg (thermalMapOf cfg power_maps thermal_masks layers.toNat)
  refine ⟨r, hr, ?_⟩
  simp only [performPowerBlurring, Grid.fill, Option.bind_eq_bind]
  rw [horizontalPass_eq cfg power_maps thermal_masks layers _ hD hM hC]
  simp only [Option.some_bind, zero_add]
  rw [verticalPass_eq cfg _ thermal_masks layers _ hD hM hC]
  simp only [Option.some_bind, Grid.fill, zero_add]
  have e : (fun a b => cfg.ROOM_TEMPERATURE_K +
      if a < cfg.THERMAL_MAP_DIM ∧ b < cfg.THERMAL_MAP_DIM then
        vconv cfg (fun a b => if cfg.POWER_MAPS_PADDED_BINS ≤ a ∧
          a < cfg.THERMAL_MAP_DIM + cfg.POWER_MAPS_PADDED_BINS ∧ b < cfg.POWER_MAPS_DIM
          then hconv cfg power_maps thermal_masks layers.toNat a b else 0)
          thermal_masks layers.toNat a b else 0) =
      thermalMapOf cfg power_maps thermal_masks layers.toNat := rfl
  rw [e, hr]
  rfl

end BlurringFacts

section BlurringClaims

variable {α : Type} [LinearOrderedField α]

/-- With a single layer the thermal map computed by `performPowerBlurring` is the 2D
convolution of the specification: the two 1D passes multiply the same mask. -/
theorem thermalMapOf_one_layer (cfg : Config α) (power_maps : Nat → Grid α)
    (thermal_masks : Nat → Nat → α) (x y : Nat)
    (hD : cfg.POWER_MAPS_DIM = cfg.THERMAL_MAP_DIM + 2 * cfg.POWER_MAPS_PADDED_BINS)
    (hM : cfg.THERMAL_MASK_DIM = 2 * cfg.THERMAL_MASK_CENTER + 1)
    (hC : cfg.THERMAL_MASK_CENTER ≤ cfg.POWER_MAPS_PADDED_BINS)
    (hx : cfg.POWER_MAPS_PADDED_BINS ≤ x ∧ x < cfg.THERMAL_MAP_DIM + cfg.POWER_MAPS_PADDED_BINS)
    (hy : cfg.POWER_MAPS_PADDED_BINS ≤ y ∧ y < cfg.THERMAL_MAP_DIM + cfg.POWER_MAPS_PADDED_BINS) :
    thermalMapOf cfg power_maps thermal_masks 1
        (x - cfg.POWER_MAPS_PADDED_BINS) (y - cfg.POWER_MAPS_PADDED_BINS) =
      layerwiseConvolution cfg power_maps thermal_masks 1 x y := by
  unfold thermalMapOf layerwiseConvolution vconv
  rw [if_pos ⟨by omega, by omega⟩]
  congr 1
  simp only [Finset.sum_range_one]
  rw [Finset.sum_comm]
  refine Finset.sum_congr rfl (fun n hn => ?_)
  have hn' := Finset.mem_range.mp hn
  have ex : cfg.POWER_MAPS_PADDED_BINS + (x - cfg.POWER_MAPS_PADDED_BINS) = x := by omega
  have ey : cfg.POWER_MAPS_PADDED_BINS + (y - cfg.POWER_MAPS_PADDED_BINS) = y := by omega
  rw [ex, ey]
  unfold tmpMapOf hconv
  rw [if_pos ⟨hx.1, hx.2, by omega⟩, Finset.sum_range_one, Finset.sum_mul]

/-- C1 (the code departs from it): with two layers the thermal map is not the sum of the
layers' own 2D convolutions.  Layer 0 holds power 1 in the visible bin and has mask
`[1, 2, 1]`, layer 1 holds no power and has mask `[1, 1, 1]`, room temperature 293: the
code stores 299 in the visible bin, since the horizontal result of layer 0 is multiplied by
the masks of both layers in the vertical pass, where the layer-wise sum is 297. -/
theorem C1_cross_layer_terms :
    (performPowerBlurring cfgSmall powerTwoLayers masksTwoLayers 2 0 false false).map
        (fun r => r.thermal_map (1 - 1) (1 - 1)) = some 299 ∧
      layerwiseConvolution cfgSmall powerTwoLayers masksTwoLayers 2 1 1 = 297 := by
  decide!

/-- C8: when every power map is zero everywhere, `performPowerBlurring` leaves room
temperature in every entry of the thermal map, for every layer count and all mask
contents, and with `normalize = false` it returns the room temperature (which is
positive; the grid has at least one visible bin). -/
theorem C8_baseline_floor (cfg : Config α) (power_maps : Nat → Grid α)
    (thermal_masks : Nat → Nat → α) (layers : Int) (max_cost_temp : α)
    (set_max_cost normalize : Bool)
    (hD : cfg.POWER_MAPS_DIM = cfg.THERMAL_MAP_DIM + 2 * cfg.POWER_MAPS_PADDED_BINS)
    (hM : cfg.THERMAL_MASK_DIM = 2 * cfg.THERMAL_MASK_CENTER + 1)
    (hC : cfg.THERMAL_MASK_CENTER ≤ cfg.POWER_MAPS_PADDED_BINS)
    (hT : 0 < cfg.THERMAL_MAP_DIM) (hroom : 0 < cfg.ROOM_TEMPERATURE_K)
    (hzero : ∀ l x y, power_maps l x y = 0) :
    ∃ r, performPowerBlurring cfg power_maps thermal_masks layers max_cost_temp set_max_cost
          normalize = some r ∧
      (∀ x y, x < cfg.THERMAL_MAP_DIM → y < cfg.THERMAL_MAP_DIM →
        r.thermal_map x y = cfg.ROOM_TEMPERATURE_K) ∧
      (normalize = false → r.ret = some cfg.ROOM_TEMPERATURE_K) := by
  obtain ⟨mt, hmt, hcall⟩ := performPowerBlurring_eq cfg power_maps thermal_masks layers
    max_cost_temp set_max_cost normalize hD hM hC
  have hmap : ∀ x y, thermalMapOf cfg power_maps thermal_masks layers.toNat x y =
      cfg.ROOM_TEMPERATURE_K := by
    intro x y
    have h0 : ∀ a b, tmpMapOf cfg power_maps thermal_masks layers.toNat a b = 0 := by
      intro a b
      unfold tmpMapOf hconv
      simp [hzero]
    unfold thermalMapOf vconv
    simp [h0]
  refine ⟨_, hcall, fun x y _ _ => hmap x y, fun hn => ?_⟩
  obtain ⟨r, hr, h0, hle, hex⟩ :=
    maxScan_spec cfg (thermalMapOf cfg power_maps thermal_masks layers.toNat)
  rw [hmt] at hr
  have hrmt : mt = r := Option.some.inj hr
  have hge : cfg.ROOM_TEMPERATURE_K ≤ r := by
    have := hle 0 0 hT hT
    rwa [hmap] at this
  have hval : mt = cfg.ROOM_TEMPERATURE_K := by
    rw [hrmt]
    rcases hex with h | ⟨x, y, _, _, h⟩
    · exact absurd (h ▸ hge) (not_le.mpr hroom)
    · rw [h, hmap]
  simp [hn, hval]

/-- C8 at the three-by-three grid with two layers and no power. -/
theorem C8_baseline_floor_witness :
    (0 < cfgSmall.THERMAL_MAP_DIM ∧ 0 < cfgSmall.ROOM_TEMPERATURE_K) ∧
    ∃ r, performPowerBlurring cfgSmall (fun _ _ _ => 0) masksTwoLayers 2 0 false false
          = some r ∧
      (∀ x y, x < cfgSmall.THERMAL_MAP_DIM → y < cfgSmall.THERMAL_MAP_DIM →
        r.thermal_map x y = cfgSmall.ROOM_TEMPERATURE_K) ∧
      (false = false → r.ret = some cfgSmall.ROOM_TEMPERATURE_K) :=
  ⟨⟨by decide, by decide!⟩,
    C8_baseline_floor cfgSmall (fun _ _ _ => 0) masksTwoLayers 2 0 false false rfl rfl
      (by decide) (by decide) (by decide!) (fun _ _ _ => rfl)⟩

/-- C9 (fails as stated): a block of power density `-293/4` over the one visible bin and the
mask `[1, 2, 1]` give a thermal map whose only visible entry, and so its maximum, is 0.  The
first call, with `setMaxCost = true` and `normalize = false`, returns and stores `T0 = 0`;
the second call, with `normalize = true` and `maxCostTemp = T0`, divides zero by zero and
returns no number, in particular not 1. -/
theorem C9_zero_maximum :
    cfgSmall.THERMAL_MAP_DIM = 1 ∧
    (performPowerBlurring cfgSmall powerZeroMaximum masksTwoLayers 1 5 true false).map
        (fun r => (r.thermal_map 0 0, r.max_cost_temp, r.ret)) = some (0, 0, some 0) ∧
    (performPowerBlurring cfgSmall powerZeroMaximum masksTwoLayers 1 0 false true).map
        (fun r => (r.thermal_map 0 0, r.ret)) = some (0, none) ∧
    ((powerMapsOfBlock (-293 / 4)).bind (fun power_maps =>
      performPowerBlurring cfgSmall power_maps masksTwoLayers 1 5 true false)).map
        (fun r => (r.thermal_map 0 0, r.max_cost_temp, r.ret)) = some (0, 0, some 0) ∧
    ((powerMapsOfBlock (-293 / 4)).bind (fun power_maps =>
      performPowerBlurring cfgSmall power_maps masksTwoLayers 1 0 false true)).map
        (fun r => (r.thermal_map 0 0, r.ret)) = some (0, none) := by
  decide!

/-- C9 (amended): the first call, with `setMaxCost = true` and `normalize = false`, stores
the value `T0` it returns into `maxCostTemp`; when `T0` is not zero, the second call on the
same power maps and masks with `setMaxCost = false`, `normalize = true` and
`maxCostTemp = T0` returns exactly 1. -/
theorem C9_normalization_round_trip (cfg : Config α) (power_maps : Nat → Grid α)
    (thermal_masks : Nat → Nat → α) (layers : Int) (max_cost_temp : α)
    (hD : cfg.POWER_MAPS_DIM = cfg.THERMAL_MAP_DIM + 2 * cfg.POWER_MAPS_PADDED_BINS)
    (hM : cfg.THERMAL_MASK_DIM = 2 * cfg.THERMAL_MASK_CENTER + 1)
    (hC : cfg.THERMAL_MASK_CENTER ≤ cfg.POWER_MAPS_PADDED_BINS) :
    ∃ r1 r2 T0,
      performPowerBlurring cfg power_maps thermal_masks layers max_cost_temp true false
        = some r1 ∧
      r1.ret = some T0 ∧ r1.max_cost_temp = T0 ∧
      performPowerBlurring cfg power_maps thermal_masks layers T0 false true = some r2 ∧
      (T0 ≠ 0 → r2.ret = some 1) := by
  obtain ⟨mt, hmt, hcall1⟩ := performPowerBlurring_eq cfg power_maps thermal_masks layers
    max_cost_temp true false hD hM hC
  obtain ⟨mt2, hmt2, hcall2⟩ := performPowerBlurring_eq cfg power_maps thermal_masks layers
    mt false true hD hM hC
  rw [hmt] at hmt2
  have e : mt2 = mt := (Option.some.inj hmt2).symm
  subst e
  refine ⟨_, _, mt2, hcall1, by simp, by simp, hcall2, fun h0 => ?_⟩
  simp [h0]

/-- C9 (amended) at the three-by-three grid: with power 1 in the visible bin the captured
maximum is 297 and the normalized second call returns 1. -/
theorem C9_normalization_round_trip_witness :
    (performPowerBlurring cfgSmall powerTwoLayers masksTwoLayers 1 0 true false).map
        (fun r => r.max_cost_temp) = some 297 ∧
    ∃ r1 r2 T0,
      performPowerBlurring cfgSmall powerTwoLayers masksTwoLayers 1 0 true false
        = some r1 ∧
      r1.ret = some T0 ∧ r1.max_cost_temp = T0 ∧
      performPowerBlurring cfgSmall powerTwoLayers masksTwoLayers 1 T0 false true
        = some r2 ∧
      (T0 ≠ 0 → r2.ret = some 1) :=
  ⟨by decide!,
    C9_normalization_round_trip cfgSmall powerTwoLayers masksTwoLayers 1 0 rfl rfl (by decide)⟩

end BlurringClaims

section MaskFacts

theorem initThermalMasks_eq (cfg : Config ℝ) (layers : Int) (parameters : MaskParameters)
    (mask0 : Nat → ℝ) (hM : cfg.THERMAL_MASK_DIM = 2 * cfg.THERMAL_MASK_CENTER + 1) :
    initThermalMasks cfg layers parameters mask0 =
      some ((List.range layers.toNat).map
        (fun k => maskOf cfg parameters mask0 (k + 1))) := by
  unfold initThermalMasks
  obtain ⟨s', hs', hI1, hI2⟩ := forRange_invariant 1 (layers + 1)
    (fun i (st : (Nat → ℝ) × List (Nat → ℝ)) =>
      (forRange (-(cfg.THERMAL_MASK_CENTER : Int)) ((cfg.THERMAL_MASK_CENTER : Int) + 1)
        (fun x_y (s : (Nat → ℝ) × Int) =>
          (Arr.set? cfg.THERMAL_MASK_DIM s.1 s.2
            (Math.gauss1D ((x_y : ℝ) * maskScale cfg parameters)
              (Real.sqrt (parameters.impulse_factor /
                ((i : ℝ) ^ parameters.impulse_factor_scaling_exponent))) 1)).map
            (fun mask => (mask, s.2 + 1)))
        (st.1, 0)).map (fun s => (s.1, st.2 ++ [s.1])))
    (fun k st => (∀ ii, 2 * cfg.THERMAL_MASK_CENTER + 1 ≤ ii → st.1 ii = mask0 ii) ∧
      st.2 = (List.range k).map (fun k => maskOf cfg parameters mask0 (k + 1)))
    (mask0, []) ⟨fun _ _ => rfl, rfl⟩
    (fun k _ st hst => by
      obtain ⟨hst1, hst2⟩ := hst
      obtain ⟨s, hs, hsI1, hsI2⟩ := forRange_invariant (-(cfg.THERMAL_MASK_CENTER : Int))
        ((cfg.THERMAL_MASK_CENTER : Int) + 1)
        (fun x_y (s : (Nat → ℝ) × Int) =>
          (Arr.set? cfg.THERMAL_MASK_DIM s.1 s.2
            (Math.gauss1D ((x_y : ℝ) * maskScale cfg parameters)
              (Real.sqrt (parameters.impulse_factor /
                ((((1 : Int) + (k : Int) : Int) : ℝ) ^
                  parameters.impulse_factor_scaling_exponent))) 1)).map
            (fun mask => (mask, s.2 + 1)))
        (fun n (s : (Nat → ℝ) × Int) => s.2 = (n : Int) ∧ ∀ ii, s.1 ii =
          if ii < n then maskOf cfg parameters mask0 (k + 1) ii else st.1 ii)
        (st.1, 0) ⟨rfl, fun ii => by simp⟩
        (fun n hn s hsI => by
          obtain ⟨hs2, hs1⟩ := hsI
          have hn' : n < 2 * cfg.THERMAL_MASK_CENTER + 1 := by omega
          have hset : ∀ v : ℝ, Arr.set? cfg.THERMAL_MASK_DIM s.1 s.2 v =
              some (fun kk => if kk = n then v else s.1 kk) := by
            intro v
            unfold Arr.set?
            rw [hs2, if_pos ⟨Int.natCast_nonneg _, by exact_mod_cast (hM ▸ hn')⟩]
            simp
          refine ⟨((fun kk => if kk = n then
            Math.gauss1D ((((-(cfg.THERMAL_MASK_CENTER : Int) + (n : Int) : Int)) : ℝ)
                * maskScale cfg parameters)
              (Real.sqrt (parameters.impulse_factor /
                ((((1 : Int) + (k : Int) : Int) : ℝ) ^
                  parameters.impulse_factor_scaling_exponent))) 1 else s.1 kk), s.2 + 1),
            by simp only [hset, Option.map_some'], ?_, ?_⟩
          · show s.2 + 1 = ((n + 1 : Nat) : Int)
            rw [hs2]
            push_cast
            rfl
          · intro ii
            show (if ii = n then _ else s.1 ii) = _
            by_cases h1 : ii = n
            · subst h1
              rw [if_pos rfl, if_pos (Nat.lt_succ_self _)]
              unfold maskOf
              rw [if_pos hn']
              have e1 : (-(cfg.THERMAL_MASK_CENTER : Int) + (ii : Int)) =
                  (ii : Int) - (cfg.THERMAL_MASK_CENTER : Int) := by ring
              have e2 : (((1 : Int) + (k : Int) : Int) : ℝ) = ((k + 1 : Nat) : ℝ) := by
                push_cast; ring
              rw [e1, e2]
            · rw [if_neg h1, hs1 ii]
              by_cases h2 : ii < n
              · rw [if_pos h2, if_pos (Nat.lt_succ_of_lt h2)]
              · rw [if_neg h2, if_neg (by omega)])
      have hcount : ((cfg.THERMAL_MASK_CENTER : Int) + 1
          - -(cfg.THERMAL_MASK_CENTER : Int)).toNat = 2 * cfg.THERMAL_MASK_CENTER + 1 := by
        omega
      rw [hcount] at hsI2
      refine ⟨(s.1, st.2 ++ [s.1]), by simp only [hs, Option.map_some'], ?_, ?_⟩
      · intro ii hii
        show s.1 ii = mask0 ii
        rw [hsI2 ii, if_neg (by omega), hst1 ii hii]
      · show st.2 ++ [s.1] = _
        rw [List.range_succ, List.map_append, hst2]
        congr 1
        simp only [List.map_cons, List.map_nil, List.cons.injEq, and_true]
        funext ii
        rw [hsI2 ii]
        by_cases h : ii < 2 * cfg.THERMAL_MASK_CENTER + 1
        · rw [if_pos (by omega)]
        · rw [if_neg (by omega), hst1 ii (by omega)]
          unfold maskOf
          rw [if_neg h])
  simp only [hs', Option.map_some', hI2]
  congr 3
  omega

end MaskFacts

section MaskClaims

theorem maskOf_apply (cfg : Config ℝ) (parameters : MaskParameters) (mask0 : Nat → ℝ)
    (i ii : Nat) (h : ii < 2 * cfg.THERMAL_MASK_CENTER + 1) :
    maskOf cfg parameters mask0 i ii =
      Real.sqrt (parameters.impulse_factor /
          ((i : ℝ) ^ parameters.impulse_factor_scaling_exponent)) *
        Real.exp (-((((ii : ℝ) - (cfg.THERMAL_MASK_CENTER : ℝ))
          * maskScale cfg parameters) ^ 2) / 2) := by
  unfold maskOf Math.gauss1D
  rw [if_pos h]
  push_cast
  norm_num

theorem initThermalMasks_getElem? (cfg : Config ℝ) (layers : Int)
    (parameters : MaskParameters) (mask0 : Nat → ℝ)
    (hM : cfg.THERMAL_MASK_DIM = 2 * cfg.THERMAL_MASK_CENTER + 1)
    (i : Nat) (h1 : 1 ≤ i) (h2 : (i : Int) ≤ layers) :
    ∃ masks, initThermalMasks cfg layers parameters mask0 = some masks ∧
      masks[i - 1]? = some (maskOf cfg parameters mask0 i) := by
  refine ⟨_, initThermalMasks_eq cfg layers parameters mask0 hM, ?_⟩
  have hlt : i - 1 < layers.toNat := by omega
  have hi : i - 1 + 1 = i := by omega
  simp [List.getElem?_map, List.getElem?_range, hlt, hi]

/-- C2: every mask produced by `initThermalMasks` is symmetric, `mask[i] = mask[MaskDim-1-i]`
for all `i` below `MaskDim`, for every layer count and all parameters with a positive
impulse factor and a boundary value strictly between zero and the impulse factor
(`MaskDim = 2·MaskCenter + 1` with a positive centre). -/
theorem C2_mask_symmetry (cfg : Config ℝ) (layers : Int) (parameters : MaskParameters)
    (mask0 : Nat → ℝ)
    (hM : cfg.THERMAL_MASK_DIM = 2 * cfg.THERMAL_MASK_CENTER + 1)
    (_hC : 0 < cfg.THERMAL_MASK_CENTER)
    (_hf : 0 < parameters.impulse_factor) (_hb : 0 < parameters.mask_boundary_value)
    (_hbf : parameters.mask_boundary_value < parameters.impulse_factor) :
    ∃ masks, initThermalMasks cfg layers parameters mask0 = some masks ∧
      masks.length = layers.toNat ∧
      ∀ mask ∈ masks, ∀ i, i < cfg.THERMAL_MASK_DIM →
        mask i = mask (cfg.THERMAL_MASK_DIM - 1 - i) := by
  refine ⟨_, initThermalMasks_eq cfg layers parameters mask0 hM, by simp, ?_⟩
  intro mask hmask i hi
  obtain ⟨k, -, rfl⟩ := List.mem_map.mp hmask
  rw [maskOf_apply _ _ _ _ _ (by omega), maskOf_apply _ _ _ _ _ (by omega)]
  have e : ((cfg.THERMAL_MASK_DIM - 1 - i : Nat) : ℝ) - (cfg.THERMAL_MASK_CENTER : ℝ) =
      -((i : ℝ) - (cfg.THERMAL_MASK_CENTER : ℝ)) := by
    have h : cfg.THERMAL_MASK_DIM - 1 - i + i = 2 * cfg.THERMAL_MASK_CENTER := by omega
    have h' : ((cfg.THERMAL_MASK_DIM - 1 - i : Nat) : ℝ) + (i : ℝ) =
        2 * (cfg.THERMAL_MASK_CENTER : ℝ) := by exact_mod_cast h
    linarith
  rw [e]
  congr 2
  ring

/-- C2 for two layers of three-entry masks with impulse factor 4 and boundary value 1. -/
theorem C2_mask_symmetry_witness :
    (0 < cfgSmallReal.THERMAL_MASK_CENTER ∧ 0 < paramsFourOne.impulse_factor ∧
      0 < paramsFourOne.mask_boundary_value ∧
      paramsFourOne.mask_boundary_value < paramsFourOne.impulse_factor) ∧
    ∃ masks, initThermalMasks cfgSmallReal 2 paramsFourOne (fun _ => 0) = some masks ∧
      masks.length = (2 : Int).toNat ∧
      ∀ mask ∈ masks, ∀ i, i < cfgSmallReal.THERMAL_MASK_DIM →
        mask i = mask (cfgSmallReal.THERMAL_MASK_DIM - 1 - i) :=
  ⟨⟨by decide, by norm_num [paramsFourOne], by norm_num [paramsFourOne],
      by norm_num [paramsFourOne]⟩,
    C2_mask_symmetry cfgSmallReal 2 paramsFourOne (fun _ => 0) rfl (by decide)
      (by norm_num [paramsFourOne]) (by norm_num [paramsFourOne])
      (by norm_num [paramsFourOne])⟩

end MaskClaims

section MaskClaims2

/-- C3: for layer distances `1 ≤ i < j ≤ layers` and every position `k` below `MaskDim`, the
mask generated for distance `i` is strictly greater at `k` than the mask generated for
distance `j`, given a positive impulse factor, a boundary value strictly between zero and
the impulse factor, and a positive scaling exponent. -/
theorem C3_attenuation_monotone (cfg : Config ℝ) (layers : Int)
    (parameters : MaskParameters) (mask0 : Nat → ℝ)
    (hM : cfg.THERMAL_MASK_DIM = 2 * cfg.THERMAL_MASK_CENTER + 1)
    (_hC : 0 < cfg.THERMAL_MASK_CENTER)
    (hf : 0 < parameters.impulse_factor) (_hb : 0 < parameters.mask_boundary_value)
    (_hbf : parameters.mask_boundary_value < parameters.impulse_factor)
    (he : 0 < parameters.impulse_factor_scaling_exponent)
    (i j : Nat) (hi : 1 ≤ i) (hij : i < j) (hj : (j : Int) ≤ layers)
    (k : Nat) (hk : k < cfg.THERMAL_MASK_DIM) :
    ∃ masks mask_i mask_j, initThermalMasks cfg layers parameters mask0 = some masks ∧
      masks[i - 1]? = some mask_i ∧ masks[j - 1]? = some mask_j ∧ mask_j k < mask_i k := by
  obtain ⟨masks, hmasks, hmi⟩ := initThermalMasks_getElem? cfg layers parameters mask0 hM i hi
    (by omega)
  obtain ⟨masks', hmasks', hmj⟩ := initThermalMasks_getElem? cfg layers parameters mask0 hM j
    (by omega) hj
  rw [hmasks] at hmasks'
  obtain rfl := Option.some.inj hmasks'
  refine ⟨masks, _, _, hmasks, hmi, hmj, ?_⟩
  rw [maskOf_apply _ _ _ _ _ (by omega), maskOf_apply _ _ _ _ _ (by omega)]
  have hi0 : (0 : ℝ) < (i : ℝ) := by exact_mod_cast hi
  have hij' : (i : ℝ) < (j : ℝ) := by exact_mod_cast hij
  have hpi : 0 < (i : ℝ) ^ parameters.impulse_factor_scaling_exponent :=
    Real.rpow_pos_of_pos hi0 _
  have hpow : (i : ℝ) ^ parameters.impulse_factor_scaling_exponent <
      (j : ℝ) ^ parameters.impulse_factor_scaling_exponent :=
    Real.rpow_lt_rpow hi0.le hij' he
  have hdiv : parameters.impulse_factor / (j : ℝ) ^ parameters.impulse_factor_scaling_exponent <
      parameters.impulse_factor / (i : ℝ) ^ parameters.impulse_factor_scaling_exponent :=
    div_lt_div_of_pos_left hf hpi hpow
  have hsqrt := Real.sqrt_lt_sqrt (div_pos hf (hpi.trans hpow)).le hdiv
  exact mul_lt_mul_of_pos_right hsqrt (Real.exp_pos _)

/-- C3 for two layers of three-entry masks: distance 1 against distance 2 at the centre. -/
theorem C3_attenuation_monotone_witness :
    (0 < paramsFourOne.impulse_factor ∧ 0 < paramsFourOne.mask_boundary_value ∧
      paramsFourOne.mask_boundary_value < paramsFourOne.impulse_factor ∧
      0 < paramsFourOne.impulse_factor_scaling_exponent) ∧
    ∃ masks mask_i mask_j, initThermalMasks cfgSmallReal 2 paramsFourOne (fun _ => 0)
        = some masks ∧
      masks[1 - 1]? = some mask_i ∧ masks[2 - 1]? = some mask_j ∧ mask_j 1 < mask_i 1 :=
  ⟨⟨by norm_num [paramsFourOne], by norm_num [paramsFourOne], by norm_num [paramsFourOne],
      by norm_num [paramsFourOne]⟩,
    C3_attenuation_monotone cfgSmallReal 2 paramsFourOne (fun _ => 0) rfl (by decide)
      (by norm_num [paramsFourOne]) (by norm_num [paramsFourOne])
      (by norm_num [paramsFourOne]) (by norm_num [paramsFourOne]) 1 2 (le_refl 1)
      (by decide) (le_refl 2) 1 (by decide)⟩

end MaskClaims2

section MaskClaims3

/-- With the parameter set to `Math.gauss1D` the parametrised routine is `initThermalMasks`. -/
theorem initThermalMasksWith_gauss1D (cfg : Config ℝ) (layers : Int)
    (parameters : MaskParameters) (mask0 : Nat → ℝ) :
    initThermalMasksWith Math.gauss1D cfg layers parameters mask0 =
      initThermalMasks cfg layers parameters mask0 := rfl

/-- C5: for every layer distance `i` with `1 ≤ i ≤ layers` the square of the centre entry of
the generated mask is the layer impulse `impulseFactor / i ^ impulseFactorScalingExponent`,
and the centre entry is the largest entry of the mask. -/
theorem C5_effective_peak (cfg : Config ℝ) (layers : Int) (parameters : MaskParameters)
    (mask0 : Nat → ℝ)
    (hM : cfg.THERMAL_MASK_DIM = 2 * cfg.THERMAL_MASK_CENTER + 1)
    (_hC : 0 < cfg.THERMAL_MASK_CENTER)
    (hf : 0 < parameters.impulse_factor) (_hb : 0 < parameters.mask_boundary_value)
    (_hbf : parameters.mask_boundary_value < parameters.impulse_factor)
    (i : Nat) (hi : 1 ≤ i) (hil : (i : Int) ≤ layers) :
    ∃ masks mask_i, initThermalMasks cfg layers parameters mask0 = some masks ∧
      masks[i - 1]? = some mask_i ∧
      mask_i cfg.THERMAL_MASK_CENTER * mask_i cfg.THERMAL_MASK_CENTER =
        parameters.impulse_factor / (i : ℝ) ^ parameters.impulse_factor_scaling_exponent ∧
      ∀ k, k < cfg.THERMAL_MASK_DIM → mask_i k ≤ mask_i cfg.THERMAL_MASK_CENTER := by
  obtain ⟨masks, hmasks, hm⟩ := initThermalMasks_getElem? cfg layers parameters mask0 hM i hi
    hil
  have hi0 : (0 : ℝ) < (i : ℝ) := by exact_mod_cast hi
  have hlif : 0 ≤ parameters.impulse_factor /
      (i : ℝ) ^ parameters.impulse_factor_scaling_exponent :=
    (div_pos hf (Real.rpow_pos_of_pos hi0 _)).le
  have hcentre : maskOf cfg parameters mask0 i cfg.THERMAL_MASK_CENTER =
      Real.sqrt (parameters.impulse_factor /
        (i : ℝ) ^ parameters.impulse_factor_scaling_exponent) := by
    rw [maskOf_apply _ _ _ _ _ (by omega)]
    simp
  refine ⟨masks, _, hmasks, hm, ?_, ?_⟩
  · rw [hcentre, Real.mul_self_sqrt hlif]
  · intro k hk
    rw [hcentre, maskOf_apply _ _ _ _ _ (by omega)]
    refine mul_le_of_le_one_right (Real.sqrt_nonneg _) (Real.exp_le_one_iff.mpr ?_)
    have := sq_nonneg (((k : ℝ) - (cfg.THERMAL_MASK_CENTER : ℝ)) * maskScale cfg parameters)
    linarith

/-- C5 for the second of two layers of three-entry masks. -/
theorem C5_effective_peak_witness :
    (0 < paramsFourOne.impulse_factor ∧ 0 < paramsFourOne.mask_boundary_value ∧
      paramsFourOne.mask_boundary_value < paramsFourOne.impulse_factor) ∧
    ∃ masks mask_i, initThermalMasks cfgSmallReal 2 paramsFourOne (fun _ => 0) = some masks ∧
      masks[2 - 1]? = some mask_i ∧
      mask_i cfgSmallReal.THERMAL_MASK_CENTER * mask_i cfgSmallReal.THERMAL_MASK_CENTER =
        paramsFourOne.impulse_factor /
          ((2 : Nat) : ℝ) ^ paramsFourOne.impulse_factor_scaling_exponent ∧
      ∀ k, k < cfgSmallReal.THERMAL_MASK_DIM →
        mask_i k ≤ mask_i cfgSmallReal.THERMAL_MASK_CENTER :=
  ⟨⟨by norm_num [paramsFourOne], by norm_num [paramsFourOne], by norm_num [paramsFourOne]⟩,
    C5_effective_peak cfgSmallReal 2 paramsFourOne (fun _ => 0) rfl (by decide)
      (by norm_num [paramsFourOne]) (by norm_num [paramsFourOne])
      (by norm_num [paramsFourOne]) 2 (by decide) (le_refl _)⟩

end MaskClaims3

section PowerMapFacts

variable {α : Type} [LinearOrderedField α] [FloorRing α]

omit [LinearOrderedField α] [FloorRing α] in
theorem forRange_set_table (n : Nat) (f : Int → α) (t0 : Nat → α) :
    forRange 0 ((n : Int) + 1) (fun b t => Arr.set? (n + 1) t b (f b)) t0 =
      some (fun k => if k < n + 1 then f (k : Int) else t0 k) := by
  obtain ⟨t, ht, hI⟩ := forRange_invariant 0 ((n : Int) + 1)
    (fun b t => Arr.set? (n + 1) t b (f b))
    (fun m (t : Nat → α) => ∀ k, t k = if k < m then f (k : Int) else t0 k) t0
    (fun k => by simp)
    (fun m hm t hI => by
      have hm' : m < n + 1 := by omega
      refine ⟨fun k => if k = m then f (m : Int) else t k, ?_, ?_⟩
      · unfold Arr.set?
        simp only [zero_add]
        rw [if_pos ⟨Int.natCast_nonneg _, by exact_mod_cast hm'⟩]
        simp
      · intro k
        show (if k = m then f (m : Int) else t k) = _
        by_cases h : k = m
        · subst h
          rw [if_pos rfl, if_pos (Nat.lt_succ_self _)]
        · rw [if_neg h, hI k]
          by_cases h2 : k < m
          · rw [if_pos h2, if_pos (Nat.lt_succ_of_lt h2)]
          · rw [if_neg h2, if_neg (by omega)])
  rw [ht]
  congr 1
  funext k
  rw [hI k]
  have e : ((n : Int) + 1 - 0).toNat = n + 1 := by omega
  rw [e]

omit [FloorRing α] in
theorem initPowerMaps_eq (cfg : Config α) (self : PowerMaps α) (layers : Int)
    (outline_x outline_y : α) :
    initPowerMaps cfg self layers outline_x outline_y =
      some (geometryOf cfg self outline_x outline_y) := by
  simp only [initPowerMaps, Option.bind_eq_bind]
  rw [forRange_set_table cfg.POWER_MAPS_DIM
    (fun b => (b : α) * (outline_x / (cfg.THERMAL_MAP_DIM : α)))]
  simp only [Option.some_bind]
  rw [forRange_set_table cfg.POWER_MAPS_DIM
    (fun b => (b : α) * (outline_y / (cfg.THERMAL_MAP_DIM : α)))]
  simp only [Option.some_bind, Int.cast_natCast]
  rfl

end PowerMapFacts

section PowerMapFacts2

variable {α : Type} [LinearOrderedField α] [FloorRing α]

omit [FloorRing α] in
theorem binStep_shift (cfg : Config α) (self : PowerMaps α) (block : Block α)
    (block_offset : Rect α) (scale : α) (x_lower x_upper y_lower y_upper : Int)
    (x y : Nat) (hx : x < cfg.POWER_MAPS_DIM) (hy : y < cfg.POWER_MAPS_DIM) (g : Grid α) :
    binStep cfg self block block_offset scale x_lower x_upper y_lower y_upper x y g =
      some (fun a b => g a b + if a = x ∧ b = y then
        binValue cfg self block block_offset scale x_lower x_upper y_lower y_upper x y
        else 0) := by
  have hx1 : ((x : Int) + 1) = ((x + 1 : Nat) : Int) := by push_cast; rfl
  have hy1 : ((y : Int) + 1) = ((y + 1 : Nat) : Int) := by push_cast; rfl
  simp only [binStep, Option.bind_eq_bind]
  rw [hx1, hy1, arr_get?_natCast _ _ _ (by omega), arr_get?_natCast _ _ _ (by omega),
    arr_get?_natCast _ _ _ (by omega), arr_get?_natCast _ _ _ (by omega)]
  simp only [Option.some_bind, grid_add?_shift _ _ _ _ _ hx hy]
  unfold binValue
  simp only []
  split_ifs <;> rfl

omit [FloorRing α] in
theorem list_foldlM_shift {β : Type} (step : Grid α → β → Option (Grid α)) (d : β → Grid α)
    (l : List β) (h : ∀ x ∈ l, ∀ g, step g x = some (fun a b => g a b + d x a b))
    (g : Grid α) :
    l.foldlM step g = some (fun a b => g a b + (l.map (fun x => d x a b)).sum) := by
  induction l generalizing g with
  | nil => simp
  | cons x xs ih =>
    rw [List.foldlM_cons, h x (List.mem_cons_self _ _) g]
    simp only [Option.bind_eq_bind, Option.some_bind]
    rw [ih (fun y hy => h y (List.mem_cons_of_mem _ hy))]
    congr 1
    funext a b
    simp only [List.map_cons, List.sum_cons]
    ring

theorem blockStep_shift (cfg : Config α) (self : PowerMaps α) (i : Int)
    (outline_x outline_y scale : α) (ext : Bool) (block : Block α)
    (hb : BlockInBounds cfg self i outline_x outline_y ext block) (g : Grid α) :
    blockStep cfg self i outline_x outline_y scale ext g block =
      some (fun a b => g a b +
        blockDelta cfg self i outline_x outline_y scale ext block a b) := by
  unfold blockStep
  by_cases hl : block.layer = i
  · obtain ⟨hxl, hxu, hyl, hyu⟩ := hb hl
    rw [if_neg (not_not.mpr hl)]
    simp only []
    change forRange (xLower self block outline_x outline_y ext)
      (xUpper self block outline_x outline_y ext) (fun x grid =>
        forRange (yLower self block outline_x outline_y ext)
          (yUpper self block outline_x outline_y ext) (fun y grid =>
            binStep cfg self block (blockOffset self block outline_x outline_y ext) scale
              (xLower self block outline_x outline_y ext)
              (xUpper self block outline_x outline_y ext)
              (yLower self block outline_x outline_y ext)
              (yUpper self block outline_x outline_y ext) x y grid) grid) g = _
    unfold blockDelta
    generalize xLower self block outline_x outline_y ext = xl at hxl ⊢
    generalize xUpper self block outline_x outline_y ext = xu at hxu ⊢
    generalize yLower self block outline_x outline_y ext = yl at hyl ⊢
    generalize yUpper self block outline_x outline_y ext = yu at hyu ⊢
    generalize blockOffset self block outline_x outline_y ext = bo
    obtain ⟨nxl, rfl⟩ := Int.eq_ofNat_of_zero_le hxl
    obtain ⟨nyl, rfl⟩ := Int.eq_ofNat_of_zero_le hyl
    rw [forRange_shift (nxl : Int) xu _ (fun kx a b =>
      ∑ ky in Finset.range (yu - (nyl : Int)).toNat,
        if a = nxl + kx ∧ b = nyl + ky then
          (fun i j => binValue cfg self block bo scale (nxl : Int) xu (nyl : Int) yu
            (nxl + i) (nyl + j)) kx ky else 0)]
    · congr 1
      funext a b
      congr 1
      rw [sum_ite_pair]
      by_cases hc : (nxl ≤ a ∧ a < nxl + (xu - (nxl : Int)).toNat) ∧
          (nyl ≤ b ∧ b < nyl + (yu - (nyl : Int)).toNat)
      · rw [if_pos hc, if_pos ⟨hl, by omega, by omega⟩]
        have ea : nxl + (a - nxl) = a := by omega
        have eb : nyl + (b - nyl) = b := by omega
        simp only [ea, eb]
      · rw [if_neg hc, if_neg (fun h => hc (by omega))]
    · intro kx hkx g
      rw [forRange_shift (nyl : Int) yu _ (fun ky a b =>
        if a = nxl + kx ∧ b = nyl + ky then
          binValue cfg self block bo scale (nxl : Int) xu (nyl : Int) yu
            (nxl + kx) (nyl + ky) else 0)]
      intro ky hky g
      have ex : ((nxl : Int) + (kx : Int)) = ((nxl + kx : Nat) : Int) := by push_cast; rfl
      have ey : ((nyl : Int) + (ky : Int)) = ((nyl + ky : Nat) : Int) := by push_cast; rfl
      rw [ex, ey, binStep_shift cfg self block bo scale _ _ _ _ _ _ (by omega) (by omega)]
  · rw [if_pos hl]
    congr 1
    funext a b
    unfold blockDelta
    rw [if_neg (fun h => hl h.1), add_zero]

end PowerMapFacts2

section PowerMapFacts3

variable {α : Type} [LinearOrderedField α] [FloorRing α]

/-- The power maps after `generatePowerMaps`, when every block stays inside the map: the
map of a layer below `layers` holds, bin by bin, the sum of what the blocks add, and the
maps of the other layers are untouched. -/
theorem generatePowerMaps_eq (cfg : Config α) (self : PowerMaps α) (layers : Int)
    (blocks : List (Block α)) (outline_x outline_y scale : α) (ext : Bool)
    (hb : ∀ i : Nat, (i : Int) < layers → ∀ block ∈ blocks,
      BlockInBounds cfg self i outline_x outline_y ext block) :
    generatePowerMaps cfg self layers blocks outline_x outline_y scale ext =
      some (fun (l : Nat) => if (l : Int) < layers then
        fun a b => (blocks.map (fun block =>
          blockDelta cfg self (l : Int) outline_x outline_y scale ext block a b)).sum
        else self.power_maps l) := by
  unfold generatePowerMaps
  obtain ⟨maps, hmaps, hI⟩ := forRange_invariant 0 layers
    (fun i power_maps => do
      let grid ← blocks.foldlM (blockStep cfg self i outline_x outline_y scale ext)
        (Grid.fill 0)
      some (fun l => if l = i.toNat then grid else power_maps l))
    (fun k (maps : Nat → Grid α) => ∀ l, maps l = if l < k then
        fun a b => (blocks.map (fun block =>
          blockDelta cfg self l outline_x outline_y scale ext block a b)).sum
        else self.power_maps l)
    self.power_maps (fun l => by simp)
    (fun k hk maps hmaps => by
      have hk' : (k : Int) < layers := by omega
      have hfold := list_foldlM_shift (blockStep cfg self (0 + (k : Int)) outline_x outline_y
        scale ext) (blockDelta cfg self (k : Int) outline_x outline_y scale ext) blocks
        (fun block hblock g => by
          rw [zero_add]
          exact blockStep_shift cfg self k outline_x outline_y scale ext block
            (hb k hk' block hblock) g) (Grid.fill 0)
      refine ⟨fun l => if l = k then (fun a b => (blocks.map (fun block =>
          blockDelta cfg self k outline_x outline_y scale ext block a b)).sum)
          else maps l, ?_, ?_⟩
      · rw [zero_add] at hfold
        simp only [Option.bind_eq_bind, zero_add, hfold, Option.some_bind, Grid.fill,
          Int.toNat_ofNat]
      · intro l
        show (if l = k then _ else maps l) = _
        by_cases h : l = k
        · subst h
          rw [if_pos rfl, if_pos (Nat.lt_succ_self _)]
        · rw [if_neg h, hmaps l]
          by_cases h2 : l < k
          · rw [if_pos h2, if_pos (Nat.lt_succ_of_lt h2)]
          · rw [if_neg h2, if_neg (by omega)])
  rw [hmaps]
  congr 1
  funext l
  rw [hI l]
  by_cases h : (l : Int) < layers
  · rw [if_pos h, if_pos (by omega)]
  · rw [if_neg h, if_neg (by omega)]

end PowerMapFacts3

section InsideBin

variable {α : Type} [LinearOrderedField α] [FloorRing α]

omit [FloorRing α] in
theorem determineIntersection_area (a b : Rect α) :
    (Rect.determineIntersection a b).area =
      max 0 (min a.ur.x b.ur.x - max a.ll.x b.ll.x) *
        max 0 (min a.ur.y b.ur.y - max a.ll.y b.ll.y) := by
  unfold Rect.determineIntersection
  simp only []
  by_cases hx : max a.ll.x b.ll.x ≤ min a.ur.x b.ur.x
  · by_cases hy : max a.ll.y b.ll.y ≤ min a.ur.y b.ur.y
    · rw [if_pos ⟨hx, hy⟩, max_eq_right (sub_nonneg.mpr hx), max_eq_right (sub_nonneg.mpr hy)]
    · rw [if_neg (fun h => hy h.2), max_eq_left (a := 0) (sub_nonpos.mpr (not_le.mp hy).le),
        mul_zero]
  · rw [if_neg (fun h => hx h.1), max_eq_left (a := 0) (sub_nonpos.mpr (not_le.mp hx).le),
      zero_mul]

theorem truncToInt_of_nonneg (v : α) (h : 0 ≤ v) : truncToInt v = ⌊v⌋ := by
  unfold truncToInt
  rw [if_pos h]

/-- Index range of an interval `[lo, hi]` that lies inside the bin `k` of pitch `dim`. -/
theorem axis_range (dim lo hi : α) (k : Nat) (hdim : 0 < dim)
    (h1 : (k : α) * dim ≤ lo) (h2 : lo ≤ hi) (h3 : hi ≤ ((k : α) + 1) * dim) :
    (k : Int) ≤ truncToInt (lo / dim) ∧
      truncToInt (lo / dim) < truncToInt (hi / dim) + 1 ∧
      truncToInt (hi / dim) + 1 ≤ (k : Int) + 2 ∧
      (truncToInt (lo / dim) ≠ (k : Int) → lo = hi) := by
  have hk0 : (0 : α) ≤ (k : α) := Nat.cast_nonneg k
  have hlo0 : 0 ≤ lo := le_trans (mul_nonneg hk0 hdim.le) h1
  have hlo : (k : α) ≤ lo / dim := (le_div_iff₀ hdim).mpr h1
  have hhi : hi / dim ≤ (k : α) + 1 := (div_le_iff₀ hdim).mpr h3
  have hlohi : lo / dim ≤ hi / dim := div_le_div_of_nonneg_right h2 hdim.le
  rw [truncToInt_of_nonneg _ (div_nonneg hlo0 hdim.le),
    truncToInt_of_nonneg _ (div_nonneg (le_trans hlo0 h2) hdim.le)]
  have hfl : (k : Int) ≤ ⌊lo / dim⌋ := Int.le_floor.mpr (by exact_mod_cast hlo)
  have hmono : ⌊lo / dim⌋ ≤ ⌊hi / dim⌋ := Int.floor_mono hlohi
  have hfu : ⌊hi / dim⌋ ≤ (k : Int) + 1 := by
    have := le_trans (Int.floor_le (hi / dim)) hhi
    exact_mod_cast this
  refine ⟨hfl, by omega, by omega, fun hne => ?_⟩
  have hge : (k : Int) + 1 ≤ ⌊lo / dim⌋ := by omega
  have hge' : (k : α) + 1 ≤ lo / dim := by
    have := Int.le_floor.mp hge
    exact_mod_cast this
  have : ((k : α) + 1) * dim ≤ lo := (le_div_iff₀ hdim).mp hge'
  exact le_antisymm h2 (le_trans h3 this)

omit [FloorRing α] in
/-- Overlap of the interval `[lo, hi]` inside bin `k` with bin `k` itself. -/
theorem axis_overlap_same (dim lo hi : α) (k : Nat)
    (h1 : (k : α) * dim ≤ lo) (h2 : lo ≤ hi) (h3 : hi ≤ ((k : α) + 1) * dim) :
    max 0 (min (((k + 1 : Nat) : α) * dim) hi - max ((k : α) * dim) lo) = hi - lo := by
  have e : ((k + 1 : Nat) : α) = (k : α) + 1 := by push_cast; rfl
  rw [e, min_eq_right h3, max_eq_right h1, max_eq_right (sub_nonneg.mpr h2)]

omit [FloorRing α] in
/-- Overlap of the interval `[lo, hi]` inside bin `k` with the next bin `k + 1`. -/
theorem axis_overlap_next (dim lo hi : α) (k : Nat) (hdim : 0 < dim)
    (h2 : lo ≤ hi) (h3 : hi ≤ ((k : α) + 1) * dim) :
    max 0 (min (((k + 1 + 1 : Nat) : α) * dim) hi - max (((k + 1 : Nat) : α) * dim) lo)
      = 0 := by
  have e : ((k + 1 : Nat) : α) = (k : α) + 1 := by push_cast; rfl
  have e2 : ((k + 1 + 1 : Nat) : α) = (k : α) + 1 + 1 := by push_cast; rfl
  have h4 : hi ≤ ((k : α) + 1 + 1) * dim := by nlinarith
  rw [e, e2, min_eq_right h4, max_eq_left (le_trans h2 h3), max_eq_left (sub_nonpos.mpr h3)]

end InsideBin

section InsideBin2

variable {α : Type} [LinearOrderedField α] [FloorRing α]

omit [FloorRing α] in
/-- The value added to a bin that is not counted as fully covered, with the coordinate
tables of `initPowerMaps` read out. -/
theorem binValue_partial (cfg : Config α) (self0 : PowerMaps α) (outline_x outline_y : α)
    (block : Block α) (bo : Rect α) (scale : α) (xl xu yl yu : Int) (a b : Nat)
    (ha : a + 1 ≤ cfg.POWER_MAPS_DIM) (hb : b + 1 ≤ cfg.POWER_MAPS_DIM)
    (hnf : ¬ (xl < a ∧ (a : Int) < xu - 1 ∧ yl < b ∧ (b : Int) < yu - 1)) :
    binValue cfg (geometryOf cfg self0 outline_x outline_y) block bo scale xl xu yl yu a b =
      (if ((a : Int) < (cfg.POWER_MAPS_PADDED_BINS : Int)
          ∨ (a : Int) ≥ (cfg.POWER_MAPS_DIM : Int) - (cfg.POWER_MAPS_PADDED_BINS : Int)
          ∨ (b : Int) < (cfg.POWER_MAPS_PADDED_BINS : Int)
          ∨ (b : Int) ≥ (cfg.POWER_MAPS_DIM : Int) - (cfg.POWER_MAPS_PADDED_BINS : Int))
        then block.power_density * scale else block.power_density) *
      (max 0 (min (((a + 1 : Nat) : α) * (outline_x / (cfg.THERMAL_MAP_DIM : α))) bo.ur.x
          - max ((a : α) * (outline_x / (cfg.THERMAL_MAP_DIM : α))) bo.ll.x) *
        max 0 (min (((b + 1 : Nat) : α) * (outline_y / (cfg.THERMAL_MAP_DIM : α))) bo.ur.y
          - max ((b : α) * (outline_y / (cfg.THERMAL_MAP_DIM : α))) bo.ll.y) /
        (outline_x / (cfg.THERMAL_MAP_DIM : α) * (outline_y / (cfg.THERMAL_MAP_DIM : α)))) := by
  unfold binValue
  simp only []
  rw [if_neg hnf, determineIntersection_area]
  simp only [geometryOf]
  rw [if_pos (show a < cfg.POWER_MAPS_DIM + 1 by omega),
    if_pos (show a + 1 < cfg.POWER_MAPS_DIM + 1 by omega),
    if_pos (show b < cfg.POWER_MAPS_DIM + 1 by omega),
    if_pos (show b + 1 < cfg.POWER_MAPS_DIM + 1 by omega)]
  simp only [decide_eq_true_eq]
  split_ifs <;> rfl

end InsideBin2

section InsideBin3

variable {α : Type} [LinearOrderedField α] [FloorRing α]

/-- A single block whose offset rectangle lies inside the bin `(kx, ky)`: the call returns,
the bin receives the density weighted by the covered share of the bin area (when it is a
core bin), and every other bin of every layer below `layers` is zero. -/
theorem single_block_inside_bin (cfg : Config α) (self0 : PowerMaps α) (layers : Int)
    (block : Block α) (outline_x outline_y scale : α) (ext : Bool) (kx ky l : Nat)
    (hT : 0 < cfg.THERMAL_MAP_DIM) (hP : 0 < cfg.POWER_MAPS_PADDED_BINS)
    (hox : 0 < outline_x) (hoy : 0 < outline_y)
    (hl : block.layer = (l : Int))
    (hkx : kx + cfg.POWER_MAPS_PADDED_BINS < cfg.POWER_MAPS_DIM)
    (hky : ky + cfg.POWER_MAPS_PADDED_BINS < cfg.POWER_MAPS_DIM)
    (hx1 : (kx : α) * (outline_x / (cfg.THERMAL_MAP_DIM : α)) ≤
      (blockOffset (geometryOf cfg self0 outline_x outline_y) block outline_x outline_y ext).ll.x)
    (hx2 : (blockOffset (geometryOf cfg self0 outline_x outline_y) block outline_x outline_y
        ext).ll.x ≤
      (blockOffset (geometryOf cfg self0 outline_x outline_y) block outline_x outline_y ext).ur.x)
    (hx3 : (blockOffset (geometryOf cfg self0 outline_x outline_y) block outline_x outline_y
        ext).ur.x ≤ ((kx : α) + 1) * (outline_x / (cfg.THERMAL_MAP_DIM : α)))
    (hy1 : (ky : α) * (outline_y / (cfg.THERMAL_MAP_DIM : α)) ≤
      (blockOffset (geometryOf cfg self0 outline_x outline_y) block outline_x outline_y ext).ll.y)
    (hy2 : (blockOffset (geometryOf cfg self0 outline_x outline_y) block outline_x outline_y
        ext).ll.y ≤
      (blockOffset (geometryOf cfg self0 outline_x outline_y) block outline_x outline_y ext).ur.y)
    (hy3 : (blockOffset (geometryOf cfg self0 outline_x outline_y) block outline_x outline_y
        ext).ur.y ≤ ((ky : α) + 1) * (outline_y / (cfg.THERMAL_MAP_DIM : α))) :
    ∃ maps, generatePowerMaps cfg (geometryOf cfg self0 outline_x outline_y) layers [block]
        outline_x outline_y scale ext = some maps ∧
      ((l : Int) < layers → cfg.POWER_MAPS_PADDED_BINS ≤ kx → cfg.POWER_MAPS_PADDED_BINS ≤ ky →
        maps l kx ky = block.power_density *
          (((blockOffset (geometryOf cfg self0 outline_x outline_y) block outline_x outline_y
              ext).ur.x -
            (blockOffset (geometryOf cfg self0 outline_x outline_y) block outline_x outline_y
              ext).ll.x) *
           ((blockOffset (geometryOf cfg self0 outline_x outline_y) block outline_x outline_y
              ext).ur.y -
            (blockOffset (geometryOf cfg self0 outline_x outline_y) block outline_x outline_y
              ext).ll.y) /
           (outline_x / (cfg.THERMAL_MAP_DIM : α) * (outline_y / (cfg.THERMAL_MAP_DIM : α))))) ∧
      ∀ (l' a b : Nat), (l' : Int) < layers → ¬ (l' = l ∧ a = kx ∧ b = ky) →
        maps l' a b = 0 := by
  have hTpos : (0 : α) < (cfg.THERMAL_MAP_DIM : α) := by exact_mod_cast hT
  have hdx : 0 < outline_x / (cfg.THERMAL_MAP_DIM : α) := div_pos hox hTpos
  have hdy : 0 < outline_y / (cfg.THERMAL_MAP_DIM : α) := div_pos hoy hTpos
  obtain ⟨hxa0, hxb0, hxc0, hxd0⟩ := axis_range _ _ _ kx hdx hx1 hx2 hx3
  obtain ⟨hya0, hyb0, hyc0, hyd0⟩ := axis_range _ _ _ ky hdy hy1 hy2 hy3
  have hxa : (kx : Int) ≤ xLower (geometryOf cfg self0 outline_x outline_y) block outline_x outline_y ext := hxa0
  have hxb : xLower (geometryOf cfg self0 outline_x outline_y) block outline_x outline_y ext < xUpper (geometryOf cfg self0 outline_x outline_y) block outline_x outline_y ext :=
    hxb0
  have hxc : xUpper (geometryOf cfg self0 outline_x outline_y) block outline_x outline_y ext ≤ (kx : Int) + 2 := hxc0
  have hxd : xLower (geometryOf cfg self0 outline_x outline_y) block outline_x outline_y ext ≠ (kx : Int) → (blockOffset (geometryOf cfg self0 outline_x outline_y) block outline_x outline_y ext).ll.x = (blockOffset (geometryOf cfg self0 outline_x outline_y) block outline_x outline_y ext).ur.x := hxd0
  have hya : (ky : Int) ≤ yLower (geometryOf cfg self0 outline_x outline_y) block outline_x outline_y ext := hya0
  have hyb : yLower (geometryOf cfg self0 outline_x outline_y) block outline_x outline_y ext < yUpper (geometryOf cfg self0 outline_x outline_y) block outline_x outline_y ext :=
    hyb0
  have hyc : yUpper (geometryOf cfg self0 outline_x outline_y) block outline_x outline_y ext ≤ (ky : Int) + 2 := hyc0
  have hyd : yLower (geometryOf cfg self0 outline_x outline_y) block outline_x outline_y ext ≠ (ky : Int) → (blockOffset (geometryOf cfg self0 outline_x outline_y) block outline_x outline_y ext).ll.y = (blockOffset (geometryOf cfg self0 outline_x outline_y) block outline_x outline_y ext).ur.y := hyd0
  clear hxa0 hxb0 hxc0 hxd0 hya0 hyb0 hyc0 hyd0
  have hb : ∀ i : Nat, (i : Int) < layers → ∀ blk ∈ [block],
      BlockInBounds cfg (geometryOf cfg self0 outline_x outline_y) i outline_x outline_y ext blk := by
    intro i _ blk hblk _
    rw [List.mem_singleton] at hblk
    subst hblk
    exact ⟨by omega, by omega, by omega, by omega⟩
  rw [generatePowerMaps_eq cfg (geometryOf cfg self0 outline_x outline_y) layers [block] outline_x outline_y scale ext hb]
  refine ⟨_, rfl, ?_, ?_⟩
  · intro hll hPx hPy
    simp only [if_pos hll, List.map_cons, List.map_nil, List.sum_cons, List.sum_nil, add_zero]
    unfold blockDelta
    by_cases hvis : (xLower (geometryOf cfg self0 outline_x outline_y) block outline_x outline_y ext ≤ (kx : Int) ∧
        (kx : Int) < xUpper (geometryOf cfg self0 outline_x outline_y) block outline_x outline_y ext) ∧
        (yLower (geometryOf cfg self0 outline_x outline_y) block outline_x outline_y ext ≤ (ky : Int) ∧
        (ky : Int) < yUpper (geometryOf cfg self0 outline_x outline_y) block outline_x outline_y ext)
    · rw [if_pos ⟨hl, hvis⟩, binValue_partial _ _ _ _ _ _ _ _ _ _ _ _ _ (by omega)
        (by omega) (by omega), if_neg (by omega),
        axis_overlap_same _ _ _ kx hx1 hx2 hx3, axis_overlap_same _ _ _ ky hy1 hy2 hy3]
    · rw [if_neg (fun h => hvis h.2)]
      have hdeg : (blockOffset (geometryOf cfg self0 outline_x outline_y) block outline_x outline_y ext).ll.x = (blockOffset (geometryOf cfg self0 outline_x outline_y) block outline_x outline_y ext).ur.x ∨ (blockOffset (geometryOf cfg self0 outline_x outline_y) block outline_x outline_y ext).ll.y = (blockOffset (geometryOf cfg self0 outline_x outline_y) block outline_x outline_y ext).ur.y := by
        by_cases hxe : xLower (geometryOf cfg self0 outline_x outline_y) block outline_x outline_y ext = (kx : Int)
        · by_cases hye : yLower (geometryOf cfg self0 outline_x outline_y) block outline_x outline_y ext = (ky : Int)
          · exact absurd ⟨⟨by omega, by omega⟩, by omega, by omega⟩ hvis
          · exact Or.inr (hyd hye)
        · exact Or.inl (hxd hxe)
      rcases hdeg with h | h
      · rw [h, sub_self, zero_mul, zero_div, mul_zero]
      · rw [h, sub_self, mul_zero, zero_div, mul_zero]
  · intro l' a b hl' hne
    simp only [if_pos hl', List.map_cons, List.map_nil, List.sum_cons, List.sum_nil, add_zero]
    unfold blockDelta
    by_cases hvis : block.layer = (l' : Int) ∧
        (xLower (geometryOf cfg self0 outline_x outline_y) block outline_x outline_y ext ≤ (a : Int) ∧
        (a : Int) < xUpper (geometryOf cfg self0 outline_x outline_y) block outline_x outline_y ext) ∧
        (yLower (geometryOf cfg self0 outline_x outline_y) block outline_x outline_y ext ≤ (b : Int) ∧
        (b : Int) < yUpper (geometryOf cfg self0 outline_x outline_y) block outline_x outline_y ext)
    · rw [if_pos hvis, binValue_partial _ _ _ _ _ _ _ _ _ _ _ _ _ (by omega)
        (by omega) (by omega)]
      obtain ⟨hlay, ⟨ha1, ha2⟩, hb1, hb2⟩ := hvis
      have hleq : l' = l := by
        have : (l' : Int) = (l : Int) := by rw [← hlay, hl]
        exact_mod_cast this
      have hcase : a = kx + 1 ∨ b = ky + 1 := by
        by_contra hcon
        exact hne ⟨hleq, by omega, by omega⟩
      rcases hcase with h | h
      · subst h
        rw [axis_overlap_next _ _ _ kx hdx hx2 hx3, zero_mul, zero_div, mul_zero]
      · subst h
        rw [axis_overlap_next _ _ _ ky hdy hy2 hy3, mul_zero, zero_div, mul_zero]
    · rw [if_neg hvis]

end InsideBin3

section PowerMapClaims

variable {α : Type} [LinearOrderedField α] [FloorRing α]

/-- C6: after `initPowerMaps` for a positive outline, a single block on layer `l` whose
offset rectangle coincides with the core-zone bin `(kx, ky)` makes `generatePowerMaps`
store exactly the block's power density in `powerMap[l][kx][ky]` and zero in every other
bin of every layer, for any padding power scale (at least one padding bin per side). -/
theorem C6_full_coverage (cfg : Config α) (self0 self : PowerMaps α) (layers : Int)
    (block : Block α) (outline_x outline_y scale : α) (ext : Bool) (kx ky l : Nat)
    (hT : 0 < cfg.THERMAL_MAP_DIM) (hP : 0 < cfg.POWER_MAPS_PADDED_BINS)
    (hox : 0 < outline_x) (hoy : 0 < outline_y)
    (hinit : initPowerMaps cfg self0 layers outline_x outline_y = some self)
    (hl : block.layer = (l : Int)) (hll : (l : Int) < layers)
    (hPx : cfg.POWER_MAPS_PADDED_BINS ≤ kx)
    (hkx : kx < cfg.POWER_MAPS_DIM - cfg.POWER_MAPS_PADDED_BINS)
    (hPy : cfg.POWER_MAPS_PADDED_BINS ≤ ky)
    (hky : ky < cfg.POWER_MAPS_DIM - cfg.POWER_MAPS_PADDED_BINS)
    (hllx : (blockOffset self block outline_x outline_y ext).ll.x =
      self.power_maps_bins_ll_x kx)
    (hurx : (blockOffset self block outline_x outline_y ext).ur.x =
      self.power_maps_bins_ll_x (kx + 1))
    (hlly : (blockOffset self block outline_x outline_y ext).ll.y =
      self.power_maps_bins_ll_y ky)
    (hury : (blockOffset self block outline_x outline_y ext).ur.y =
      self.power_maps_bins_ll_y (ky + 1)) :
    ∃ maps, generatePowerMaps cfg self layers [block] outline_x outline_y scale ext
        = some maps ∧
      maps l kx ky = block.power_density ∧
      ∀ (l' a b : Nat), (l' : Int) < layers → ¬ (l' = l ∧ a = kx ∧ b = ky) →
        maps l' a b = 0 := by
  rw [initPowerMaps_eq] at hinit
  obtain rfl := Option.some.inj hinit
  have hTpos : (0 : α) < (cfg.THERMAL_MAP_DIM : α) := by exact_mod_cast hT
  have hdx : 0 < outline_x / (cfg.THERMAL_MAP_DIM : α) := div_pos hox hTpos
  have hdy : 0 < outline_y / (cfg.THERMAL_MAP_DIM : α) := div_pos hoy hTpos
  have tx : ∀ k, k ≤ cfg.POWER_MAPS_DIM →
      (geometryOf cfg self0 outline_x outline_y).power_maps_bins_ll_x k =
        (k : α) * (outline_x / (cfg.THERMAL_MAP_DIM : α)) := fun k hk =>
    if_pos (Nat.lt_succ_of_le hk)
  have ty : ∀ k, k ≤ cfg.POWER_MAPS_DIM →
      (geometryOf cfg self0 outline_x outline_y).power_maps_bins_ll_y k =
        (k : α) * (outline_y / (cfg.THERMAL_MAP_DIM : α)) := fun k hk =>
    if_pos (Nat.lt_succ_of_le hk)
  rw [tx kx (by omega)] at hllx
  rw [tx (kx + 1) (by omega), Nat.cast_succ] at hurx
  rw [ty ky (by omega)] at hlly
  rw [ty (ky + 1) (by omega), Nat.cast_succ] at hury
  obtain ⟨maps, hmaps, hval, hzero⟩ := single_block_inside_bin cfg self0 layers block
    outline_x outline_y scale ext kx ky l hT hP hox hoy hl (by omega) (by omega)
    (by rw [hllx]) (by rw [hllx, hurx]; nlinarith) (by rw [hurx])
    (by rw [hlly]) (by rw [hlly, hury]; nlinarith) (by rw [hury])
  refine ⟨maps, hmaps, ?_, hzero⟩
  rw [hval hll hPx hPy, hllx, hurx, hlly, hury]
  have e : ((kx : α) + 1) * (outline_x / (cfg.THERMAL_MAP_DIM : α))
        - (kx : α) * (outline_x / (cfg.THERMAL_MAP_DIM : α)) =
      outline_x / (cfg.THERMAL_MAP_DIM : α) := by ring
  have e' : ((ky : α) + 1) * (outline_y / (cfg.THERMAL_MAP_DIM : α))
        - (ky : α) * (outline_y / (cfg.THERMAL_MAP_DIM : α)) =
      outline_y / (cfg.THERMAL_MAP_DIM : α) := by ring
  rw [e, e', div_self (mul_pos hdx hdy).ne', mul_one]

/-- C7: after `initPowerMaps` for a positive outline, a single block on layer `l` whose
offset rectangle lies inside the core-zone bin `(kx, ky)` makes `generatePowerMaps` store
`density * area(offset rectangle) / binArea` in `powerMap[l][kx][ky]`; when the offset
rectangle covers exactly half of the bin area this is exactly half of the density. -/
theorem C7_partial_coverage (cfg : Config α) (self0 self : PowerMaps α) (layers : Int)
    (block : Block α) (outline_x outline_y scale : α) (ext : Bool) (kx ky l : Nat)
    (hT : 0 < cfg.THERMAL_MAP_DIM) (hP : 0 < cfg.POWER_MAPS_PADDED_BINS)
    (hox : 0 < outline_x) (hoy : 0 < outline_y)
    (hinit : initPowerMaps cfg self0 layers outline_x outline_y = some self)
    (hl : block.layer = (l : Int)) (hll : (l : Int) < layers)
    (hPx : cfg.POWER_MAPS_PADDED_BINS ≤ kx)
    (hkx : kx < cfg.POWER_MAPS_DIM - cfg.POWER_MAPS_PADDED_BINS)
    (hPy : cfg.POWER_MAPS_PADDED_BINS ≤ ky)
    (hky : ky < cfg.POWER_MAPS_DIM - cfg.POWER_MAPS_PADDED_BINS)
    (hx1 : self.power_maps_bins_ll_x kx ≤ (blockOffset self block outline_x outline_y ext).ll.x)
    (hx2 : (blockOffset self block outline_x outline_y ext).ll.x ≤
      (blockOffset self block outline_x outline_y ext).ur.x)
    (hx3 : (blockOffset self block outline_x outline_y ext).ur.x ≤
      self.power_maps_bins_ll_x (kx + 1))
    (hy1 : self.power_maps_bins_ll_y ky ≤ (blockOffset self block outline_x outline_y ext).ll.y)
    (hy2 : (blockOffset self block outline_x outline_y ext).ll.y ≤
      (blockOffset self block outline_x outline_y ext).ur.y)
    (hy3 : (blockOffset self block outline_x outline_y ext).ur.y ≤
      self.power_maps_bins_ll_y (ky + 1)) :
    ∃ maps, generatePowerMaps cfg self layers [block] outline_x outline_y scale ext
        = some maps ∧
      maps l kx ky = block.power_density *
        (((blockOffset self block outline_x outline_y ext).ur.x -
            (blockOffset self block outline_x outline_y ext).ll.x) *
          ((blockOffset self block outline_x outline_y ext).ur.y -
            (blockOffset self block outline_x outline_y ext).ll.y)) /
        self.power_maps_bin_area ∧
      (((blockOffset self block outline_x outline_y ext).ur.x -
            (blockOffset self block outline_x outline_y ext).ll.x) *
          ((blockOffset self block outline_x outline_y ext).ur.y -
            (blockOffset self block outline_x outline_y ext).ll.y) =
          self.power_maps_bin_area / 2 →
        maps l kx ky = block.power_density / 2) := by
  rw [initPowerMaps_eq] at hinit
  obtain rfl := Option.some.inj hinit
  have hTpos : (0 : α) < (cfg.THERMAL_MAP_DIM : α) := by exact_mod_cast hT
  have hdx : 0 < outline_x / (cfg.THERMAL_MAP_DIM : α) := div_pos hox hTpos
  have hdy : 0 < outline_y / (cfg.THERMAL_MAP_DIM : α) := div_pos hoy hTpos
  have tx : ∀ k, k ≤ cfg.POWER_MAPS_DIM →
      (geometryOf cfg self0 outline_x outline_y).power_maps_bins_ll_x k =
        (k : α) * (outline_x / (cfg.THERMAL_MAP_DIM : α)) := fun k hk =>
    if_pos (Nat.lt_succ_of_le hk)
  have ty : ∀ k, k ≤ cfg.POWER_MAPS_DIM →
      (geometryOf cfg self0 outline_x outline_y).power_maps_bins_ll_y k =
        (k : α) * (outline_y / (cfg.THERMAL_MAP_DIM : α)) := fun k hk =>
    if_pos (Nat.lt_succ_of_le hk)
  rw [tx kx (by omega)] at hx1
  rw [tx (kx + 1) (by omega), Nat.cast_succ] at hx3
  rw [ty ky (by omega)] at hy1
  rw [ty (ky + 1) (by omega), Nat.cast_succ] at hy3
  obtain ⟨maps, hmaps, hval, -⟩ := single_block_inside_bin cfg self0 layers block
    outline_x outline_y scale ext kx ky l hT hP hox hoy hl (by omega) (by omega)
    hx1 hx2 hx3 hy1 hy2 hy3
  have harea : (geometryOf cfg self0 outline_x outline_y).power_maps_bin_area =
      outline_x / (cfg.THERMAL_MAP_DIM : α) * (outline_y / (cfg.THERMAL_MAP_DIM : α)) := rfl
  have hne : (geometryOf cfg self0 outline_x outline_y).power_maps_bin_area ≠ 0 := by
    rw [harea]
    exact (mul_pos hdx hdy).ne'
  refine ⟨maps, hmaps, ?_, fun hhalf => ?_⟩
  · rw [hval hll hPx hPy, harea]
    ring
  · rw [hval hll hPx hPy, ← harea, hhalf]
    field_simp
    ring

end PowerMapClaims

section PowerMapScenarios

/-- C6 on the 6 × 6 grid of the scenario, outline 10 × 10: the block `[2.5, 5] × [2.5, 5]`
of density 5, not extended, is shifted onto the core bin `(2, 2)`. -/
theorem C6_full_coverage_witness :
    (initPowerMaps cfgScenario membersZero 1 10 10 =
        some (geometryOf cfgScenario membersZero 10 10) ∧
      (blockOffset (geometryOf cfgScenario membersZero 10 10) (blockAt (5 / 2) (5 / 2) 5 5 5)
        10 10 false).ll.x = (geometryOf cfgScenario membersZero 10 10).power_maps_bins_ll_x 2 ∧
      (blockOffset (geometryOf cfgScenario membersZero 10 10) (blockAt (5 / 2) (5 / 2) 5 5 5)
        10 10 false).ur.x =
          (geometryOf cfgScenario membersZero 10 10).power_maps_bins_ll_x (2 + 1)) ∧
    ∃ maps, generatePowerMaps cfgScenario (geometryOf cfgScenario membersZero 10 10) 1
        [blockAt (5 / 2) (5 / 2) 5 5 5] 10 10 (1 / 2) false = some maps ∧
      maps 0 2 2 = (blockAt (5 / 2) (5 / 2) 5 5 5).power_density ∧
      ∀ (l' a b : Nat), (l' : Int) < 1 → ¬ (l' = 0 ∧ a = 2 ∧ b = 2) → maps l' a b = 0 :=
  ⟨⟨initPowerMaps_eq _ _ _ _ _, by decide!, by decide!⟩,
    C6_full_coverage cfgScenario membersZero _ 1 (blockAt (5 / 2) (5 / 2) 5 5 5) 10 10 (1 / 2)
      false 2 2 0 (by decide) (by decide) (by decide!) (by decide!) (initPowerMaps_eq _ _ _ _ _)
      rfl (by decide) (by decide) (by decide) (by decide) (by decide)
      (by decide!) (by decide!) (by decide!) (by decide!)⟩

/-- C7 on the 6 × 6 grid of the scenario, outline 10 × 10: the block
`[2.5, 5] × [2.5, 3.75]` of density 5 covers half of the core bin `(2, 2)`. -/
theorem C7_partial_coverage_witness :
    (initPowerMaps cfgScenario membersZero 1 10 10 =
        some (geometryOf cfgScenario membersZero 10 10) ∧
      ((blockOffset (geometryOf cfgScenario membersZero 10 10)
          (blockAt (5 / 2) (5 / 2) 5 (15 / 4) 5) 10 10 true).ur.x -
        (blockOffset (geometryOf cfgScenario membersZero 10 10)
          (blockAt (5 / 2) (5 / 2) 5 (15 / 4) 5) 10 10 true).ll.x) *
        ((blockOffset (geometryOf cfgScenario membersZero 10 10)
          (blockAt (5 / 2) (5 / 2) 5 (15 / 4) 5) 10 10 true).ur.y -
        (blockOffset (geometryOf cfgScenario membersZero 10 10)
          (blockAt (5 / 2) (5 / 2) 5 (15 / 4) 5) 10 10 true).ll.y) =
        (geometryOf cfgScenario membersZero 10 10).power_maps_bin_area / 2) ∧
    ∃ maps, generatePowerMaps cfgScenario (geometryOf cfgScenario membersZero 10 10) 1
        [blockAt (5 / 2) (5 / 2) 5 (15 / 4) 5] 10 10 (1 / 2) true = some maps ∧
      maps 0 2 2 = (blockAt (5 / 2) (5 / 2) 5 (15 / 4) 5).power_density *
        (((blockOffset (geometryOf cfgScenario membersZero 10 10)
            (blockAt (5 / 2) (5 / 2) 5 (15 / 4) 5) 10 10 true).ur.x -
          (blockOffset (geometryOf cfgScenario membersZero 10 10)
            (blockAt (5 / 2) (5 / 2) 5 (15 / 4) 5) 10 10 true).ll.x) *
          ((blockOffset (geometryOf cfgScenario membersZero 10 10)
            (blockAt (5 / 2) (5 / 2) 5 (15 / 4) 5) 10 10 true).ur.y -
          (blockOffset (geometryOf cfgScenario membersZero 10 10)
            (blockAt (5 / 2) (5 / 2) 5 (15 / 4) 5) 10 10 true).ll.y)) /
        (geometryOf cfgScenario membersZero 10 10).power_maps_bin_area ∧
      (((blockOffset (geometryOf cfgScenario membersZero 10 10)
            (blockAt (5 / 2) (5 / 2) 5 (15 / 4) 5) 10 10 true).ur.x -
          (blockOffset (geometryOf cfgScenario membersZero 10 10)
            (blockAt (5 / 2) (5 / 2) 5 (15 / 4) 5) 10 10 true).ll.x) *
          ((blockOffset (geometryOf cfgScenario membersZero 10 10)
            (blockAt (5 / 2) (5 / 2) 5 (15 / 4) 5) 10 10 true).ur.y -
          (blockOffset (geometryOf cfgScenario membersZero 10 10)
            (blockAt (5 / 2) (5 / 2) 5 (15 / 4) 5) 10 10 true).ll.y) =
          (geometryOf cfgScenario membersZero 10 10).power_maps_bin_area / 2 →
        maps 0 2 2 = (blockAt (5 / 2) (5 / 2) 5 (15 / 4) 5).power_density / 2) :=
  ⟨⟨initPowerMaps_eq _ _ _ _ _, by decide!⟩,
    C7_partial_coverage cfgScenario membersZero _ 1 (blockAt (5 / 2) (5 / 2) 5 (15 / 4) 5)
      10 10 (1 / 2) true 2 2 0 (by decide) (by decide) (by decide!) (by decide!)
      (initPowerMaps_eq _ _ _ _ _) rfl (by decide) (by decide) (by decide) (by decide)
      (by decide) (by decide!) (by decide!) (by decide!) (by decide!) (by decide!)
      (by decide!)⟩

/-- C10 (the code departs from it): in the scenario of the specification, outline 10 × 10,
one block of density 5 over the whole outline, `ThermalMapDim = 4`, `PaddedBins = 1`,
`PowerMapDim = 6`, boundary extension enabled, the upper bin indices are 7, so the loops
reach the index 6 beyond the 6 × 6 map and the entry 7 beyond the coordinate tables of
length 7: the call has no defined result. -/
theorem C10_scenario_out_of_range :
    xUpper (geometryOf cfgScenario membersZero 10 10) (blockAt 0 0 10 10 5) 10 10 true = 7 ∧
    yUpper (geometryOf cfgScenario membersZero 10 10) (blockAt 0 0 10 10 5) 10 10 true = 7 ∧
    ((initPowerMaps cfgScenario membersZero 1 10 10).bind (fun self =>
      generatePowerMaps cfgScenario self 1 [blockAt 0 0 10 10 5] 10 10 (1 / 2) true)).isNone
      = true := by
  decide!

end PowerMapScenarios

section AdditivityClaims

variable {α : Type} [LinearOrderedField α] [FloorRing α]

/-- C11: for blocks whose visited bins lie inside the map, the power maps produced by
`generatePowerMaps` are, bin by bin and for every layer below `layers`, the sum of the
power maps produced for each block alone with the same arguments, and every reordering of
the blocks produces the same maps. -/
theorem C11_blocks_add_up (cfg : Config α) (self : PowerMaps α) (layers : Int)
    (blocks : List (Block α)) (outline_x outline_y scale : α) (ext : Bool)
    (hb : ∀ i : Nat, (i : Int) < layers → ∀ block ∈ blocks,
      BlockInBounds cfg self i outline_x outline_y ext block) :
    ∃ maps, generatePowerMaps cfg self layers blocks outline_x outline_y scale ext
        = some maps ∧
      (∃ single : Block α → Nat → Grid α,
        (∀ block ∈ blocks,
          generatePowerMaps cfg self layers [block] outline_x outline_y scale ext
            = some (single block)) ∧
        ∀ (l a b : Nat), (l : Int) < layers →
          maps l a b = (blocks.map (fun block => single block l a b)).sum) ∧
      ∀ blocks', blocks.Perm blocks' →
        generatePowerMaps cfg self layers blocks' outline_x outline_y scale ext
          = some maps := by
  refine ⟨_, generatePowerMaps_eq cfg self layers blocks outline_x outline_y scale ext hb,
    ⟨fun block (l : Nat) => if (l : Int) < layers then
        fun a b => ([block].map (fun blk =>
          blockDelta cfg self (l : Int) outline_x outline_y scale ext blk a b)).sum
        else self.power_maps l, ?_, ?_⟩, ?_⟩
  · intro block hblock
    exact generatePowerMaps_eq cfg self layers [block] outline_x outline_y scale ext
      (fun i hi blk hblk => by
        rw [List.mem_singleton] at hblk
        subst hblk
        exact hb i hi blk hblock)
  · intro l a b hl
    simp only [if_pos hl, List.map_cons, List.map_nil, List.sum_cons, List.sum_nil, add_zero]
  · intro blocks' hperm
    rw [generatePowerMaps_eq cfg self layers blocks' outline_x outline_y scale ext
      (fun i hi blk hblk => hb i hi blk (hperm.mem_iff.mpr hblk))]
    congr 1
    funext l
    by_cases hl : (l : Int) < layers
    · rw [if_pos hl, if_pos hl]
      funext a b
      exact ((hperm.map _).sum_eq).symm
    · rw [if_neg hl, if_neg hl]

end AdditivityClaims

/-- C11 on the 6 × 6 grid of the scenario: two blocks of densities 5 and 3 over the same
core bin. -/
theorem C11_blocks_add_up_witness :
    (generatePowerMaps cfgScenario (geometryOf cfgScenario membersZero 10 10) 1
        blocksOverlapping 10 10 (1 / 2) false).map (fun maps => maps 0 2 2) = some 8 ∧
    ∃ maps, generatePowerMaps cfgScenario (geometryOf cfgScenario membersZero 10 10) 1
        blocksOverlapping 10 10 (1 / 2) false = some maps ∧
      (∃ single : Block ℚ → Nat → Grid ℚ,
        (∀ block ∈ blocksOverlapping,
          generatePowerMaps cfgScenario (geometryOf cfgScenario membersZero 10 10) 1 [block]
            10 10 (1 / 2) false = some (single block)) ∧
        ∀ (l a b : Nat), (l : Int) < 1 →
          maps l a b = (blocksOverlapping.map (fun block => single block l a b)).sum) ∧
      ∀ blocks', blocksOverlapping.Perm blocks' →
        generatePowerMaps cfgScenario (geometryOf cfgScenario membersZero 10 10) 1 blocks'
          10 10 (1 / 2) false = some maps :=
  ⟨by decide!,
    C11_blocks_add_up cfgScenario (geometryOf cfgScenario membersZero 10 10) 1
      blocksOverlapping 10 10 (1 / 2) false (fun i _ block hblock => by
        simp only [blocksOverlapping, List.mem_cons, List.mem_singleton, List.not_mem_nil,
          or_false] at hblock
        rcases hblock with rfl | rfl <;> intro _ <;> decide!)⟩

section MaximumClaims

variable {α : Type} [LinearOrderedField α]

/-- The value of the maximum scan: at least zero and at least every visible entry, and one
of the visible entries as soon as one of them is not negative. -/
theorem maxScan_max (cfg : Config α) (tm : Grid α) (v : α) (hv : maxScan cfg tm = some v) :
    0 ≤ v ∧ (∀ x y, x < cfg.THERMAL_MAP_DIM → y < cfg.THERMAL_MAP_DIM → tm x y ≤ v) ∧
      (v = 0 ∨ ∃ x y, x < cfg.THERMAL_MAP_DIM ∧ y < cfg.THERMAL_MAP_DIM ∧ v = tm x y) ∧
      ((∃ x y, x < cfg.THERMAL_MAP_DIM ∧ y < cfg.THERMAL_MAP_DIM ∧ 0 ≤ tm x y) →
        ∃ x y, x < cfg.THERMAL_MAP_DIM ∧ y < cfg.THERMAL_MAP_DIM ∧ v = tm x y) := by
  obtain ⟨r, hr, h0, hle, hex⟩ := maxScan_spec cfg tm
  rw [hv] at hr
  obtain rfl := Option.some.inj hr
  refine ⟨h0, hle, hex, ?_⟩
  rintro ⟨x, y, hx, hy, hxy⟩
  rcases hex with h | h
  · exact ⟨x, y, hx, hy, le_antisymm (h ▸ hxy) (hle x y hx hy)⟩
  · exact h

/-- What a call leaves in the reference `maxCostTemp`.  With `setMaxCost = true` it is the
value the scan of the thermal map just computed has found, which is the value the call
returns without normalisation, also when `normalize = true`; that value is at least every
visible entry, and one of them when some visible entry is not negative.  With
`setMaxCost = false` the call leaves `maxCostTemp` as it was. -/
theorem max_cost_temp_frame (cfg : Config α) (power_maps : Nat → Grid α)
    (thermal_masks : Nat → Nat → α) (layers : Int) (max_cost_temp : α)
    (set_max_cost normalize : Bool)
    (hD : cfg.POWER_MAPS_DIM = cfg.THERMAL_MAP_DIM + 2 * cfg.POWER_MAPS_PADDED_BINS)
    (hM : cfg.THERMAL_MASK_DIM = 2 * cfg.THERMAL_MASK_CENTER + 1)
    (hC : cfg.THERMAL_MASK_CENTER ≤ cfg.POWER_MAPS_PADDED_BINS) :
    ∃ r, performPowerBlurring cfg power_maps thermal_masks layers max_cost_temp set_max_cost
          normalize = some r ∧
      (set_max_cost = true →
        maxScan cfg r.thermal_map = some r.max_cost_temp ∧
        (∀ x y, x < cfg.THERMAL_MAP_DIM → y < cfg.THERMAL_MAP_DIM →
          r.thermal_map x y ≤ r.max_cost_temp) ∧
        ((∃ x y, x < cfg.THERMAL_MAP_DIM ∧ y < cfg.THERMAL_MAP_DIM ∧ 0 ≤ r.thermal_map x y) →
          ∃ x y, x < cfg.THERMAL_MAP_DIM ∧ y < cfg.THERMAL_MAP_DIM ∧
            r.max_cost_temp = r.thermal_map x y) ∧
        ∃ r0, performPowerBlurring cfg power_maps thermal_masks layers max_cost_temp true
              false = some r0 ∧
          r0.thermal_map = r.thermal_map ∧ r0.ret = some r.max_cost_temp) ∧
      (set_max_cost = false → r.max_cost_temp = max_cost_temp) := by
  obtain ⟨mt, hmt, hcall⟩ := performPowerBlurring_eq cfg power_maps thermal_masks layers
    max_cost_temp set_max_cost normalize hD hM hC
  obtain ⟨mt0, hmt0, hcall0⟩ := performPowerBlurring_eq cfg power_maps thermal_masks layers
    max_cost_temp true false hD hM hC
  rw [hmt] at hmt0
  obtain rfl := Option.some.inj hmt0
  obtain ⟨-, hle, -, hex⟩ := maxScan_max cfg _ mt hmt
  refine ⟨_, hcall, fun hs => ?_, fun hs => ?_⟩
  · subst hs
    refine ⟨by simpa using hmt, by simpa using hle, by simpa using hex, _, hcall0, rfl, ?_⟩
    simp
  · subst hs
    simp

/-- The value a call with `normalize = false` returns: at least zero and at least every
visible entry of the thermal map, zero or a visible entry, and a visible entry, hence the
maximum over the visible thermal map, whenever some visible entry is not negative. -/
theorem returned_maximum_or_zero (cfg : Config α) (power_maps : Nat → Grid α)
    (thermal_masks : Nat → Nat → α) (layers : Int) (max_cost_temp : α) (set_max_cost : Bool)
    (hD : cfg.POWER_MAPS_DIM = cfg.THERMAL_MAP_DIM + 2 * cfg.POWER_MAPS_PADDED_BINS)
    (hM : cfg.THERMAL_MASK_DIM = 2 * cfg.THERMAL_MASK_CENTER + 1)
    (hC : cfg.THERMAL_MASK_CENTER ≤ cfg.POWER_MAPS_PADDED_BINS) :
    ∃ r v, performPowerBlurring cfg power_maps thermal_masks layers max_cost_temp set_max_cost
          false = some r ∧ r.ret = some v ∧ 0 ≤ v ∧
      (∀ x y, x < cfg.THERMAL_MAP_DIM → y < cfg.THERMAL_MAP_DIM → r.thermal_map x y ≤ v) ∧
      (v = 0 ∨ ∃ x y, x < cfg.THERMAL_MAP_DIM ∧ y < cfg.THERMAL_MAP_DIM ∧
        v = r.thermal_map x y) ∧
      ((∃ x y, x < cfg.THERMAL_MAP_DIM ∧ y < cfg.THERMAL_MAP_DIM ∧ 0 ≤ r.thermal_map x y) →
        ∃ x y, x < cfg.THERMAL_MAP_DIM ∧ y < cfg.THERMAL_MAP_DIM ∧ v = r.thermal_map x y) := by
  obtain ⟨mt, hmt, hcall⟩ := performPowerBlurring_eq cfg power_maps thermal_masks layers
    max_cost_temp set_max_cost false hD hM hC
  obtain ⟨h0, hle, hor, hex⟩ := maxScan_max cfg _ mt hmt
  exact ⟨_, mt, hcall, by simp, h0, hle, hor, hex⟩

end MaximumClaims

section IndexClaims

variable {α : Type} [LinearOrderedField α]

/-- The horizontal pass reads the power map at `shiftedIndex`. -/
theorem horizontalPass_shiftedIndex (cfg : Config α) (power_maps : Nat → Grid α)
    (thermal_masks : Nat → Nat → α) (layers : Int) (tmp0 : Grid α) :
    horizontalPass cfg power_maps thermal_masks layers tmp0 =
      forRange 0 layers (fun layer tmp =>
        forRange 0 cfg.POWER_MAPS_DIM (fun y tmp =>
          forRange cfg.POWER_MAPS_PADDED_BINS
              (cfg.THERMAL_MAP_DIM + cfg.POWER_MAPS_PADDED_BINS) (fun x tmp =>
            forRange 0 cfg.THERMAL_MASK_DIM (fun mask_i tmp =>
              (Grid.get? cfg.POWER_MAPS_DIM (power_maps layer.toNat)
                  (shiftedIndex cfg x mask_i) y).bind (fun p =>
                (Arr.get? cfg.THERMAL_MASK_DIM (thermal_masks layer.toNat) mask_i).bind
                  (fun m => Grid.add? cfg.POWER_MAPS_DIM tmp x y (p * m)))) tmp) tmp) tmp)
        tmp0 :=
  rfl

/-- The vertical pass reads the horizontal result at `shiftedIndex`. -/
theorem verticalPass_shiftedIndex (cfg : Config α) (thermal_map_tmp : Grid α)
    (thermal_masks : Nat → Nat → α) (layers : Int) (tm0 : Grid α) :
    verticalPass cfg thermal_map_tmp thermal_masks layers tm0 =
      forRange 0 layers (fun layer tm =>
        forRange cfg.POWER_MAPS_PADDED_BINS
            (cfg.THERMAL_MAP_DIM + cfg.POWER_MAPS_PADDED_BINS) (fun x tm =>
          forRange cfg.POWER_MAPS_PADDED_BINS
              (cfg.THERMAL_MAP_DIM + cfg.POWER_MAPS_PADDED_BINS) (fun y tm =>
            forRange 0 cfg.THERMAL_MASK_DIM (fun mask_i tm =>
              (Grid.get? cfg.POWER_MAPS_DIM thermal_map_tmp x
                  (shiftedIndex cfg y mask_i)).bind (fun t =>
                (Arr.get? cfg.THERMAL_MASK_DIM (thermal_masks layer.toNat) mask_i).bind
                  (fun m => Grid.add? cfg.THERMAL_MAP_DIM tm
                    (x - cfg.POWER_MAPS_PADDED_BINS) (y - cfg.POWER_MAPS_PADDED_BINS)
                    (t * m)))) tm) tm) tm)
        tm0 :=
  rfl

/-- C15 (fails as stated): the configuration `ThermalMapDim = PowerMapDim = 1`,
`PaddedBins = 0`, `MaskDim = 3`, `MaskCenter = 1` satisfies both equations, and for the
visible `x = 0` and `m = 0` the shifted index is `-1`; the call reads outside the power
map and has no defined result. -/
theorem C15_index_without_padding :
    cfgNoPadding.POWER_MAPS_DIM =
        cfgNoPadding.THERMAL_MAP_DIM + 2 * cfgNoPadding.POWER_MAPS_PADDED_BINS ∧
      cfgNoPadding.THERMAL_MASK_DIM = 2 * cfgNoPadding.THERMAL_MASK_CENTER + 1 ∧
      shiftedIndex cfgNoPadding 0 0 = -1 ∧
      (performPowerBlurring cfgNoPadding (fun _ _ _ => 0) masksTwoLayers 1 0 false
        false).isNone = true := by
  decide!

omit [LinearOrderedField α] in
/-- C15 (amended): for every configuration with
`PowerMapDim = ThermalMapDim + 2·PaddedBins`, `MaskDim = 2·MaskCenter + 1` and
`MaskCenter ≤ PaddedBins` the shifted index of both passes satisfies `0 ≤ i < PowerMapDim`
for every visible position in `[PaddedBins, ThermalMapDim + PaddedBins)` and every `m` in
`[0, MaskDim)`, so the reads of both passes at that index are inside the array. -/
theorem C15_index_in_range (cfg : Config α) (x m : Int)
    (hD : cfg.POWER_MAPS_DIM = cfg.THERMAL_MAP_DIM + 2 * cfg.POWER_MAPS_PADDED_BINS)
    (hM : cfg.THERMAL_MASK_DIM = 2 * cfg.THERMAL_MASK_CENTER + 1)
    (hC : cfg.THERMAL_MASK_CENTER ≤ cfg.POWER_MAPS_PADDED_BINS)
    (hx1 : (cfg.POWER_MAPS_PADDED_BINS : Int) ≤ x)
    (hx2 : x < (cfg.THERMAL_MAP_DIM : Int) + (cfg.POWER_MAPS_PADDED_BINS : Int))
    (hm1 : 0 ≤ m) (hm2 : m < (cfg.THERMAL_MASK_DIM : Int)) :
    (0 ≤ shiftedIndex cfg x m ∧ shiftedIndex cfg x m < (cfg.POWER_MAPS_DIM : Int)) ∧
      (∀ (g : Grid α) (y : Int), 0 ≤ y → y < (cfg.POWER_MAPS_DIM : Int) →
        Grid.get? cfg.POWER_MAPS_DIM g (shiftedIndex cfg x m) y =
          some (g (shiftedIndex cfg x m).toNat y.toNat)) ∧
      (∀ (g : Grid α) (y : Int), 0 ≤ y → y < (cfg.POWER_MAPS_DIM : Int) →
        Grid.get? cfg.POWER_MAPS_DIM g y (shiftedIndex cfg x m) =
          some (g y.toNat (shiftedIndex cfg x m).toNat)) := by
  have hb : 0 ≤ shiftedIndex cfg x m ∧ shiftedIndex cfg x m < (cfg.POWER_MAPS_DIM : Int) := by
    unfold shiftedIndex
    constructor <;> omega
  refine ⟨hb, fun g y hy1 hy2 => ?_, fun g y hy1 hy2 => ?_⟩
  · unfold Grid.get?
    rw [if_pos ⟨hb.1, hb.2, hy1, hy2⟩]
  · unfold Grid.get?
    rw [if_pos ⟨hy1, hy2, hb.1, hb.2⟩]

/-- C15 (amended) for the three-by-three grid: visible position 1, mask index 2. -/
theorem C15_index_in_range_witness :
    (0 ≤ shiftedIndex cfgSmall 1 2 ∧ shiftedIndex cfgSmall 1 2 <
        (cfgSmall.POWER_MAPS_DIM : Int)) ∧
      (∀ (g : Grid ℚ) (y : Int), 0 ≤ y → y < (cfgSmall.POWER_MAPS_DIM : Int) →
        Grid.get? cfgSmall.POWER_MAPS_DIM g (shiftedIndex cfgSmall 1 2) y =
          some (g (shiftedIndex cfgSmall 1 2).toNat y.toNat)) ∧
      (∀ (g : Grid ℚ) (y : Int), 0 ≤ y → y < (cfgSmall.POWER_MAPS_DIM : Int) →
        Grid.get? cfgSmall.POWER_MAPS_DIM g y (shiftedIndex cfgSmall 1 2) =
          some (g y.toNat (shiftedIndex cfgSmall 1 2).toNat)) :=
  C15_index_in_range cfgSmall 1 2 rfl rfl (by decide) (by decide) (by decide) (by decide)
    (by decide)

end IndexClaims

/-- C14 (the code departs from it): on the 6 × 6 grid of the scenario, outline 10 × 10,
boundary extension enabled, the block `[7.5, 10] × [7.5, 10]` inside the outline has the
index range 4 ≤ x, y < 7, so the bin index 6 = `PowerMapDim` is visited: the step for the
bin `(4, 6)` reads the coordinate table at 7 and the map at 6, outside both arrays, and
the call has no defined result. -/
theorem C14_index_beyond_map :
    xLower (geometryOf cfgScenario membersZero 10 10) (blockAt (15 / 2) (15 / 2) 10 10 5)
        10 10 true = 4 ∧
    xUpper (geometryOf cfgScenario membersZero 10 10) (blockAt (15 / 2) (15 / 2) 10 10 5)
        10 10 true = 7 ∧
    yLower (geometryOf cfgScenario membersZero 10 10) (blockAt (15 / 2) (15 / 2) 10 10 5)
        10 10 true = 4 ∧
    yUpper (geometryOf cfgScenario membersZero 10 10) (blockAt (15 / 2) (15 / 2) 10 10 5)
        10 10 true = 7 ∧
    cfgScenario.POWER_MAPS_DIM = 6 ∧
    (binStep cfgScenario (geometryOf cfgScenario membersZero 10 10)
      (blockAt (15 / 2) (15 / 2) 10 10 5)
      (blockOffset (geometryOf cfgScenario membersZero 10 10)
        (blockAt (15 / 2) (15 / 2) 10 10 5) 10 10 true)
      (1 / 2) 4 7 4 7 4 6 (Grid.fill 0)).isNone = true ∧
    ((initPowerMaps cfgScenario membersZero 1 10 10).bind (fun self =>
      generatePowerMaps cfgScenario self 1 [blockAt (15 / 2) (15 / 2) 10 10 5] 10 10 (1 / 2)
        true)).isNone = true := by
  decide!

section BaselineClaims

/-- With non-negative power maps and mask entries no visible entry of the thermal map is
below the room temperature. -/
theorem thermalMapOf_ge_room {α : Type} [LinearOrderedField α] (cfg : Config α)
    (power_maps : Nat → Grid α) (thermal_masks : Nat → Nat → α) (layers a b : Nat)
    (hD : cfg.POWER_MAPS_DIM = cfg.THERMAL_MAP_DIM + 2 * cfg.POWER_MAPS_PADDED_BINS)
    (hM : cfg.THERMAL_MASK_DIM = 2 * cfg.THERMAL_MASK_CENTER + 1)
    (hC : cfg.THERMAL_MASK_CENTER ≤ cfg.POWER_MAPS_PADDED_BINS)
    (hmask : ∀ l m, l < layers → m < cfg.THERMAL_MASK_DIM → 0 ≤ thermal_masks l m)
    (hpower : ∀ l x y, l < layers → x < cfg.POWER_MAPS_DIM → y < cfg.POWER_MAPS_DIM →
      0 ≤ power_maps l x y) :
    cfg.ROOM_TEMPERATURE_K ≤ thermalMapOf cfg power_maps thermal_masks layers a b := by
  have htmp : ∀ x y, 0 ≤ tmpMapOf cfg power_maps thermal_masks layers x y := by
    intro x y
    unfold tmpMapOf
    split_ifs with hc
    · unfold hconv
      refine Finset.sum_nonneg (fun l hl => Finset.sum_nonneg (fun m hm => ?_))
      have hl' := Finset.mem_range.mp hl
      have hm' := Finset.mem_range.mp hm
      exact mul_nonneg (hpower l _ y hl' (by omega) hc.2.2) (hmask l m hl' hm')
    · exact le_refl _
  unfold thermalMapOf
  refine le_add_of_nonneg_right ?_
  split_ifs
  · unfold vconv
    refine Finset.sum_nonneg (fun l hl => Finset.sum_nonneg (fun m hm => ?_))
    exact mul_nonneg (htmp _ _)
      (hmask l m (Finset.mem_range.mp hl) (Finset.mem_range.mp hm))
  · exact le_refl _

/-- C16: the masks produced by `initThermalMasks` (positive impulse factor, boundary value
strictly between zero and the impulse factor) have no negative entry, and with them and
power maps without negative values every entry of the thermal map after
`performPowerBlurring` is at least the room temperature. -/
theorem C16_never_below_room (cfg : Config ℝ) (layers : Int) (parameters : MaskParameters)
    (mask0 : Nat → ℝ) (power_maps : Nat → Grid ℝ) (max_cost_temp : ℝ)
    (set_max_cost normalize : Bool)
    (hD : cfg.POWER_MAPS_DIM = cfg.THERMAL_MAP_DIM + 2 * cfg.POWER_MAPS_PADDED_BINS)
    (hM : cfg.THERMAL_MASK_DIM = 2 * cfg.THERMAL_MASK_CENTER + 1)
    (hC : cfg.THERMAL_MASK_CENTER ≤ cfg.POWER_MAPS_PADDED_BINS)
    (_hC0 : 0 < cfg.THERMAL_MASK_CENTER)
    (_hf : 0 < parameters.impulse_factor) (_hb : 0 < parameters.mask_boundary_value)
    (_hbf : parameters.mask_boundary_value < parameters.impulse_factor)
    (hpower : ∀ (l x y : Nat), (l : Int) < layers → x < cfg.POWER_MAPS_DIM →
      y < cfg.POWER_MAPS_DIM → 0 ≤ power_maps l x y) :
    ∃ masks, initThermalMasks cfg layers parameters mask0 = some masks ∧
      (∀ mask ∈ masks, ∀ k, k < cfg.THERMAL_MASK_DIM → 0 ≤ mask k) ∧
      ∃ r, performPowerBlurring cfg power_maps (fun l => masks.getD l mask0) layers
          max_cost_temp set_max_cost normalize = some r ∧
        ∀ x y, x < cfg.THERMAL_MAP_DIM → y < cfg.THERMAL_MAP_DIM →
          cfg.ROOM_TEMPERATURE_K ≤ r.thermal_map x y := by
  have hnonneg : ∀ i k, k < cfg.THERMAL_MASK_DIM → 0 ≤ maskOf cfg parameters mask0 i k := by
    intro i k hk
    rw [maskOf_apply _ _ _ _ _ (by omega)]
    exact mul_nonneg (Real.sqrt_nonneg _) (Real.exp_pos _).le
  refine ⟨_, initThermalMasks_eq cfg layers parameters mask0 hM, ?_, ?_⟩
  · intro mask hmask k hk
    obtain ⟨i, -, rfl⟩ := List.mem_map.mp hmask
    exact hnonneg _ k hk
  · obtain ⟨mt, -, hcall⟩ := performPowerBlurring_eq cfg power_maps
      (fun l => ((List.range layers.toNat).map
        (fun k => maskOf cfg parameters mask0 (k + 1))).getD l mask0)
      layers max_cost_temp set_max_cost normalize hD hM hC
    refine ⟨_, hcall, fun x y _ _ => ?_⟩
    refine thermalMapOf_ge_room cfg power_maps _ layers.toNat x y hD hM hC ?_ ?_
    · intro l m hl hm
      have e : ((List.range layers.toNat).map
          (fun k => maskOf cfg parameters mask0 (k + 1))).getD l mask0 =
          maskOf cfg parameters mask0 (l + 1) := by
        simp [List.getD_eq_getElem?_getD, List.getElem?_map, List.getElem?_range, hl]
      show 0 ≤ (((List.range layers.toNat).map
          (fun k => maskOf cfg parameters mask0 (k + 1))).getD l mask0) m
      rw [e]
      exact hnonneg _ m hm
    · intro l x y hl hx hy
      exact hpower l x y (by omega) hx hy

/-- C16 for two layers of three-entry masks and power 1 in every bin. -/
theorem C16_never_below_room_witness :
    (0 < paramsFourOne.impulse_factor ∧ 0 < paramsFourOne.mask_boundary_value ∧
      paramsFourOne.mask_boundary_value < paramsFourOne.impulse_factor) ∧
    ∃ masks, initThermalMasks cfgSmallReal 2 paramsFourOne (fun _ => 0) = some masks ∧
      (∀ mask ∈ masks, ∀ k, k < cfgSmallReal.THERMAL_MASK_DIM → 0 ≤ mask k) ∧
      ∃ r, performPowerBlurring cfgSmallReal (fun _ _ _ => 1)
          (fun l => masks.getD l (fun _ => 0)) 2 0 false false = some r ∧
        ∀ x y, x < cfgSmallReal.THERMAL_MAP_DIM → y < cfgSmallReal.THERMAL_MAP_DIM →
          cfgSmallReal.ROOM_TEMPERATURE_K ≤ r.thermal_map x y :=
  ⟨⟨by norm_num [paramsFourOne], by norm_num [paramsFourOne], by norm_num [paramsFourOne]⟩,
    C16_never_below_room cfgSmallReal 2 paramsFourOne (fun _ => 0) (fun _ _ _ => 1) 0 false
      false rfl rfl (by decide) (by decide) (by norm_num [paramsFourOne])
      (by norm_num [paramsFourOne]) (by norm_num [paramsFourOne])
      (fun _ _ _ _ _ _ => zero_le_one)⟩

end BaselineClaims

section LayerFacts

variable {α : Type} [LinearOrderedField α] [FloorRing α]

/-- The call of `generatePowerMaps` returns the maps `maps` exactly when every layer below
`layers` holds the map built from the zero map by the loop over the blocks and the other
layers hold what they held before. -/
theorem generatePowerMaps_some_iff (cfg : Config α) (self : PowerMaps α) (layers : Int)
    (blocks : List (Block α)) (outline_x outline_y scale : α) (ext : Bool)
    (maps : Nat → Grid α) :
    generatePowerMaps cfg self layers blocks outline_x outline_y scale ext = some maps ↔
      (∀ i : Nat, (i : Int) < layers →
        layerGrid cfg self i blocks outline_x outline_y scale ext = some (maps i)) ∧
      (∀ l : Nat, layers ≤ (l : Int) → maps l = self.power_maps l) := by
  have aux : ∀ (n : Nat) (maps : Nat → Grid α),
      (List.range n).foldlM (fun s (k : Nat) =>
        (fun (i : Int) (power_maps : Nat → Grid α) =>
          (blocks.foldlM (blockStep cfg self i outline_x outline_y scale ext)
            (Grid.fill 0)).bind (fun grid =>
              some (fun l => if l = i.toNat then grid else power_maps l)))
          (0 + (k : Int)) s) self.power_maps = some maps ↔
      (∀ i : Nat, i < n →
        layerGrid cfg self i blocks outline_x outline_y scale ext = some (maps i)) ∧
      (∀ l : Nat, n ≤ l → maps l = self.power_maps l) := by
    intro n
    induction n with
    | zero =>
      intro maps
      simp only [List.range_zero, List.foldlM_nil]
      constructor
      · intro h
        have h' : self.power_maps = maps := Option.some.inj h
        exact ⟨fun i hi => absurd hi (Nat.not_lt_zero i), fun l _ => by rw [h']⟩
      · rintro ⟨-, h⟩
        have : self.power_maps = maps := by
          funext l
          exact (h l (Nat.zero_le l)).symm
        rw [this]
        rfl
    | succ n ih =>
      intro maps
      rw [List.range_succ, List.foldlM_append]
      simp only [List.foldlM_cons, List.foldlM_nil, zero_add, Int.toNat_ofNat]
      constructor
      · intro h
        rcases hpre : (List.range n).foldlM (fun s (k : Nat) =>
            (fun (i : Int) (power_maps : Nat → Grid α) =>
              (blocks.foldlM (blockStep cfg self i outline_x outline_y scale ext)
                (Grid.fill 0)).bind (fun grid =>
                  some (fun l => if l = i.toNat then grid else power_maps l)))
              (0 + (k : Int)) s) self.power_maps with _ | m1
        · simp only [zero_add, Int.toNat_ofNat] at hpre
          rw [hpre] at h
          exact absurd h (by simp)
        · obtain ⟨h1, h2⟩ := (ih m1).mp hpre
          simp only [zero_add, Int.toNat_ofNat] at hpre
          rw [hpre] at h
          simp only [Option.bind_eq_bind, Option.some_bind] at h
          rcases hg : blocks.foldlM (blockStep cfg self (n : Int) outline_x outline_y scale
              ext) (Grid.fill 0) with _ | g
          · rw [hg] at h
            exact absurd h (by simp)
          · rw [hg] at h
            simp only [Option.some_bind, Option.bind_some] at h
            have hmaps : maps = fun l => if l = n then g else m1 l := by
              have := Option.some.inj h
              simpa using this.symm
            subst hmaps
            refine ⟨fun i hi => ?_, fun l hl => ?_⟩
            · by_cases hin : i = n
              · subst hin
                simpa [layerGrid] using hg
              · simp only [if_neg hin]
                exact h1 i (by omega)
            · simp only [if_neg (show l ≠ n by omega)]
              exact h2 l (by omega)
      · rintro ⟨h1, h2⟩
        have hpre := (ih (fun l => if l < n then maps l else self.power_maps l)).mpr
          ⟨fun i hi => by simpa [hi] using h1 i (by omega),
            fun l hl => by simp [show ¬ l < n by omega]⟩
        simp only [zero_add, Int.toNat_ofNat] at hpre
        rw [hpre]
        have hg := h1 n (Nat.lt_succ_self n)
        unfold layerGrid at hg
        simp only [Option.bind_eq_bind, Option.some_bind, hg, Option.bind_some]
        congr 1
        funext l
        by_cases hln : l = n
        · subst hln
          simp
        · by_cases hlt : l < n
          · simp [hln, hlt]
          · simp only [if_neg hln, if_neg hlt]
            exact (h2 l (by omega)).symm
  unfold generatePowerMaps forRange
  have hrw := aux (layers - 0).toNat maps
  simp only [Option.bind_eq_bind] at hrw ⊢
  rw [hrw]
  constructor
  · rintro ⟨h1, h2⟩
    exact ⟨fun i hi => h1 i (by omega), fun l hl => h2 l (by omega)⟩
  · rintro ⟨h1, h2⟩
    exact ⟨fun i hi => h1 i (by omega), fun l hl => h2 l (by omega)⟩

end LayerFacts

section LayerClaims

variable {α : Type} [LinearOrderedField α] [FloorRing α]

end LayerClaims

section LayerClaims2

variable {α : Type} [LinearOrderedField α] [FloorRing α]

/-- The loop over the blocks does not read the power maps it is about to replace. -/
theorem layerGrid_initial (cfg : Config α) (self : PowerMaps α) (initial : Nat → Grid α)
    (i : Int) (blocks : List (Block α)) (outline_x outline_y scale : α) (ext : Bool) :
    layerGrid cfg { self with power_maps := initial } i blocks outline_x outline_y scale ext =
      layerGrid cfg self i blocks outline_x outline_y scale ext :=
  rfl

/-- C18: `generatePowerMaps` rebuilds the maps of the layers below `layers` from scratch:
whatever the power maps hold before the call, the call is defined in the same cases and
leaves the same maps in these layers; hence a second call with the same arguments right
after the first returns the maps of the first. -/
theorem C18_rebuilt_from_scratch (cfg : Config α) (self : PowerMaps α) (layers : Int)
    (blocks : List (Block α)) (outline_x outline_y scale : α) (ext : Bool) :
    (∀ initial : Nat → Grid α,
      (generatePowerMaps cfg { self with power_maps := initial } layers blocks outline_x
          outline_y scale ext).isSome =
        (generatePowerMaps cfg self layers blocks outline_x outline_y scale ext).isSome ∧
      ∀ maps maps' : Nat → Grid α,
        generatePowerMaps cfg self layers blocks outline_x outline_y scale ext = some maps →
        generatePowerMaps cfg { self with power_maps := initial } layers blocks outline_x
          outline_y scale ext = some maps' →
        ∀ l : Nat, (l : Int) < layers → maps' l = maps l) ∧
    (∀ maps : Nat → Grid α,
      generatePowerMaps cfg self layers blocks outline_x outline_y scale ext = some maps →
      generatePowerMaps cfg { self with power_maps := maps } layers blocks outline_x
        outline_y scale ext = some maps) := by
  have key : ∀ (a b : PowerMaps α) (maps : Nat → Grid α),
      (∀ i, layerGrid cfg a i blocks outline_x outline_y scale ext =
        layerGrid cfg b i blocks outline_x outline_y scale ext) →
      generatePowerMaps cfg a layers blocks outline_x outline_y scale ext = some maps →
      generatePowerMaps cfg b layers blocks outline_x outline_y scale ext =
        some (fun (l : Nat) => if (l : Int) < layers then maps l else b.power_maps l) := by
    intro a b maps hab h
    obtain ⟨h1, -⟩ := (generatePowerMaps_some_iff cfg a layers blocks outline_x outline_y
      scale ext maps).mp h
    refine (generatePowerMaps_some_iff cfg b layers blocks outline_x outline_y scale ext
      _).mpr ⟨fun i hi => ?_, fun l hl => ?_⟩
    · rw [← hab, h1 i hi, if_pos hi]
    · rw [if_neg (by omega)]
  constructor
  · intro initial
    constructor
    · rw [Bool.eq_iff_iff, Option.isSome_iff_exists, Option.isSome_iff_exists]
      constructor
      · rintro ⟨maps, h⟩
        exact ⟨_, key _ self maps (fun i => layerGrid_initial cfg self initial i blocks
          outline_x outline_y scale ext) h⟩
      · rintro ⟨maps, h⟩
        exact ⟨_, key self _ maps (fun i => (layerGrid_initial cfg self initial i blocks
          outline_x outline_y scale ext).symm) h⟩
    · intro maps maps' h h' l hl
      have h2 := key self { self with power_maps := initial } maps
        (fun i => (layerGrid_initial cfg self initial i blocks outline_x outline_y scale
          ext).symm) h
      rw [h'] at h2
      have := congrFun (Option.some.inj h2) l
      rw [this, if_pos hl]
  · intro maps h
    have h2 := key self { self with power_maps := maps } maps
      (fun i => (layerGrid_initial cfg self maps i blocks outline_x outline_y scale
        ext).symm) h
    rw [h2]
    congr 1
    funext l
    split_ifs <;> rfl

end LayerClaims2

/-- C18 on the 6 × 6 grid of the scenario: the call on one block returns maps, and the
second call, started from these maps, returns them again. -/
theorem C18_rebuilt_from_scratch_witness :
    ∃ maps : Nat → Grid ℚ,
      generatePowerMaps cfgScenario (geometryOf cfgScenario membersZero 10 10) 2
        blocksLayerZero 10 10 (1 / 2) false = some maps ∧
      generatePowerMaps cfgScenario
        { geometryOf cfgScenario membersZero 10 10 with power_maps := maps } 2
        blocksLayerZero 10 10 (1 / 2) false = some maps := by
  have h := generatePowerMaps_eq cfgScenario (geometryOf cfgScenario membersZero 10 10) 2
    blocksLayerZero 10 10 (1 / 2) false (fun i _ block hblock => by
      simp only [blocksLayerZero, List.mem_singleton] at hblock
      subst hblock
      intro _
      decide!)
  exact ⟨_, h, (C18_rebuilt_from_scratch cfgScenario
    (geometryOf cfgScenario membersZero 10 10) 2 blocksLayerZero 10 10 (1 / 2) false).2 _ h⟩

section LinearityClaims

variable {α : Type} [LinearOrderedField α]

theorem tmpMapOf_add (cfg : Config α) (P Q : Nat → Grid α) (M : Nat → Nat → α)
    (layers a b : Nat) :
    tmpMapOf cfg (fun l x y => P l x y + Q l x y) M layers a b =
      tmpMapOf cfg P M layers a b + tmpMapOf cfg Q M layers a b := by
  unfold tmpMapOf hconv
  split_ifs
  · simp only [add_mul, Finset.sum_add_distrib]
  · rw [add_zero]

theorem tmpMapOf_smul (cfg : Config α) (P : Nat → Grid α) (M : Nat → Nat → α) (c : α)
    (layers a b : Nat) :
    tmpMapOf cfg (fun l x y => c * P l x y) M layers a b =
      c * tmpMapOf cfg P M layers a b := by
  unfold tmpMapOf hconv
  split_ifs
  · simp only [Finset.mul_sum, mul_assoc]
  · rw [mul_zero]

/-- The rise of the thermal map over the room temperature is additive in the power maps. -/
theorem thermalMapOf_add (cfg : Config α) (P Q : Nat → Grid α) (M : Nat → Nat → α)
    (layers a b : Nat) :
    thermalMapOf cfg (fun l x y => P l x y + Q l x y) M layers a b - cfg.ROOM_TEMPERATURE_K =
      (thermalMapOf cfg P M layers a b - cfg.ROOM_TEMPERATURE_K) +
        (thermalMapOf cfg Q M layers a b - cfg.ROOM_TEMPERATURE_K) := by
  unfold thermalMapOf vconv
  simp only [add_sub_cancel_left]
  split_ifs
  · simp only [tmpMapOf_add, add_mul, Finset.sum_add_distrib]
  · rw [add_zero]

/-- The rise of the thermal map over the room temperature is homogeneous in the power
maps. -/
theorem thermalMapOf_smul (cfg : Config α) (P : Nat → Grid α) (M : Nat → Nat → α) (c : α)
    (layers a b : Nat) :
    thermalMapOf cfg (fun l x y => c * P l x y) M layers a b - cfg.ROOM_TEMPERATURE_K =
      c * (thermalMapOf cfg P M layers a b - cfg.ROOM_TEMPERATURE_K) := by
  unfold thermalMapOf vconv
  simp only [add_sub_cancel_left]
  split_ifs
  · simp only [tmpMapOf_smul, Finset.mul_sum, mul_assoc]
  · rw [mul_zero]

/-- C20: for fixed masks the rise of the thermal map over the room temperature computed
by `performPowerBlurring` is linear in the power maps: at every visible bin the rise for
`P + Q` is the sum of the rises for `P` and for `Q`, and the rise for `c * P` is `c` times
the rise for `P`. -/
theorem C20_rise_linear (cfg : Config α) (P Q : Nat → Grid α)
    (thermal_masks : Nat → Nat → α) (layers : Int) (max_cost_temp c : α)
    (set_max_cost normalize : Bool)
    (hD : cfg.POWER_MAPS_DIM = cfg.THERMAL_MAP_DIM + 2 * cfg.POWER_MAPS_PADDED_BINS)
    (hM : cfg.THERMAL_MASK_DIM = 2 * cfg.THERMAL_MASK_CENTER + 1)
    (hC : cfg.THERMAL_MASK_CENTER ≤ cfg.POWER_MAPS_PADDED_BINS) :
    ∃ rP rQ rPQ rcP,
      performPowerBlurring cfg P thermal_masks layers max_cost_temp set_max_cost normalize
        = some rP ∧
      performPowerBlurring cfg Q thermal_masks layers max_cost_temp set_max_cost normalize
        = some rQ ∧
      performPowerBlurring cfg (fun l x y => P l x y + Q l x y) thermal_masks layers
        max_cost_temp set_max_cost normalize = some rPQ ∧
      performPowerBlurring cfg (fun l x y => c * P l x y) thermal_masks layers
        max_cost_temp set_max_cost normalize = some rcP ∧
      ∀ x y, x < cfg.THERMAL_MAP_DIM → y < cfg.THERMAL_MAP_DIM →
        rPQ.thermal_map x y - cfg.ROOM_TEMPERATURE_K =
          (rP.thermal_map x y - cfg.ROOM_TEMPERATURE_K) +
            (rQ.thermal_map x y - cfg.ROOM_TEMPERATURE_K) ∧
        rcP.thermal_map x y - cfg.ROOM_TEMPERATURE_K =
          c * (rP.thermal_map x y - cfg.ROOM_TEMPERATURE_K) := by
  obtain ⟨_, -, hP⟩ := performPowerBlurring_eq cfg P thermal_masks layers max_cost_temp
    set_max_cost normalize hD hM hC
  obtain ⟨_, -, hQ⟩ := performPowerBlurring_eq cfg Q thermal_masks layers max_cost_temp
    set_max_cost normalize hD hM hC
  obtain ⟨_, -, hPQ⟩ := performPowerBlurring_eq cfg (fun l x y => P l x y + Q l x y)
    thermal_masks layers max_cost_temp set_max_cost normalize hD hM hC
  obtain ⟨_, -, hcP⟩ := performPowerBlurring_eq cfg (fun l x y => c * P l x y)
    thermal_masks layers max_cost_temp set_max_cost normalize hD hM hC
  exact ⟨_, _, _, _, hP, hQ, hPQ, hcP, fun x y _ _ =>
    ⟨thermalMapOf_add cfg P Q thermal_masks layers.toNat x y,
      thermalMapOf_smul cfg P thermal_masks c layers.toNat x y⟩⟩

/-- C20 on the three-by-three grid with two layers, `P = Q` and `c = 3`. -/
theorem C20_rise_linear_witness :
    ∃ rP rQ rPQ rcP,
      performPowerBlurring cfgSmall powerTwoLayers masksTwoLayers 2 0 false false = some rP ∧
      performPowerBlurring cfgSmall powerTwoLayers masksTwoLayers 2 0 false false = some rQ ∧
      performPowerBlurring cfgSmall
        (fun l x y => powerTwoLayers l x y + powerTwoLayers l x y) masksTwoLayers 2 0 false
        false = some rPQ ∧
      performPowerBlurring cfgSmall (fun l x y => 3 * powerTwoLayers l x y) masksTwoLayers 2
        0 false false = some rcP ∧
      ∀ x y, x < cfgSmall.THERMAL_MAP_DIM → y < cfgSmall.THERMAL_MAP_DIM →
        rPQ.thermal_map x y - cfgSmall.ROOM_TEMPERATURE_K =
          (rP.thermal_map x y - cfgSmall.ROOM_TEMPERATURE_K) +
            (rQ.thermal_map x y - cfgSmall.ROOM_TEMPERATURE_K) ∧
        rcP.thermal_map x y - cfgSmall.ROOM_TEMPERATURE_K =
          3 * (rP.thermal_map x y - cfgSmall.ROOM_TEMPERATURE_K) :=
  C20_rise_linear cfgSmall powerTwoLayers powerTwoLayers masksTwoLayers 2 0 3 false false
    rfl rfl (by decide)

end LinearityClaims

section ConservationFacts

variable {α : Type} [LinearOrderedField α] [FloorRing α]

omit [FloorRing α] in
/-- The bins `0, …, n - 1` of pitch `dim` cut the interval `[lo, hi]` into pieces whose
lengths add up to the length of the part of the interval below `n * dim`. -/
theorem axis_overlap_sum (dim lo hi : α) (n : Nat) (hdim : 0 < dim) (hlo : 0 ≤ lo)
    (hlohi : lo ≤ hi) :
    (∑ a in Finset.range n,
      max 0 (min (((a + 1 : Nat) : α) * dim) hi - max ((a : α) * dim) lo)) =
      max 0 (min ((n : α) * dim) hi - lo) := by
  induction n with
  | zero =>
    simp only [Finset.range_zero, Finset.sum_empty, Nat.cast_zero, zero_mul]
    rw [max_eq_left]
    have := min_le_left (0 : α) hi
    linarith
  | succ n ih =>
    rw [Finset.sum_range_succ, ih]
    have e : ((n + 1 : Nat) : α) * dim = (n : α) * dim + dim := by push_cast; ring
    rw [e]
    generalize (n : α) * dim = u
    simp only [max_def, min_def]
    split_ifs <;> linarith

/-- A bin left of the index range of `[lo, hi]` does not meet the interval. -/
theorem axis_overlap_left (dim lo hi : α) (a : Nat) (hdim : 0 < dim) (hlo : 0 ≤ lo)
    (h : (a : Int) < truncToInt (lo / dim)) :
    max 0 (min (((a + 1 : Nat) : α) * dim) hi - max ((a : α) * dim) lo) = 0 := by
  rw [truncToInt_of_nonneg _ (div_nonneg hlo hdim.le)] at h
  have h1 : ((a : Int) + 1) ≤ ⌊lo / dim⌋ := by omega
  have h2 : ((a + 1 : Nat) : α) ≤ lo / dim := by
    have := Int.le_floor.mp h1
    exact_mod_cast this
  have h3 : ((a + 1 : Nat) : α) * dim ≤ lo := (le_div_iff₀ hdim).mp h2
  refine max_eq_left (sub_nonpos.mpr ?_)
  exact le_trans (min_le_left _ _) (le_trans h3 (le_max_right _ _))

/-- A bin right of the index range of `[lo, hi]` does not meet the interval. -/
theorem axis_overlap_right (dim lo hi : α) (a : Nat) (hdim : 0 < dim) (hhi : 0 ≤ hi)
    (h : truncToInt (hi / dim) + 1 ≤ (a : Int)) :
    max 0 (min (((a + 1 : Nat) : α) * dim) hi - max ((a : α) * dim) lo) = 0 := by
  rw [truncToInt_of_nonneg _ (div_nonneg hhi hdim.le)] at h
  have h1 : hi / dim < (a : α) := by
    have h2 : ⌊hi / dim⌋ < (a : Int) := by omega
    have := Int.floor_lt.mp h2
    exact_mod_cast this
  have h3 : hi < (a : α) * dim := (div_lt_iff₀ hdim).mp h1
  refine max_eq_left (sub_nonpos.mpr ?_)
  exact le_trans (min_le_right _ _) (le_trans h3.le (le_max_left _ _))

/-- A bin strictly between the first and the last bin of `[lo, hi]` lies inside the
interval. -/
theorem axis_overlap_full (dim lo hi : α) (a : Nat) (hdim : 0 < dim) (hlo : 0 ≤ lo)
    (hhi : 0 ≤ hi) (h1 : truncToInt (lo / dim) < (a : Int))
    (h2 : (a : Int) < truncToInt (hi / dim) + 1 - 1) :
    max 0 (min (((a + 1 : Nat) : α) * dim) hi - max ((a : α) * dim) lo) = dim := by
  rw [truncToInt_of_nonneg _ (div_nonneg hlo hdim.le)] at h1
  rw [truncToInt_of_nonneg _ (div_nonneg hhi hdim.le)] at h2
  have hl : lo / dim < (a : α) := by
    have := Int.floor_lt.mp h1
    exact_mod_cast this
  have hl' : lo < (a : α) * dim := (div_lt_iff₀ hdim).mp hl
  have hu : ((a + 1 : Nat) : α) ≤ hi / dim := by
    have h3 : ((a : Int) + 1) ≤ ⌊hi / dim⌋ := by omega
    have := Int.le_floor.mp h3
    exact_mod_cast this
  have hu' : ((a + 1 : Nat) : α) * dim ≤ hi := (le_div_iff₀ hdim).mp hu
  rw [min_eq_left hu', max_eq_left hl'.le]
  have e : ((a + 1 : Nat) : α) * dim - (a : α) * dim = dim := by push_cast; ring
  rw [e, max_eq_right hdim.le]

end ConservationFacts

section ConservationFacts2

variable {α : Type} [LinearOrderedField α] [FloorRing α]

/-- With padding scale 1 a block on layer `l` adds to every bin of the map the density
weighted by the share of the bin that the offset rectangle covers, whether the bin is
visited or not and whether it counts as fully covered or not. -/
theorem blockDelta_scale_one (cfg : Config α) (self0 : PowerMaps α) (outline_x outline_y : α)
    (ext : Bool) (block : Block α) (l a b : Nat)
    (hT : 0 < cfg.THERMAL_MAP_DIM) (hox : 0 < outline_x) (hoy : 0 < outline_y)
    (hl : block.layer = (l : Int))
    (ha : a + 1 ≤ cfg.POWER_MAPS_DIM) (hb : b + 1 ≤ cfg.POWER_MAPS_DIM)
    (hllx : 0 ≤ (blockOffset (geometryOf cfg self0 outline_x outline_y) block outline_x
      outline_y ext).ll.x)
    (hurx : 0 ≤ (blockOffset (geometryOf cfg self0 outline_x outline_y) block outline_x
      outline_y ext).ur.x)
    (hlly : 0 ≤ (blockOffset (geometryOf cfg self0 outline_x outline_y) block outline_x
      outline_y ext).ll.y)
    (hury : 0 ≤ (blockOffset (geometryOf cfg self0 outline_x outline_y) block outline_x
      outline_y ext).ur.y) :
    blockDelta cfg (geometryOf cfg self0 outline_x outline_y) (l : Int) outline_x outline_y 1
        ext block a b =
      block.power_density *
      (max 0 (min (((a + 1 : Nat) : α) * (outline_x / (cfg.THERMAL_MAP_DIM : α)))
          (blockOffset (geometryOf cfg self0 outline_x outline_y) block outline_x outline_y
            ext).ur.x
          - max ((a : α) * (outline_x / (cfg.THERMAL_MAP_DIM : α)))
            (blockOffset (geometryOf cfg self0 outline_x outline_y) block outline_x outline_y
              ext).ll.x) *
        max 0 (min (((b + 1 : Nat) : α) * (outline_y / (cfg.THERMAL_MAP_DIM : α)))
          (blockOffset (geometryOf cfg self0 outline_x outline_y) block outline_x outline_y
            ext).ur.y
          - max ((b : α) * (outline_y / (cfg.THERMAL_MAP_DIM : α)))
            (blockOffset (geometryOf cfg self0 outline_x outline_y) block outline_x outline_y
              ext).ll.y) /
        (outline_x / (cfg.THERMAL_MAP_DIM : α) * (outline_y / (cfg.THERMAL_MAP_DIM : α)))) := by
  have hTpos : (0 : α) < (cfg.THERMAL_MAP_DIM : α) := by exact_mod_cast hT
  have hdx : 0 < outline_x / (cfg.THERMAL_MAP_DIM : α) := div_pos hox hTpos
  have hdy : 0 < outline_y / (cfg.THERMAL_MAP_DIM : α) := div_pos hoy hTpos
  have hXL : xLower (geometryOf cfg self0 outline_x outline_y) block outline_x outline_y ext =
      truncToInt ((blockOffset (geometryOf cfg self0 outline_x outline_y) block outline_x
        outline_y ext).ll.x / (outline_x / (cfg.THERMAL_MAP_DIM : α))) := rfl
  have hXU : xUpper (geometryOf cfg self0 outline_x outline_y) block outline_x outline_y ext =
      truncToInt ((blockOffset (geometryOf cfg self0 outline_x outline_y) block outline_x
        outline_y ext).ur.x / (outline_x / (cfg.THERMAL_MAP_DIM : α))) + 1 := rfl
  have hYL : yLower (geometryOf cfg self0 outline_x outline_y) block outline_x outline_y ext =
      truncToInt ((blockOffset (geometryOf cfg self0 outline_x outline_y) block outline_x
        outline_y ext).ll.y / (outline_y / (cfg.THERMAL_MAP_DIM : α))) := rfl
  have hYU : yUpper (geometryOf cfg self0 outline_x outline_y) block outline_x outline_y ext =
      truncToInt ((blockOffset (geometryOf cfg self0 outline_x outline_y) block outline_x
        outline_y ext).ur.y / (outline_y / (cfg.THERMAL_MAP_DIM : α))) + 1 := rfl
  unfold blockDelta
  by_cases hvis : block.layer = (l : Int) ∧
      (xLower (geometryOf cfg self0 outline_x outline_y) block outline_x outline_y ext
          ≤ (a : Int) ∧
        (a : Int) < xUpper (geometryOf cfg self0 outline_x outline_y) block outline_x
          outline_y ext) ∧
      (yLower (geometryOf cfg self0 outline_x outline_y) block outline_x outline_y ext
          ≤ (b : Int) ∧
        (b : Int) < yUpper (geometryOf cfg self0 outline_x outline_y) block outline_x
          outline_y ext)
  · rw [if_pos hvis]
    by_cases hfull : xLower (geometryOf cfg self0 outline_x outline_y) block outline_x
          outline_y ext < (a : Int) ∧
        (a : Int) < xUpper (geometryOf cfg self0 outline_x outline_y) block outline_x
          outline_y ext - 1 ∧
        yLower (geometryOf cfg self0 outline_x outline_y) block outline_x outline_y ext
          < (b : Int) ∧
        (b : Int) < yUpper (geometryOf cfg self0 outline_x outline_y) block outline_x
          outline_y ext - 1
    · obtain ⟨f1, f2, f3, f4⟩ := hfull
      rw [axis_overlap_full _ _ _ a hdx hllx hurx (hXL ▸ f1) (hXU ▸ f2),
        axis_overlap_full _ _ _ b hdy hlly hury (hYL ▸ f3) (hYU ▸ f4),
        div_self (mul_pos hdx hdy).ne', mul_one]
      unfold binValue
      simp only []
      rw [if_pos ⟨f1, f2, f3, f4⟩]
      split_ifs
      · rw [mul_one]
      · rfl
    · rw [ binValue_partial _ _ _ _ _ _ _ _ _ _ _ _ _ ha hb hfull]
      congr 1
      split_ifs
      · rw [mul_one]
      · rfl
  · rw [if_neg hvis]
    have hout : (a : Int) < xLower (geometryOf cfg self0 outline_x outline_y) block outline_x
          outline_y ext ∨
        xUpper (geometryOf cfg self0 outline_x outline_y) block outline_x outline_y ext
          ≤ (a : Int) ∨
        (b : Int) < yLower (geometryOf cfg self0 outline_x outline_y) block outline_x
          outline_y ext ∨
        yUpper (geometryOf cfg self0 outline_x outline_y) block outline_x outline_y ext
          ≤ (b : Int) := by
      by_contra hcon
      exact hvis ⟨hl, ⟨by omega, by omega⟩, by omega, by omega⟩
    rcases hout with h | h | h | h
    · rw [axis_overlap_left _ _ _ a hdx hllx (hXL ▸ h), zero_mul, zero_div, mul_zero]
    · rw [axis_overlap_right _ _ _ a hdx hurx (hXU ▸ h), zero_mul, zero_div, mul_zero]
    · rw [axis_overlap_left _ _ _ b hdy hlly (hYL ▸ h), mul_zero, zero_div, mul_zero]
    · rw [axis_overlap_right _ _ _ b hdy hury (hYU ▸ h), mul_zero, zero_div, mul_zero]

end ConservationFacts2

section ConservationClaims

variable {α : Type} [LinearOrderedField α] [FloorRing α]

omit [FloorRing α] in
/-- Without boundary extension the offset rectangle is the bounding box shifted by the
block offsets. -/
theorem blockOffset_no_extension (self : PowerMaps α) (block : Block α)
    (outline_x outline_y : α) :
    (blockOffset self block outline_x outline_y false).ll.x =
        block.bb.ll.x + self.blocks_offset_x ∧
      (blockOffset self block outline_x outline_y false).ll.y =
        block.bb.ll.y + self.blocks_offset_y ∧
      (blockOffset self block outline_x outline_y false).ur.x =
        block.bb.ur.x + self.blocks_offset_x ∧
      (blockOffset self block outline_x outline_y false).ur.y =
        block.bb.ur.y + self.blocks_offset_y := by
  simp [blockOffset]

/-- Index range along one axis of an interval `[lo, hi]` with `0 ≤ lo`, `hi ≤ n * dim`. -/
theorem axis_range_in_map (dim lo hi : α) (n : Nat) (hdim : 0 < dim) (hlo : 0 ≤ lo)
    (hlohi : lo ≤ hi) (hhi : hi ≤ (n : α) * dim) :
    0 ≤ truncToInt (lo / dim) ∧ truncToInt (hi / dim) + 1 ≤ (n : Int) + 1 := by
  rw [truncToInt_of_nonneg _ (div_nonneg hlo hdim.le),
    truncToInt_of_nonneg _ (div_nonneg (le_trans hlo hlohi) hdim.le)]
  refine ⟨Int.floor_nonneg.mpr (div_nonneg hlo hdim.le), ?_⟩
  have h1 : hi / dim ≤ (n : α) := (div_le_iff₀ hdim).mpr hhi
  have h2 : ((⌊hi / dim⌋ : Int) : α) ≤ ((n : Int) : α) := by
    have := le_trans (Int.floor_le (hi / dim)) h1
    exact_mod_cast this
  have h3 : ⌊hi / dim⌋ ≤ (n : Int) := by exact_mod_cast h2
  omega

/-- C19: for a single block inside the chip outline on layer `l`, without boundary
extension and with padding power scale 1, the power maps conserve the total power: the sum
over all bins of `powerMap[l][x][y] * binArea` is the power density times the area of the
block's bounding box. -/
theorem C19_power_conserved (cfg : Config α) (self0 self : PowerMaps α) (layers : Int)
    (block : Block α) (outline_x outline_y : α) (l : Nat)
    (hT : 0 < cfg.THERMAL_MAP_DIM) (hP : 0 < cfg.POWER_MAPS_PADDED_BINS)
    (hD : cfg.POWER_MAPS_DIM = cfg.THERMAL_MAP_DIM + 2 * cfg.POWER_MAPS_PADDED_BINS)
    (hox : 0 < outline_x) (hoy : 0 < outline_y)
    (hinit : initPowerMaps cfg self0 layers outline_x outline_y = some self)
    (hl : block.layer = (l : Int)) (hll : (l : Int) < layers)
    (hx0 : 0 ≤ block.bb.ll.x) (hx1 : block.bb.ll.x ≤ block.bb.ur.x)
    (hx2 : block.bb.ur.x ≤ outline_x)
    (hy0 : 0 ≤ block.bb.ll.y) (hy1 : block.bb.ll.y ≤ block.bb.ur.y)
    (hy2 : block.bb.ur.y ≤ outline_y) :
    ∃ maps, generatePowerMaps cfg self layers [block] outline_x outline_y 1 false
        = some maps ∧
      (∑ x in Finset.range cfg.POWER_MAPS_DIM, ∑ y in Finset.range cfg.POWER_MAPS_DIM,
        maps l x y * self.power_maps_bin_area) =
      block.power_density *
        ((block.bb.ur.x - block.bb.ll.x) * (block.bb.ur.y - block.bb.ll.y)) := by
  rw [initPowerMaps_eq] at hinit
  obtain rfl := Option.some.inj hinit
  have hTpos : (0 : α) < (cfg.THERMAL_MAP_DIM : α) := by exact_mod_cast hT
  have hPnn : (0 : α) ≤ (cfg.POWER_MAPS_PADDED_BINS : α) := Nat.cast_nonneg _
  have hdx : 0 < outline_x / (cfg.THERMAL_MAP_DIM : α) := div_pos hox hTpos
  have hdy : 0 < outline_y / (cfg.THERMAL_MAP_DIM : α) := div_pos hoy hTpos
  obtain ⟨ellx, elly, eurx, eury⟩ := blockOffset_no_extension
    (geometryOf cfg self0 outline_x outline_y) block outline_x outline_y
  have offx : (geometryOf cfg self0 outline_x outline_y).blocks_offset_x =
      outline_x / (cfg.THERMAL_MAP_DIM : α) * (cfg.POWER_MAPS_PADDED_BINS : α) := rfl
  have offy : (geometryOf cfg self0 outline_x outline_y).blocks_offset_y =
      outline_y / (cfg.THERMAL_MAP_DIM : α) * (cfg.POWER_MAPS_PADDED_BINS : α) := rfl
  rw [offx] at ellx eurx
  rw [offy] at elly eury
  have hoffx : 0 ≤ outline_x / (cfg.THERMAL_MAP_DIM : α) * (cfg.POWER_MAPS_PADDED_BINS : α) :=
    mul_nonneg hdx.le hPnn
  have hoffy : 0 ≤ outline_y / (cfg.THERMAL_MAP_DIM : α) * (cfg.POWER_MAPS_PADDED_BINS : α) :=
    mul_nonneg hdy.le hPnn
  have eox : outline_x = (cfg.THERMAL_MAP_DIM : α) * (outline_x / (cfg.THERMAL_MAP_DIM : α)) := by
    field_simp
  have eoy : outline_y = (cfg.THERMAL_MAP_DIM : α) * (outline_y / (cfg.THERMAL_MAP_DIM : α)) := by
    field_simp
  have hhix : block.bb.ur.x
        + outline_x / (cfg.THERMAL_MAP_DIM : α) * (cfg.POWER_MAPS_PADDED_BINS : α) ≤
      ((cfg.THERMAL_MAP_DIM + cfg.POWER_MAPS_PADDED_BINS : Nat) : α) *
        (outline_x / (cfg.THERMAL_MAP_DIM : α)) := by
    have e : ((cfg.THERMAL_MAP_DIM + cfg.POWER_MAPS_PADDED_BINS : Nat) : α) *
          (outline_x / (cfg.THERMAL_MAP_DIM : α)) =
        (cfg.THERMAL_MAP_DIM : α) * (outline_x / (cfg.THERMAL_MAP_DIM : α)) +
          outline_x / (cfg.THERMAL_MAP_DIM : α) * (cfg.POWER_MAPS_PADDED_BINS : α) := by
      push_cast
      ring
    rw [e, ← eox]
    exact add_le_add_right hx2 _
  have hhiy : block.bb.ur.y
        + outline_y / (cfg.THERMAL_MAP_DIM : α) * (cfg.POWER_MAPS_PADDED_BINS : α) ≤
      ((cfg.THERMAL_MAP_DIM + cfg.POWER_MAPS_PADDED_BINS : Nat) : α) *
        (outline_y / (cfg.THERMAL_MAP_DIM : α)) := by
    have e : ((cfg.THERMAL_MAP_DIM + cfg.POWER_MAPS_PADDED_BINS : Nat) : α) *
          (outline_y / (cfg.THERMAL_MAP_DIM : α)) =
        (cfg.THERMAL_MAP_DIM : α) * (outline_y / (cfg.THERMAL_MAP_DIM : α)) +
          outline_y / (cfg.THERMAL_MAP_DIM : α) * (cfg.POWER_MAPS_PADDED_BINS : α) := by
      push_cast
      ring
    rw [e, ← eoy]
    exact add_le_add_right hy2 _
  obtain ⟨bx1, bx2⟩ := axis_range_in_map _ _ _ _ hdx (add_nonneg hx0 hoffx)
    (add_le_add_right hx1 _) hhix
  obtain ⟨by1, by2⟩ := axis_range_in_map _ _ _ _ hdy (add_nonneg hy0 hoffy)
    (add_le_add_right hy1 _) hhiy
  have hb : ∀ i : Nat, (i : Int) < layers → ∀ blk ∈ [block],
      BlockInBounds cfg (geometryOf cfg self0 outline_x outline_y) i outline_x outline_y
        false blk := by
    intro i _ blk hblk _
    rw [List.mem_singleton] at hblk
    subst hblk
    unfold xLower xUpper yLower yUpper
    rw [ellx, elly, eurx, eury]
    refine ⟨bx1, ?_, by1, ?_⟩
    · have : ((cfg.THERMAL_MAP_DIM + cfg.POWER_MAPS_PADDED_BINS : Nat) : Int) + 1 ≤
          (cfg.POWER_MAPS_DIM : Int) := by omega
      exact le_trans bx2 this
    · have : ((cfg.THERMAL_MAP_DIM + cfg.POWER_MAPS_PADDED_BINS : Nat) : Int) + 1 ≤
          (cfg.POWER_MAPS_DIM : Int) := by omega
      exact le_trans by2 this
  refine ⟨_, generatePowerMaps_eq cfg _ layers [block] outline_x outline_y 1 false hb, ?_⟩
  simp only [if_pos hll, List.map_cons, List.map_nil, List.sum_cons, List.sum_nil, add_zero]
  have harea : (geometryOf cfg self0 outline_x outline_y).power_maps_bin_area =
      outline_x / (cfg.THERMAL_MAP_DIM : α) * (outline_y / (cfg.THERMAL_MAP_DIM : α)) := rfl
  have hA : outline_x / (cfg.THERMAL_MAP_DIM : α) * (outline_y / (cfg.THERMAL_MAP_DIM : α)) ≠ 0 :=
    (mul_pos hdx hdy).ne'
  have hterm : ∀ x ∈ Finset.range cfg.POWER_MAPS_DIM, ∀ y ∈ Finset.range cfg.POWER_MAPS_DIM,
      blockDelta cfg (geometryOf cfg self0 outline_x outline_y) (l : Int) outline_x outline_y
          1 false block x y * (geometryOf cfg self0 outline_x outline_y).power_maps_bin_area =
        block.power_density *
          (max 0 (min (((x + 1 : Nat) : α) * (outline_x / (cfg.THERMAL_MAP_DIM : α)))
              (block.bb.ur.x
                + outline_x / (cfg.THERMAL_MAP_DIM : α) * (cfg.POWER_MAPS_PADDED_BINS : α))
            - max ((x : α) * (outline_x / (cfg.THERMAL_MAP_DIM : α)))
              (block.bb.ll.x
                + outline_x / (cfg.THERMAL_MAP_DIM : α) * (cfg.POWER_MAPS_PADDED_BINS : α))) *
           max 0 (min (((y + 1 : Nat) : α) * (outline_y / (cfg.THERMAL_MAP_DIM : α)))
              (block.bb.ur.y
                + outline_y / (cfg.THERMAL_MAP_DIM : α) * (cfg.POWER_MAPS_PADDED_BINS : α))
            - max ((y : α) * (outline_y / (cfg.THERMAL_MAP_DIM : α)))
              (block.bb.ll.y
                + outline_y / (cfg.THERMAL_MAP_DIM : α) * (cfg.POWER_MAPS_PADDED_BINS : α)))) := by
    intro x hx y hy
    have hx' := Finset.mem_range.mp hx
    have hy' := Finset.mem_range.mp hy
    rw [blockDelta_scale_one cfg self0 outline_x outline_y false block l x y hT hox hoy hl
      (by omega) (by omega)
      (by rw [ellx]; exact add_nonneg hx0 hoffx)
      (by rw [eurx]; exact add_nonneg (le_trans hx0 hx1) hoffx)
      (by rw [elly]; exact add_nonneg hy0 hoffy)
      (by rw [eury]; exact add_nonneg (le_trans hy0 hy1) hoffy),
      ellx, elly, eurx, eury, harea, mul_assoc, div_mul_cancel₀ _ hA]
  rw [Finset.sum_congr rfl (fun x hx => Finset.sum_congr rfl (fun y hy => hterm x hx y hy))]
  simp only [← Finset.mul_sum, ← Finset.sum_mul]
  rw [axis_overlap_sum _ _ _ _ hdx (add_nonneg hx0 hoffx) (add_le_add_right hx1 _),
    axis_overlap_sum _ _ _ _ hdy (add_nonneg hy0 hoffy) (add_le_add_right hy1 _)]
  have hDx : block.bb.ur.x
        + outline_x / (cfg.THERMAL_MAP_DIM : α) * (cfg.POWER_MAPS_PADDED_BINS : α) ≤
      (cfg.POWER_MAPS_DIM : α) * (outline_x / (cfg.THERMAL_MAP_DIM : α)) := by
    refine le_trans hhix (mul_le_mul_of_nonneg_right ?_ hdx.le)
    exact_mod_cast (by omega : cfg.THERMAL_MAP_DIM + cfg.POWER_MAPS_PADDED_BINS
      ≤ cfg.POWER_MAPS_DIM)
  have hDy : block.bb.ur.y
        + outline_y / (cfg.THERMAL_MAP_DIM : α) * (cfg.POWER_MAPS_PADDED_BINS : α) ≤
      (cfg.POWER_MAPS_DIM : α) * (outline_y / (cfg.THERMAL_MAP_DIM : α)) := by
    refine le_trans hhiy (mul_le_mul_of_nonneg_right ?_ hdy.le)
    exact_mod_cast (by omega : cfg.THERMAL_MAP_DIM + cfg.POWER_MAPS_PADDED_BINS
      ≤ cfg.POWER_MAPS_DIM)
  rw [min_eq_right hDx, min_eq_right hDy,
    max_eq_right (by linarith), max_eq_right (by linarith)]
  ring

end ConservationClaims

/-- C19 on the 6 × 6 grid of the scenario, outline 10 × 10: the block `[1, 6] × [2, 9]` of
density 5, spread over several bins, keeps its total power 5 · 35 = 175. -/
theorem C19_power_conserved_witness :
    ((generatePowerMaps cfgScenario (geometryOf cfgScenario membersZero 10 10) 1
        [blockAt 1 2 6 9 5] 10 10 1 false).map (fun maps =>
      ∑ x in Finset.range cfgScenario.POWER_MAPS_DIM,
        ∑ y in Finset.range cfgScenario.POWER_MAPS_DIM,
          maps 0 x y * (geometryOf cfgScenario membersZero 10 10).power_maps_bin_area)
      = some 175) ∧
    ∃ maps, generatePowerMaps cfgScenario (geometryOf cfgScenario membersZero 10 10) 1
        [blockAt 1 2 6 9 5] 10 10 1 false = some maps ∧
      (∑ x in Finset.range cfgScenario.POWER_MAPS_DIM,
        ∑ y in Finset.range cfgScenario.POWER_MAPS_DIM,
          maps 0 x y * (geometryOf cfgScenario membersZero 10 10).power_maps_bin_area) =
      (blockAt 1 2 6 9 5).power_density *
        (((blockAt 1 2 6 9 5).bb.ur.x - (blockAt 1 2 6 9 5).bb.ll.x) *
          ((blockAt 1 2 6 9 5).bb.ur.y - (blockAt 1 2 6 9 5).bb.ll.y)) :=
  ⟨by decide!,
    C19_power_conserved cfgScenario membersZero _ 1 (blockAt 1 2 6 9 5) 10 10 0 (by decide)
      (by decide) rfl (by decide!) (by decide!) (initPowerMaps_eq _ _ _ _ _) rfl (by decide)
      (by decide!) (by decide!) (by decide!) (by decide!) (by decide!) (by decide!)⟩

end ThermalAnalyzer
